import Mathlib

/-!
# RBAC core of the order/customer backend

A shallow embedding of `src/authMiddleware.js`, `src/rbacService.js`,
`src/rbacRepository.js` and the route table and handlers of `src/server.js`,
followed by the properties proved about it.

Conventions of the embedding:

* JavaScript values that reach the guards (decoded token payloads, request
  data) are values of `JsVal`.
* JavaScript strings are Lean strings (sequences of Unicode scalar values);
  where the source reads `.length`, the embedding counts UTF-16 code units.
* An Express middleware is a function returning an `Outcome`: it called
  `next()` once, it sent a response, or it threw.
* The token library (`jsonwebtoken`), the password hash (`bcrypt`) and the
  relational engine are not part of the repository; the embedded functions take
  them as arguments. Storage is a record of tables; a query is a function of
  it, and a statement of a transaction is a function that may be refused.
* A route handler returns a `Handled`: its response, the store afterwards and
  the repository functions it invoked.
* Time is counted in whole seconds.
-/

namespace Rbac

/-! ## JavaScript values -/

/-- JavaScript values as they occur in JSON request data and token payloads. -/
inductive JsVal where
  | undefined
  | null
  | bool (b : Bool)
  | num (n : Int)
  | str (s : String)
  | arr (items : List JsVal)
  | obj (fields : List (String × JsVal))
  deriving Repr, Inhabited

namespace JsVal

/-- JavaScript truthiness (`!v` is the negation of this). -/
def truthy : JsVal → Bool
  | undefined => false
  | null => false
  | bool b => b
  | num n => n != 0
  | str s => s != ""
  | arr _ => true
  | obj _ => true

/-- Whether the value is `null`. -/
def isNull : JsVal → Bool
  | null => true
  | _ => false

/-- Whether the value is a plain object. -/
def isObject : JsVal → Bool
  | obj _ => true
  | _ => false

/-- Property read `v.key` for a data key that is not a builtin member name:
`none` stands for the `TypeError` raised on `undefined` and `null`; an object
yields the bound value or `undefined`; every other value yields `undefined`. -/
def getProp (v : JsVal) (key : String) : Option JsVal :=
  match v with
  | undefined => none
  | null => none
  | obj fields =>
    match fields.lookup key with
    | some x => some x
    | none => some undefined
  | _ => some undefined

/-- Strict equality `v === s` against a string `s`. -/
def strictEqStr (v : JsVal) (s : String) : Bool :=
  match v with
  | str t => t == s
  | _ => false

end JsVal

/-! ## Middleware outcomes -/

/-- What one middleware invocation did: `next` is a single call of `next()`
with no response sent, `respond` is `res.status(status).json({ error })` with
no call of `next()`, and `throws` is a raised error (a rejected promise for an
`async` middleware) with neither. -/
inductive Outcome where
  | next
  | respond (status : Nat) (error : String)
  | throws
  deriving DecidableEq, Repr

/-! ## `authMiddleware.js` -/

/-- The callback of `req.user.permissions.some(...)`, run over the array from
left to right and stopping at the first match; `none` is a thrown `TypeError`
(property read on a `null` entry). -/
def somePermission (action module : String) : List JsVal → Option Bool
  | [] => some false
  | p :: rest =>
    match p.getProp "name_permission" with
    | none => none
    | some n =>
      if n.strictEqStr action then
        match p.getProp "module" with
        | none => none
        | some m =>
          if m.strictEqStr module then some true
          else somePermission action module rest
      else somePermission action module rest

/-- The middleware returned by `requirePermission(action, module)`, applied to
a request whose `req.user` is `user`. -/
def requirePermission (action module : String) (user : JsVal) : Outcome :=
  if !user.truthy then Outcome.respond 401 "Unauthorized"
  else
    match user.getProp "permissions" with
    | some (JsVal.arr ps) =>
      match somePermission action module ps with
      | none => Outcome.throws
      | some true => Outcome.next
      | some false => Outcome.respond 403 "Forbidden: lacking permission"
    | _ => Outcome.throws

/-- The middleware returned by `requireRole(roleName)`, applied to a request
whose `req.user` is `user`; `Array.prototype.includes` against a string. -/
def requireRole (roleName : String) (user : JsVal) : Outcome :=
  if !user.truthy then Outcome.respond 401 "Unauthorized"
  else
    let ok :=
      match user.getProp "roles" with
      | some (JsVal.arr rs) => rs.any (fun r => r.strictEqStr roleName)
      | _ => false
    if !ok then Outcome.respond 403 "Forbidden: role required"
    else Outcome.next

/-- Errors thrown by the token library. -/
inductive JwtError where
  | tokenExpired
  | jsonWebToken (message : String)
  | other (message : String)
  deriving DecidableEq, Repr

/-- The type of `jwt.verify(token, secret, { algorithms })`. -/
abbrev JwtVerify := String → String → List String → Except JwtError JsVal

/-- `verifyToken` of `rbacService.js`: the decoded payload, or `null` when the
library throws. -/
def verifyToken (jwtVerify : JwtVerify) (jwtSecret : String) (token : String) : JsVal :=
  match jwtVerify token jwtSecret ["HS256"] with
  | Except.ok decoded => decoded
  | Except.error _ => JsVal.null

/-- The part of an Express request the guards read and write. -/
structure Req where
  authorization : Option String
  user : JsVal := JsVal.undefined

/-- The expression `authHeader.startsWith("Bearer ") ? authHeader.slice(7) : null`. -/
def bearerToken (authHeader : String) : Option String :=
  if "Bearer ".toList.isPrefixOf authHeader.toList then
    some (String.mk (authHeader.toList.drop 7))
  else none

/-- `requireAuth`: the outcome and the request as it is afterwards. -/
def requireAuth (jwtVerify : JwtVerify) (jwtSecret : String) (req : Req) : Outcome × Req :=
  let authHeader :=
    match req.authorization with
    | some h => if h != "" then h else ""
    | none => ""
  match bearerToken authHeader with
  | none => (Outcome.respond 401 "Missing token", req)
  | some token =>
    if token == "" then (Outcome.respond 401 "Missing token", req)
    else
      let decoded := verifyToken jwtVerify jwtSecret token
      if !decoded.truthy then (Outcome.respond 401 "Invalid token", req)
      else (Outcome.next, { req with user := decoded })

/-! ## JavaScript string helpers -/

/-- `String.prototype.length`: the number of UTF-16 code units. -/
def utf16Length (s : String) : Nat :=
  (s.toList.map (fun c => if c.val.toNat ≥ 0x10000 then 2 else 1)).sum

/-- The characters removed by `String.prototype.trim` (ECMAScript WhiteSpace
and LineTerminator). -/
def isJsWhiteSpace (c : Char) : Bool :=
  let n := c.val.toNat
  n == 0x09 || n == 0x0A || n == 0x0B || n == 0x0C || n == 0x0D || n == 0x20 ||
  n == 0xA0 || n == 0x1680 || (0x2000 ≤ n && n ≤ 0x200A) || n == 0x2028 ||
  n == 0x2029 || n == 0x202F || n == 0x205F || n == 0x3000 || n == 0xFEFF

/-- `String.prototype.trim`. -/
def jsTrim (s : String) : String :=
  String.mk (((s.toList.dropWhile isJsWhiteSpace).reverse.dropWhile isJsWhiteSpace).reverse)

/-! ## The store -/

/-- A row of `Users`. -/
structure User where
  id : Int
  username : String
  password_hash : String
  deriving DecidableEq, Repr

/-- A row of `Roles`. -/
structure Role where
  id : Int
  name_role : String
  deriving DecidableEq, Repr

/-- A row of `Permissions`. -/
structure Permission where
  id : Int
  name_permission : String
  module : String
  deriving DecidableEq, Repr

/-- A row of `UserRoles`. -/
structure UserRole where
  id_user : Int
  id_role : Int
  deriving DecidableEq, Repr

/-- A row of `RolePermissions`. -/
structure RolePermission where
  id_role : Int
  id_permission : Int
  deriving DecidableEq, Repr

/-- A row of `Orders`; the timestamps are in seconds. -/
structure Order where
  id : Int
  item : String
  customer_name : String
  customer_phone : Option String := none
  customer_email : Option String := none
  customer_address : Option String := none
  created_by : Option Int := none
  created_at : Nat := 0
  updated_at : Nat := 0
  deriving DecidableEq, Repr

/-- A row of `Customers`; the timestamps are in seconds. -/
structure Customer where
  id : Int
  name : String
  phone : Option String := none
  email : Option String := none
  address : Option String := none
  created_by : Option Int := none
  created_at : Nat := 0
  updated_at : Nat := 0
  deriving DecidableEq, Repr

/-- The tables read and written by the RBAC core, each in storage order. -/
structure Store where
  users : List User := []
  roles : List Role := []
  permissions : List Permission := []
  userRoles : List UserRole := []
  rolePermissions : List RolePermission := []
  orders : List Order := []
  customers : List Customer := []
  deriving DecidableEq, Repr

/-- An error raised by the storage driver or thrown by a repository function. -/
structure DbError where
  message : String
  deriving DecidableEq, Repr

/-- The behaviour of the relational engine that the repository code does not
determine: how `=` compares text under the column collation, when a
statement of a transaction is refused (`some e`) given the rows it sees, when
an insert into `Permissions` is refused, the identity value the engine
gives to a new `Permissions` row (`SCOPE_IDENTITY()`), when an insert into
`Orders` is refused given the `created_by` value it is sent, and the identity
value of a new `Orders` row. -/
structure Engine where
  sqlEq : String → String → Bool
  beginFails : Store → Option DbError
  deleteFails : Store → Int → Option DbError
  insertFails : Store → RolePermission → Option DbError
  commitFails : Store → Option DbError
  permissionInsertFails : Store → String → String → Option DbError := fun _ _ _ => none
  nextPermissionId : Store → Int :=
    fun db => (db.permissions.map (fun p => p.id)).foldl max 0 + 1
  orderInsertFails : Store → JsVal → Option DbError := fun _ _ => none
  nextOrderId : Store → Int :=
    fun db => (db.orders.map (fun o => o.id)).foldl max 0 + 1

/-! ## `rbacRepository.js` -/

/-- `getUserByUsername`: `SELECT TOP 1 * FROM Users WHERE username=@username`,
then `recordset[0]`. -/
def getUserByUsername (eng : Engine) (db : Store) (username : String) : Option User :=
  db.users.find? (fun u => eng.sqlEq u.username username)

/-- `verifyPassword`, with `bcrypt.compare` as an argument. -/
def verifyPassword (bcryptCompare : String → String → Bool) (user : Option User)
    (plainPassword : String) : Bool :=
  match user with
  | none => false
  | some u => bcryptCompare plainPassword u.password_hash

/-- `getUserRoles`: `UserRoles ur JOIN Roles r ON ur.id_role = r.id WHERE
ur.id_user = @userId`, projected on `r.*`. -/
def getUserRoles (db : Store) (userId : Int) : List Role :=
  (db.userRoles.filter (fun ur => ur.id_user == userId)).flatMap
    (fun ur => db.roles.filter (fun r => ur.id_role == r.id))

/-- `getRolePermissions`: empty for an empty id list, otherwise `SELECT DISTINCT
p.*` over `RolePermissions rp JOIN Permissions p ON rp.id_permission = p.id
JOIN @ids_tbl i ON rp.id_role = i.id`. The integer ids are joined with commas
and split and cast back by the query; that passage is the identity on them. -/
def getRolePermissions (db : Store) (roleIds : List Int) : List Permission :=
  if roleIds.length == 0 then []
  else
    (db.rolePermissions.flatMap (fun rp =>
      (db.permissions.filter (fun p => rp.id_permission == p.id)).flatMap (fun p =>
        (roleIds.filter (fun i => rp.id_role == i)).map (fun _ => p)))).dedup

/-- `getUserPermissions`. -/
def getUserPermissions (db : Store) (userId : Int) : List Permission :=
  let roles := getUserRoles db userId
  let roleIds := roles.map (fun r => r.id)
  getRolePermissions db roleIds

/-- `getPermissionIdsByRole`: `SELECT id_permission FROM RolePermissions WHERE
id_role=@roleId`. -/
def getPermissionIdsByRole (db : Store) (roleId : Int) : List Int :=
  (db.rolePermissions.filter (fun rp => rp.id_role == roleId)).map (fun rp => rp.id_permission)

/-- One `DELETE FROM RolePermissions WHERE id_role=@roleId` inside a transaction. -/
def execDelete (eng : Engine) (w : Store) (roleId : Int) : Except DbError Store :=
  match eng.deleteFails w roleId with
  | some e => Except.error e
  | none => Except.ok { w with rolePermissions := w.rolePermissions.filter (fun rp => rp.id_role != roleId) }

/-- One `INSERT INTO RolePermissions (id_role, id_permission) VALUES (@roleId, @pid)`
inside a transaction. -/
def execInsert (eng : Engine) (w : Store) (roleId pid : Int) : Except DbError Store :=
  match eng.insertFails w ⟨roleId, pid⟩ with
  | some e => Except.error e
  | none => Except.ok { w with rolePermissions := w.rolePermissions ++ [⟨roleId, pid⟩] }

/-- The `for (const pid of permissionIds)` loop of `setRolePermissions`. -/
def insertAll (eng : Engine) (roleId : Int) : Store → List Int → Except DbError Store
  | w, [] => Except.ok w
  | w, pid :: rest =>
    match execInsert eng w roleId pid with
    | Except.error e => Except.error e
    | Except.ok w2 => insertAll eng roleId w2 rest

/-- `tx.commit()`: the rows of the transaction become the stored rows. -/
def txCommit (eng : Engine) (w : Store) : Except DbError Store :=
  match eng.commitFails w with
  | some e => Except.error e
  | none => Except.ok w

/-- The body of the `try` block of `setRolePermissions`, run on the
transaction's view `w` of the store. -/
def setRolePermissionsBody (eng : Engine) (w : Store) (roleId : Int)
    (permissionIds : List Int) : Except DbError Store :=
  match execDelete eng w roleId with
  | Except.error e => Except.error e
  | Except.ok w1 =>
    match insertAll eng roleId w1 permissionIds with
    | Except.error e => Except.error e
    | Except.ok w2 => txCommit eng w2

/-- `setRolePermissions`: the value returned (`ok ()` is `{ ok: true }`) or the
error raised, and the store afterwards. A refused `tx.begin()` raises before
the `try` block; an error inside it rolls the transaction back (a failure of
the rollback itself is swallowed) and is raised again. -/
def setRolePermissions (eng : Engine) (db : Store) (roleId : Int)
    (permissionIds : List Int) : Except DbError Unit × Store :=
  match eng.beginFails db with
  | some e => (Except.error e, db)
  | none =>
    match setRolePermissionsBody eng db roleId permissionIds with
    | Except.ok committed => (Except.ok (), committed)
    | Except.error e => (Except.error e, db)

/-! ## `rbacService.js` -/

/-- The type of `jwt.sign(payload, secret, { expiresIn, algorithm })`. -/
abbrev JwtSign := JsVal → String → String → String → Except JwtError String

/-- What `authenticate` raises. -/
inductive AuthError where
  | typeError (message : String)
  | jwt (e : JwtError)

/-- The value `{ token, user }` returned by `authenticate`. -/
structure AuthResult where
  token : String
  user : JsVal

/-- The payload object assembled by `authenticate`. -/
def authPayload (user : User) (roles : List Role) (permissions : List Permission) : JsVal :=
  JsVal.obj
    [("sub", JsVal.num user.id),
     ("username", JsVal.str user.username),
     ("roles", JsVal.arr (roles.map (fun r => JsVal.str r.name_role))),
     ("permissions", JsVal.arr (permissions.map (fun p =>
        JsVal.obj [("name_permission", JsVal.str p.name_permission),
                   ("module", JsVal.str p.module)])))]

/-- `authenticate`: `ok none` is the returned `null`. -/
def authenticate (eng : Engine) (bcryptCompare : String → String → Bool) (jwtSign : JwtSign)
    (jwtSecret : String) (db : Store) (username password : String) :
    Except AuthError (Option AuthResult) :=
  let user := getUserByUsername eng db username
  let valid := verifyPassword bcryptCompare user password
  if !valid then Except.ok none
  else
    match user with
    | none => Except.error (AuthError.typeError "Cannot read properties of undefined")
    | some u =>
      let permissions := getUserPermissions db u.id
      let roles := getUserRoles db u.id
      let payload := authPayload u roles permissions
      match jwtSign payload jwtSecret "1h" "HS256" with
      | Except.error e => Except.error (AuthError.jwt e)
      | Except.ok token => Except.ok (some { token := token, user := payload })

/-! ## `server.js`: `POST /auth/login` -/

/-- What a route handler did: it sent a response, or it rejected and the error
went to `next(err)`. -/
inductive RouteResult where
  | sent (status : Nat) (body : JsVal)
  | raised (message : String)

/-- The body `{ error: message }`. -/
def errorBody (message : String) : JsVal := JsVal.obj [("error", JsVal.str message)]

/-- The handler of `POST /auth/login` applied to `req.body`. -/
def loginRoute (eng : Engine) (bcryptCompare : String → String → Bool) (jwtSign : JwtSign)
    (jwtSecret : String) (db : Store) (body : JsVal) : RouteResult :=
  match body.getProp "username", body.getProp "password" with
  | some username, some password =>
    if !username.truthy || !password.truthy then
      RouteResult.sent 400 (errorBody "Username & password required")
    else
      match username, password with
      | JsVal.str u, JsVal.str p =>
        if utf16Length u > 100 || utf16Length p > 255 || utf16Length u < 1 || utf16Length p < 1 then
          RouteResult.sent 400 (errorBody "Invalid input length")
        else
          let cleanUsername := jsTrim u
          if cleanUsername == "" then
            RouteResult.sent 400 (errorBody "Username cannot be empty")
          else
            match authenticate eng bcryptCompare jwtSign jwtSecret db cleanUsername p with
            | Except.ok none => RouteResult.sent 401 (errorBody "Invalid credentials")
            | Except.ok (some result) =>
              RouteResult.sent 200
                (JsVal.obj [("token", JsVal.str result.token), ("user", result.user)])
            | Except.error _ => RouteResult.sent 500 (errorBody "Authentication failed")
      | _, _ => RouteResult.sent 400 (errorBody "Invalid input type")
  | _, _ => RouteResult.raised "TypeError: Cannot destructure property of req.body"

/-! ## The token library -/

/-- Modelled from the spec: the token library `jsonwebtoken` (`jwt.sign`,
`jwt.verify`) is not part of the repository. A decoded token: the algorithm
named by its header, its payload, and the key under which its signature
verifies. -/
structure Jws where
  alg : String
  payload : JsVal
  key : String

/-- Modelled from the spec: the compact serialisation of tokens, which the
repository never inspects; `decode` yields `none` on a structurally malformed
string. -/
structure TokenCodec where
  encode : Jws → String
  decode : String → Option Jws

/-- Modelled from the spec: the time spans accepted for `expiresIn`, a decimal
number followed by `s`, `m`, `h` or `d`, in seconds (so `1h` is 3600). -/
def timespanSeconds (span : String) : Option Nat :=
  let digits := span.toList.takeWhile Char.isDigit
  let unit := span.toList.dropWhile Char.isDigit
  let n := digits.foldl (fun acc c => acc * 10 + (c.toNat - 48)) 0
  if digits.length == 0 then none
  else
    match String.mk unit with
    | "s" => some n
    | "m" => some (n * 60)
    | "h" => some (n * 3600)
    | "d" => some (n * 86400)
    | _ => none

namespace Jwt

/-- Modelled from the spec: a payload stamped with the issue time `iat` and
the expiration `exp = iat + span`. -/
def stamped (now span : Nat) (payload : JsVal) : JsVal :=
  match payload with
  | JsVal.obj fields =>
    JsVal.obj (("iat", JsVal.num now) :: ("exp", JsVal.num (now + span)) :: fields)
  | v => v

/-- Modelled from the spec: the token that `jwt.sign` serialises at time `now`
(seconds): the object payload stamped with `iat` and `exp`, under the given
algorithm, signed with the secret. -/
def build (now : Nat) (payload : JsVal) (secret expiresIn algorithm : String) :
    Except JwtError Jws :=
  match payload.isObject, timespanSeconds expiresIn with
  | true, some span =>
    Except.ok { alg := algorithm, payload := stamped now span payload, key := secret }
  | _, _ => Except.error (JwtError.other "invalid payload or expiresIn")

/-- Modelled from the spec: `jwt.sign` at time `now`. -/
def sign (codec : TokenCodec) (now : Nat) : JwtSign :=
  fun payload secret expiresIn algorithm =>
    match build now payload secret expiresIn algorithm with
    | Except.ok j => Except.ok (codec.encode j)
    | Except.error e => Except.error e

/-- Modelled from the spec: `jwt.verify` at time `now` (seconds). It fails on a
malformed token, on a header algorithm outside the allowed list, on a
signature that does not verify under the secret, and on an expired token. The
spec leaves the expiration second itself open; here the token counts as
expired from that second on, as in the library. -/
def verify (codec : TokenCodec) (now : Nat) : JwtVerify :=
  fun token secret algorithms =>
    match codec.decode token with
    | none => Except.error (JwtError.jsonWebToken "jwt malformed")
    | some j =>
      if !(algorithms.contains j.alg) then
        Except.error (JwtError.jsonWebToken "invalid algorithm")
      else if j.key != secret then
        Except.error (JwtError.jsonWebToken "invalid signature")
      else
        match j.payload.getProp "exp" with
        | none => Except.error (JwtError.other "TypeError")
        | some (JsVal.num e) =>
          if (now : Int) ≥ e then Except.error JwtError.tokenExpired
          else Except.ok j.payload
        | some _ => Except.ok j.payload

end Jwt

/-! ## Permission administration -/

/-- `String.prototype.includes`: whether `sub` occurs in `s`. -/
def jsIncludes (s sub : String) : Bool :=
  s.toList.tails.any (fun t => sub.toList.isPrefixOf t)

/-- `createPermission` of `rbacRepository.js`: the record returned or the error
raised, and the store afterwards. The lookup is `SELECT id FROM Permissions
WHERE name_permission = @namePermission AND module = @module`; the insert
yields the new row's identity. -/
def createPermission (eng : Engine) (db : Store) (namePermission module : String) :
    Except DbError Permission × Store :=
  let checkRs := db.permissions.filter
    (fun p => eng.sqlEq p.name_permission namePermission && eng.sqlEq p.module module)
  if checkRs.length > 0 then
    (Except.error ⟨"Permission already exists for this module"⟩, db)
  else
    match eng.permissionInsertFails db namePermission module with
    | some e => (Except.error e, db)
    | none =>
      let id := eng.nextPermissionId db
      (Except.ok ⟨id, namePermission, module⟩,
        { db with permissions := db.permissions ++ [⟨id, namePermission, module⟩] })

/-- A repository function (or `authenticate`, which reads the store through the
repository) invoked by a route handler, with its arguments. -/
inductive RepoCall where
  | createPermission (namePermission module : String)
  | getUserByUsername (username : String)
  | updateUserPassword (userId : Option Int) (passwordHash : String)
  | updateOrder (orderId : Int) (item customer_name : String)
      (customer_phone customer_email customer_address : Option String)
  | deleteOrder (orderId : Int)
  | updateCustomer (customerId : Int)
  | deleteCustomer (customerId : Int)
  | authenticate (username password : String)
  | createOrder (item : String) (userId : Option Int) (customer_name : String)
      (customer_phone customer_email customer_address : Option String)
  | setRolePermissions (roleId : Int) (permissionIds : List Int)
  deriving DecidableEq, Repr

/-- What serving one request did: the handler's result, the store afterwards,
and the repository functions it invoked, in order. -/
structure Handled where
  result : RouteResult
  db : Store
  calls : List RepoCall := []

/-- The names accepted by `POST /admin/permissions` (`validPermissions`). -/
def validPermissions : List String := ["View", "Add", "Edit", "Delete"]

/-- The record `{ id, name_permission, module }` as a JSON value. -/
def Permission.toJs (p : Permission) : JsVal :=
  JsVal.obj [("id", JsVal.num p.id), ("name_permission", JsVal.str p.name_permission),
    ("module", JsVal.str p.module)]

/-- The validation part of the handler of `POST /admin/permissions`, applied to
`req.body`: the 400 response sent, or the cleaned name and module passed on;
`none` is the `TypeError` of destructuring a missing body. -/
def validatePermissionBody (body : JsVal) : Option (Except RouteResult (String × String)) :=
  match body.getProp "name_permission", body.getProp "module" with
  | some name_permission, some module =>
    if !name_permission.truthy || !module.truthy then
      some (Except.error
        (RouteResult.sent 400 (errorBody "Permission name and module are required")))
    else
      match name_permission, module with
      | JsVal.str n, JsVal.str m =>
        if utf16Length n < 1 || utf16Length n > 100 || utf16Length m < 1 || utf16Length m > 100 then
          some (Except.error
            (RouteResult.sent 400 (errorBody "Invalid input length (1-100 characters)")))
        else
          let cleanPermissionName := jsTrim n
          let cleanModule := jsTrim m
          if cleanPermissionName == "" || cleanModule == "" then
            some (Except.error
              (RouteResult.sent 400 (errorBody "Permission name and module cannot be empty")))
          else if !(validPermissions.contains cleanPermissionName) then
            some (Except.error (RouteResult.sent 400
              (errorBody "Permission name must be one of: View, Add, Edit, Delete")))
          else some (Except.ok (cleanPermissionName, cleanModule))
      | _, _ => some (Except.error (RouteResult.sent 400 (errorBody "Invalid input type")))
  | _, _ => none

/-- The `try`/`catch` part of the handler of `POST /admin/permissions`: the
response for the outcome of `repo.createPermission`. -/
def createPermissionResponse (outcome : Except DbError Permission) : RouteResult :=
  match outcome with
  | Except.ok newPermission =>
    RouteResult.sent 201
      (JsVal.obj [("message", JsVal.str "Permission created successfully"),
        ("data", newPermission.toJs)])
  | Except.error e =>
    if jsIncludes e.message "already exists" then RouteResult.sent 409 (errorBody e.message)
    else RouteResult.sent 500 (errorBody "Failed to create permission")

/-- The handler of `POST /admin/permissions` (after `requireAuth` and
`requireRole("Admin")`), applied to `req.body`. -/
def adminCreatePermissionRoute (eng : Engine) (db : Store) (body : JsVal) : Handled :=
  match validatePermissionBody body with
  | none =>
    { result := RouteResult.raised "TypeError: Cannot destructure property of req.body",
      db := db }
  | some (Except.error response) => { result := response, db := db }
  | some (Except.ok (cleanPermissionName, cleanModule)) =>
    let created := createPermission eng db cleanPermissionName cleanModule
    { result := createPermissionResponse created.1, db := created.2,
      calls := [RepoCall.createPermission cleanPermissionName cleanModule] }

/-! ## `server.js`: `POST /auth/change-password` -/

/-- The two functions of the `bcrypt` module used by the handler:
`compare(plain, hash)` and `hash(plain, rounds)`. -/
structure Bcrypt where
  compare : String → String → Bool
  hash : String → Nat → String

/-- The binding of the identifier `bcrypt` in `server.js`: the file requires
`path`, `express`, `./rbacService`, `./authMiddleware`, `./db` and
`./rbacRepository` only, so the identifier is unbound and evaluating it raises
a `ReferenceError`. -/
def serverBcrypt : Option Bcrypt := none

/-- Property read `user[key]` on a row of `Users` where a number is expected:
the row has the columns `id`, `username` and `password_hash`; any other key is
`undefined` (`none`). -/
def User.getInt (u : User) (key : String) : Option Int :=
  if key = "id" then some u.id else none

/-- `updateUserPassword`: `UPDATE Users SET password_hash = @passwordHash WHERE
id = @userId`; an `undefined` id is bound as `NULL` and matches no row. -/
def updateUserPassword (db : Store) (userId : Option Int) (passwordHash : String) : Store :=
  { db with users := db.users.map (fun u =>
      if some u.id = userId then { u with password_hash := passwordHash } else u) }

/-- The validation part of the handler of `POST /auth/change-password`, applied
to `req.body`: the 400 response sent, or the two passwords passed on; `none`
is the `TypeError` of destructuring a missing body. -/
def validateChangePasswordBody (body : JsVal) :
    Option (Except RouteResult (String × String)) :=
  match body.getProp "currentPassword", body.getProp "newPassword" with
  | some currentPassword, some newPassword =>
    if !currentPassword.truthy || !newPassword.truthy then
      some (Except.error
        (RouteResult.sent 400 (errorBody "Current and new passwords are required")))
    else
      match currentPassword, newPassword with
      | JsVal.str c, JsVal.str n =>
        if utf16Length n < 6 || utf16Length n > 255 then
          some (Except.error
            (RouteResult.sent 400 (errorBody "New password must be 6-255 characters")))
        else if utf16Length c < 1 || utf16Length c > 255 then
          some (Except.error
            (RouteResult.sent 400 (errorBody "Invalid current password length")))
        else if c == n then
          some (Except.error (RouteResult.sent 400
            (errorBody "New password must be different from current password")))
        else some (Except.ok (c, n))
      | _, _ => some (Except.error (RouteResult.sent 400 (errorBody "Invalid input type")))
  | _, _ => none

/-- The handler of `POST /auth/change-password` (after `requireAuth`), applied
to `req.body`, with `username` the string `req.user.username` of the claim set
and `bcrypt` the binding of that identifier in the file. Inside the `try`
block an unbound `bcrypt` raises a `ReferenceError`, which the `catch` answers
with 500. The row id passed to `updateUserPassword` is `user.user_id`. -/
def changePasswordRoute (eng : Engine) (bcrypt : Option Bcrypt) (db : Store)
    (username : String) (body : JsVal) : Handled :=
  match validateChangePasswordBody body with
  | none =>
    { result := RouteResult.raised "TypeError: Cannot destructure property of req.body",
      db := db }
  | some (Except.error response) => { result := response, db := db }
  | some (Except.ok (currentPassword, newPassword)) =>
    match getUserByUsername eng db username with
    | none =>
      { result := RouteResult.sent 404 (errorBody "User not found"), db := db,
        calls := [RepoCall.getUserByUsername username] }
    | some user =>
      match bcrypt with
      | none =>
        { result := RouteResult.sent 500 (errorBody "Failed to change password"), db := db,
          calls := [RepoCall.getUserByUsername username] }
      | some lib =>
        if !lib.compare currentPassword user.password_hash then
          { result := RouteResult.sent 401
              (JsVal.obj [("message", JsVal.str "Current password is incorrect")]),
            db := db, calls := [RepoCall.getUserByUsername username] }
        else
          let newHash := lib.hash newPassword 10
          { result := RouteResult.sent 200
              (JsVal.obj [("message", JsVal.str "Password changed successfully")]),
            db := updateUserPassword db (user.getInt "user_id") newHash,
            calls := [RepoCall.getUserByUsername username,
              RepoCall.updateUserPassword (user.getInt "user_id") newHash] }

/-! ## `server.js`: the route table -/

/-- A middleware registered in front of a handler. -/
inductive Middleware where
  | auth
  | permission (action module : String)
  | role (roleName : String)
  deriving DecidableEq, Repr

/-- The routes registered by `server.js`, in file order. -/
inductive Route where
  | root
  | health
  | login
  | profile
  | changePassword
  | getOrders
  | postOrders
  | putOrder
  | deleteOrder
  | getCustomers
  | postCustomers
  | putCustomer
  | deleteCustomer
  | adminUsers
  | adminRoles
  | adminPermissions
  | adminCreatePermission
  | adminModules
  | adminGetRolePermissions
  | adminSetRolePermissions
  deriving DecidableEq, Repr

/-- The method and path pattern under which a route is registered. -/
def Route.pattern : Route → String × String
  | Route.root => ("GET", "/")
  | Route.health => ("GET", "/health")
  | Route.login => ("POST", "/auth/login")
  | Route.profile => ("GET", "/auth/profile")
  | Route.changePassword => ("POST", "/auth/change-password")
  | Route.getOrders => ("GET", "/orders")
  | Route.postOrders => ("POST", "/orders")
  | Route.putOrder => ("PUT", "/orders/:id")
  | Route.deleteOrder => ("DELETE", "/orders/:id")
  | Route.getCustomers => ("GET", "/customers")
  | Route.postCustomers => ("POST", "/customers")
  | Route.putCustomer => ("PUT", "/customers/:id")
  | Route.deleteCustomer => ("DELETE", "/customers/:id")
  | Route.adminUsers => ("GET", "/admin/users")
  | Route.adminRoles => ("GET", "/admin/roles")
  | Route.adminPermissions => ("GET", "/admin/permissions")
  | Route.adminCreatePermission => ("POST", "/admin/permissions")
  | Route.adminModules => ("GET", "/admin/modules")
  | Route.adminGetRolePermissions => ("GET", "/admin/role-permissions")
  | Route.adminSetRolePermissions => ("POST", "/admin/role-permissions")

/-- The middlewares registered between the path and the handler of a route. -/
def Route.middlewares : Route → List Middleware
  | Route.root => []
  | Route.health => []
  | Route.login => []
  | Route.profile => [Middleware.auth]
  | Route.changePassword => [Middleware.auth]
  | Route.getOrders => [Middleware.auth, Middleware.permission "View" "Order"]
  | Route.postOrders => [Middleware.auth, Middleware.permission "Add" "Order"]
  | Route.putOrder => [Middleware.auth, Middleware.permission "Edit" "Order"]
  | Route.deleteOrder => [Middleware.auth, Middleware.permission "Delete" "Order"]
  | Route.getCustomers => [Middleware.auth, Middleware.permission "View" "Customer"]
  | Route.postCustomers => [Middleware.auth, Middleware.permission "Add" "Customer"]
  | Route.putCustomer => [Middleware.auth, Middleware.permission "Edit" "Customer"]
  | Route.deleteCustomer => [Middleware.auth, Middleware.permission "Delete" "Customer"]
  | Route.adminUsers => [Middleware.auth, Middleware.role "Admin"]
  | Route.adminRoles => [Middleware.auth, Middleware.role "Admin"]
  | Route.adminPermissions => [Middleware.auth, Middleware.role "Admin"]
  | Route.adminCreatePermission => [Middleware.auth, Middleware.role "Admin"]
  | Route.adminModules => [Middleware.auth, Middleware.role "Admin"]
  | Route.adminGetRolePermissions => [Middleware.auth, Middleware.role "Admin"]
  | Route.adminSetRolePermissions => [Middleware.auth, Middleware.role "Admin"]

/-- One middleware applied to the request. -/
def runMiddleware (jwtVerify : JwtVerify) (jwtSecret : String) (mw : Middleware) (req : Req) :
    Outcome × Req :=
  match mw with
  | Middleware.auth => requireAuth jwtVerify jwtSecret req
  | Middleware.permission action module => (requirePermission action module req.user, req)
  | Middleware.role roleName => (requireRole roleName req.user, req)

/-- Express runs the middlewares of a route in order; each one that calls
`next()` hands the request to the following one, and the handler runs when the
last one has called `next()`. Any other outcome ends the request. -/
def runChain (jwtVerify : JwtVerify) (jwtSecret : String) :
    List Middleware → Req → Outcome × Req
  | [], req => (Outcome.next, req)
  | mw :: rest, req =>
    match runMiddleware jwtVerify jwtSecret mw req with
    | (Outcome.next, req2) => runChain jwtVerify jwtSecret rest req2
    | (outcome, req2) => (outcome, req2)

/-- The gate of a route: the outcome of its middlewares; the handler runs
exactly when the outcome is `next`. -/
def gate (jwtVerify : JwtVerify) (jwtSecret : String) (route : Route) (req : Req) :
    Outcome × Req :=
  runChain jwtVerify jwtSecret route.middlewares req

/-! ## `rbacRepository.js`: paged queries -/

/-- A JavaScript Number (IEEE 754 binary64): `NaN`, an infinity, or a finite
value given by its exact rational value. The two zeros are identified (both are
bound as `0`). -/
inductive JsDouble where
  | nan
  | posInf
  | negInf
  | finite (q : ℚ)
  deriving DecidableEq

/-- The integer nearest to `x`, the even one of the two when `x` lies halfway. -/
def roundHalfEven (x : ℚ) : Int :=
  let f := ⌊x⌋
  let r := x - f
  if r < 1 / 2 then f
  else if 1 / 2 < r then f + 1
  else if f % 2 = 0 then f else f + 1

/-- The exponent `e` of the binade of a non-zero `q`, where `2^e ≤ |q| < 2^(e+1)`,
and `-1022` for the subnormal range below it. -/
def binade (q : ℚ) : Int := max (Int.log 2 |q|) (-1022)

/-- The double nearest to the exact result `q` of an arithmetic operation
(round to nearest, ties to even): `q` is rounded to a multiple of the unit in
the last of the 53 places of its binade, and a result of magnitude `2^1024` or
more is an infinity. -/
def round64 (q : ℚ) : JsDouble :=
  if q = 0 then JsDouble.finite 0
  else
    let ulp : ℚ := 2 ^ (binade q - 52)
    let v : ℚ := roundHalfEven (q / ulp) * ulp
    if 2 ^ 1024 ≤ |v| then (if 0 < q then JsDouble.posInf else JsDouble.negInf)
    else JsDouble.finite v

namespace JsDouble

/-- The comparison `a <= b` (and `b >= a`), false when either side is `NaN`. -/
def le (a b : JsDouble) : Bool :=
  match a, b with
  | nan, _ => false
  | _, nan => false
  | negInf, _ => true
  | _, posInf => true
  | posInf, _ => false
  | _, negInf => false
  | finite x, finite y => decide (x ≤ y)

/-- The operation `a - b`. -/
def sub (a b : JsDouble) : JsDouble :=
  match a, b with
  | nan, _ => nan
  | _, nan => nan
  | posInf, posInf => nan
  | negInf, negInf => nan
  | posInf, _ => posInf
  | negInf, _ => negInf
  | finite _, posInf => negInf
  | finite _, negInf => posInf
  | finite x, finite y => round64 (x - y)

/-- An infinity (the positive one when `positive`) times the finite `y`. -/
def scaleInf (positive : Bool) (y : ℚ) : JsDouble :=
  if y = 0 then nan else if decide (0 < y) == positive then posInf else negInf

/-- The operation `a * b`. -/
def mul (a b : JsDouble) : JsDouble :=
  match a, b with
  | nan, _ => nan
  | _, nan => nan
  | posInf, posInf => posInf
  | posInf, negInf => negInf
  | negInf, posInf => negInf
  | negInf, negInf => posInf
  | posInf, finite y => scaleInf true y
  | negInf, finite y => scaleInf false y
  | finite x, posInf => scaleInf true x
  | finite x, negInf => scaleInf false x
  | finite x, finite y => round64 (x * y)

end JsDouble

/-- The object passed to `getOrdersPaged` and `getCustomersPaged`, with a
Number for `page` and `pageSize` (the routes pass the result of `parseInt` or a
literal, and `Number` leaves a Number as it is); `none` is a property that is
`undefined`, for which the default of the parameter list applies. -/
structure PagedArgs where
  page : Option JsDouble := none
  pageSize : Option JsDouble := none
  sort : Option String := none
  dir : Option String := none
  search : Option String := none

/-- What a paged query function computes before it queries: the column and
direction interpolated into `ORDER BY`, the normalised page and page size, the
row offset bound to `@offset`, whether the search clause is present, the text
of the data query, and the direction it returns (`dir.toLowerCase()`). -/
structure PagedPlan where
  sort : String
  dir : String
  page : JsDouble
  pageSize : JsDouble
  offset : JsDouble
  hasSearch : Bool
  dataQuery : String
  returnedDir : String

/-- `String.prototype.toLowerCase` on the letters A to Z; other characters are
kept. Only `A`, `S` and `C` lower-case to `a`, `s` and `c`, so this decides the
comparison with `asc` as the full mapping does. -/
def jsToLowerCase (s : String) : String := String.mk (s.toList.map Char.toLower)

/-- `Number(x) >= 1 ? Number(x) : 1` on a Number. -/
def normalizePage (page : JsDouble) : JsDouble :=
  if (JsDouble.finite 1).le page then page else JsDouble.finite 1

/-- `Number(x) >= 1 && Number(x) <= 100 ? Number(x) : 10` on a Number. -/
def normalizePageSize (pageSize : JsDouble) : JsDouble :=
  if (JsDouble.finite 1).le pageSize && pageSize.le (JsDouble.finite 100) then pageSize
  else JsDouble.finite 10

/-- The data query text of `getOrdersPaged` for the interpolated pieces, each
run of white space of the template written as one blank. -/
def ordersDataQuery (whereSearch sort dir : String) : String :=
  "SELECT o.id, o.item, o.customer_name, o.customer_phone, o.customer_email, " ++
  "o.customer_address, o.created_at, o.updated_at, o.created_by, " ++
  "u.username as creator_username FROM Orders o LEFT JOIN Users u ON o.created_by = u.id " ++
  whereSearch ++ " ORDER BY o." ++ sort ++ " " ++ dir ++
  " OFFSET @offset ROWS FETCH NEXT @limit ROWS ONLY"

/-- The search clause of `getOrdersPaged`. -/
def ordersWhereSearch : String :=
  "WHERE (o.item LIKE @search OR o.customer_name LIKE @search OR " ++
  "o.customer_phone LIKE @search OR o.customer_email LIKE @search)"

/-- `getOrdersPaged`, up to its two queries. The offset `(page - 1) * pageSize`
is computed in double precision, each operation rounded. The search text is cut
to 255 code units and bound as a parameter; it is empty after the cut exactly
when it was empty before. -/
def getOrdersPaged (args : PagedArgs) : PagedPlan :=
  let page := args.page.getD (JsDouble.finite 1)
  let pageSize := args.pageSize.getD (JsDouble.finite 10)
  let sort := args.sort.getD "created_at"
  let dir := args.dir.getD "desc"
  let search := args.search.getD ""
  let sortWhitelist := ["id", "item", "customer_name", "created_at"]
  let sort := if !(sortWhitelist.contains sort) then "created_at" else sort
  let dir := if dir != "" && jsToLowerCase dir == "asc" then "ASC" else "DESC"
  let page := normalizePage page
  let pageSize := normalizePageSize pageSize
  let offset := (page.sub (JsDouble.finite 1)).mul pageSize
  let hasSearch := search != ""
  let whereSearch := if hasSearch then ordersWhereSearch else ""
  { sort := sort, dir := dir, page := page, pageSize := pageSize, offset := offset,
    hasSearch := hasSearch, dataQuery := ordersDataQuery whereSearch sort dir,
    returnedDir := jsToLowerCase dir }

/-- The data query text of `getCustomersPaged` for the interpolated pieces,
each run of white space of the template written as one blank. -/
def customersDataQuery (whereSearch sort dir : String) : String :=
  "SELECT c.id, c.name, c.phone, c.email, c.address, c.created_at, c.updated_at, " ++
  "c.created_by, u.username AS creator_username FROM Customers c " ++
  "LEFT JOIN Users u ON c.created_by = u.id " ++
  whereSearch ++ " ORDER BY c." ++ sort ++ " " ++ dir ++
  " OFFSET @offset ROWS FETCH NEXT @limit ROWS ONLY"

/-- The search clause of `getCustomersPaged`. -/
def customersWhereSearch : String :=
  "WHERE (c.name LIKE @search OR c.phone LIKE @search OR c.email LIKE @search OR " ++
  "c.address LIKE @search)"

/-- `getCustomersPaged`, up to its two queries. -/
def getCustomersPaged (args : PagedArgs) : PagedPlan :=
  let page := args.page.getD (JsDouble.finite 1)
  let pageSize := args.pageSize.getD (JsDouble.finite 10)
  let sort := args.sort.getD "created_at"
  let dir := args.dir.getD "desc"
  let search := args.search.getD ""
  let sortWhitelist := ["id", "name", "phone", "email", "created_at"]
  let sort := if !(sortWhitelist.contains sort) then "created_at" else sort
  let dir := if dir != "" && jsToLowerCase dir == "asc" then "ASC" else "DESC"
  let page := normalizePage page
  let pageSize := normalizePageSize pageSize
  let offset := (page.sub (JsDouble.finite 1)).mul pageSize
  let hasSearch := search != ""
  let whereSearch := if hasSearch then customersWhereSearch else ""
  { sort := sort, dir := dir, page := page, pageSize := pageSize, offset := offset,
    hasSearch := hasSearch, dataQuery := customersDataQuery whereSearch sort dir,
    returnedDir := jsToLowerCase dir }

/-! ## `server.js`: error responses -/

/-- A JavaScript error object as the handlers read it: its message, its stack
text if it has one, and its `status` property if it has one. -/
structure JsError where
  message : String
  stack : Option String := none
  status : Option Nat := none

/-- The status of a response; 0 when the handler raised instead. -/
def RouteResult.status : RouteResult → Nat
  | RouteResult.sent status _ => status
  | RouteResult.raised _ => 0

/-- The body of a response; `undefined` when the handler raised instead. -/
def RouteResult.body : RouteResult → JsVal
  | RouteResult.sent _ body => body
  | RouteResult.raised _ => JsVal.undefined

/-- The global error handler (`app.use((err, req, res, next) => ...)`), with
`nodeEnv` the value of `process.env.NODE_ENV` (`none` when unset). -/
def errorHandler (nodeEnv : Option String) (err : JsError) : RouteResult :=
  let isDev := nodeEnv != some "production"
  let errorField := if isDev then err.message else "Internal server error"
  let stackFields :=
    match err.stack with
    | some stack => if isDev && stack != "" then [("stack", JsVal.str stack)] else []
    | none => []
  let status :=
    match err.status with
    | some n => if n != 0 then n else 500
    | none => 500
  RouteResult.sent status (JsVal.obj (("error", JsVal.str errorField) :: stackFields))

/-- The handler of `GET /health`, with `ping` the outcome of `getPool()` and
the `SELECT 1` query and `timestamp` the current time as text. The handler
does not read `NODE_ENV`. -/
def healthRoute (ping : Except JsError Unit) (timestamp : String) : RouteResult :=
  match ping with
  | Except.ok _ =>
    RouteResult.sent 200
      (JsVal.obj [("status", JsVal.str "ok"), ("database", JsVal.str "connected"),
        ("timestamp", JsVal.str timestamp)])
  | Except.error err =>
    RouteResult.sent 503
      (JsVal.obj [("status", JsVal.str "error"), ("database", JsVal.str "disconnected"),
        ("message", JsVal.str err.message)])

/-! ## Orders and customers: update and delete -/

/-- `parseInt(s, 10)`: leading white space is skipped, a sign is read, then the
longest run of decimal digits; `none` is `NaN`. The value is the exact
integer, as in JavaScript for values up to `2^53 - 1`; larger ones, which
JavaScript rounds to a double or to an infinity, are outside the embedding. -/
def parseInt10 (s : String) : Option Int :=
  let t := s.toList.dropWhile isJsWhiteSpace
  let negative := t.head? == some '-'
  let rest := if t.head? == some '-' || t.head? == some '+' then t.drop 1 else t
  let digits := rest.takeWhile Char.isDigit
  let n : Int := digits.foldl (fun acc c => acc * 10 + ((c.toNat - 48 : Nat) : Int)) 0
  if digits.length == 0 then none
  else some (if negative then -n else n)

/-- The expression `value || null` on an optional text. -/
def orNull (value : Option String) : Option String :=
  match value with
  | some v => if v != "" then some v else none
  | none => none

/-- The values the order handlers pass to the repository once the body has
passed validation. -/
structure OrderInput where
  item : String
  customer_name : String
  customer_phone : Option String := none
  customer_email : Option String := none
  customer_address : Option String := none

/-- The values the customer handlers pass to the repository once the body has
passed validation. -/
structure CustomerInput where
  name : String
  phone : Option String := none
  email : Option String := none
  address : Option String := none

/-- `updateOrder`: `UPDATE Orders SET ... OUTPUT INSERTED.* WHERE id = @orderId`
at time `now`; the value returned is `recordset[0]`. -/
def updateOrder (db : Store) (now : Nat) (orderId : Int) (input : OrderInput) :
    Option Order × Store :=
  let updated := fun (o : Order) =>
    { o with item := input.item, customer_name := input.customer_name,
             customer_phone := orNull input.customer_phone,
             customer_email := orNull input.customer_email,
             customer_address := orNull input.customer_address, updated_at := now }
  (((db.orders.filter (fun o => o.id == orderId)).map updated).head?,
   { db with orders := db.orders.map (fun o => if o.id == orderId then updated o else o) })

/-- `deleteOrder`: `DELETE FROM Orders WHERE id = @orderId`; it returns
`{ success: true }` whatever the number of rows deleted. -/
def deleteOrder (db : Store) (orderId : Int) : Store :=
  { db with orders := db.orders.filter (fun o => o.id != orderId) }

/-- `updateCustomer`: `UPDATE Customers SET ... OUTPUT INSERTED.* WHERE
id=@customerId` at time `now`; the value returned is `recordset[0]`. -/
def updateCustomer (db : Store) (now : Nat) (customerId : Int) (input : CustomerInput) :
    Option Customer × Store :=
  let updated := fun (c : Customer) =>
    { c with name := input.name, phone := orNull input.phone, email := orNull input.email,
             address := orNull input.address, updated_at := now }
  (((db.customers.filter (fun c => c.id == customerId)).map updated).head?,
   { db with customers := db.customers.map (fun c => if c.id == customerId then updated c else c) })

/-- `deleteCustomer`: `DELETE FROM Customers WHERE id=@customerId`; it returns
`{ success: true }` whatever the number of rows deleted. -/
def deleteCustomer (db : Store) (customerId : Int) : Store :=
  { db with customers := db.customers.filter (fun c => c.id != customerId) }

/-- A row of `Orders` as a JSON value. -/
def Order.toJs (o : Order) : JsVal :=
  let text := fun (v : Option String) =>
    match v with
    | some t => JsVal.str t
    | none => JsVal.null
  JsVal.obj [("id", JsVal.num o.id), ("item", JsVal.str o.item),
    ("customer_name", JsVal.str o.customer_name), ("customer_phone", text o.customer_phone),
    ("customer_email", text o.customer_email), ("customer_address", text o.customer_address)]

/-- A row of `Customers` as a JSON value. -/
def Customer.toJs (c : Customer) : JsVal :=
  let text := fun (v : Option String) =>
    match v with
    | some t => JsVal.str t
    | none => JsVal.null
  JsVal.obj [("id", JsVal.num c.id), ("name", JsVal.str c.name), ("phone", text c.phone),
    ("email", text c.email), ("address", text c.address)]

/-- The handler of `DELETE /orders/:id` (after its guards), applied to
`req.params.id`. -/
def deleteOrderRoute (db : Store) (idParam : String) : Handled :=
  match parseInt10 idParam with
  | none => { result := RouteResult.sent 400 (errorBody "Invalid order ID"), db := db }
  | some orderId =>
    if orderId < 1 then
      { result := RouteResult.sent 400 (errorBody "Invalid order ID"), db := db }
    else
      { result := RouteResult.sent 200
          (JsVal.obj [("message", JsVal.str "Order deleted"), ("id", JsVal.num orderId)]),
        db := deleteOrder db orderId, calls := [RepoCall.deleteOrder orderId] }

/-- The handler of `DELETE /customers/:id` (after its guards), applied to
`req.params.id`. -/
def deleteCustomerRoute (db : Store) (idParam : String) : Handled :=
  match parseInt10 idParam with
  | none => { result := RouteResult.sent 400 (errorBody "Invalid customer ID"), db := db }
  | some customerId =>
    if customerId < 1 then
      { result := RouteResult.sent 400 (errorBody "Invalid customer ID"), db := db }
    else
      { result := RouteResult.sent 200
          (JsVal.obj [("message", JsVal.str "Customer deleted"), ("id", JsVal.num customerId)]),
        db := deleteCustomer db customerId, calls := [RepoCall.deleteCustomer customerId] }

/-- The handler of `PUT /orders/:id` (after its guards), applied to
`req.params.id` at time `now`, with `validated` the outcome of the checks on
`req.body` that follow the id check: the 400 response they send, or the values
passed to `repo.updateOrder`. -/
def putOrderRoute (db : Store) (now : Nat) (idParam : String)
    (validated : Except RouteResult OrderInput) : Handled :=
  match parseInt10 idParam with
  | none => { result := RouteResult.sent 400 (errorBody "Invalid order ID"), db := db }
  | some orderId =>
    if orderId < 1 then
      { result := RouteResult.sent 400 (errorBody "Invalid order ID"), db := db }
    else
      match validated with
      | Except.error response => { result := response, db := db }
      | Except.ok input =>
        match updateOrder db now orderId input with
        | (none, db2) =>
          { result := RouteResult.sent 404 (errorBody "Order not found"), db := db2,
            calls := [RepoCall.updateOrder orderId input.item input.customer_name
              input.customer_phone input.customer_email input.customer_address] }
        | (some order, db2) =>
          { result := RouteResult.sent 200
              (JsVal.obj [("message", JsVal.str "Order updated"), ("data", order.toJs)]),
            db := db2, calls := [RepoCall.updateOrder orderId input.item input.customer_name
              input.customer_phone input.customer_email input.customer_address] }

/-- The handler of `PUT /customers/:id` (after its guards), applied to
`req.params.id` at time `now`, with `validated` the outcome of the checks on
`req.body` that follow the id check. -/
def putCustomerRoute (db : Store) (now : Nat) (idParam : String)
    (validated : Except RouteResult CustomerInput) : Handled :=
  match parseInt10 idParam with
  | none => { result := RouteResult.sent 400 (errorBody "Invalid customer ID"), db := db }
  | some customerId =>
    if customerId < 1 then
      { result := RouteResult.sent 400 (errorBody "Invalid customer ID"), db := db }
    else
      match validated with
      | Except.error response => { result := response, db := db }
      | Except.ok input =>
        match updateCustomer db now customerId input with
        | (none, db2) =>
          { result := RouteResult.sent 404 (errorBody "Customer not found"), db := db2,
            calls := [RepoCall.updateCustomer customerId] }
        | (some customer, db2) =>
          { result := RouteResult.sent 200
              (JsVal.obj [("message", JsVal.str "Customer updated"), ("data", customer.toJs)]),
            db := db2, calls := [RepoCall.updateCustomer customerId] }

/-! ## `server.js`: guards and handlers on the server state -/

/-- What running guards did on a server whose store is `db`: the outcome, the
request afterwards, the store afterwards and the repository functions invoked. -/
structure Gated where
  outcome : Outcome
  req : Req
  db : Store
  calls : List RepoCall := []

/-- One guard of `authMiddleware.js` run on a server whose store is `db`. The
file requires the repository module but none of its three guards calls it (nor
does `verifyToken`): no repository function is invoked and the store is left as
it is. -/
def guardOn (jwtVerify : JwtVerify) (jwtSecret : String) (mw : Middleware) (db : Store)
    (req : Req) : Gated :=
  { outcome := (runMiddleware jwtVerify jwtSecret mw req).1,
    req := (runMiddleware jwtVerify jwtSecret mw req).2, db := db }

/-- The middlewares of a route run on a server whose store is `db`. -/
def gateOn (jwtVerify : JwtVerify) (jwtSecret : String) (route : Route) (db : Store)
    (req : Req) : Gated :=
  { outcome := (gate jwtVerify jwtSecret route req).1,
    req := (gate jwtVerify jwtSecret route req).2, db := db }

/-- An incoming request: what the guards read and write, `req.body`, and
`req.params.id`. -/
structure Request where
  req : Req
  body : JsVal := JsVal.undefined
  idParam : String := ""

/-- Serving a request on a route: the handler runs, on the request as the
guards left it, only when every middleware of the route has called `next()`; a
guard that responds ends the request with its response, and a guard that
throws ends it without one. -/
def serve (jwtVerify : JwtVerify) (jwtSecret : String) (route : Route)
    (handler : Request → Store → Handled) (db : Store) (request : Request) : Handled :=
  match gate jwtVerify jwtSecret route request.req with
  | (Outcome.next, req2) => handler { request with req := req2 } db
  | (Outcome.respond status error, _) =>
    { result := RouteResult.sent status (errorBody error), db := db }
  | (Outcome.throws, _) =>
    { result := RouteResult.raised "TypeError in a guard", db := db }

/-! ## `server.js`: `POST /auth/login`, with its calls -/

/-- The validation part of the handler of `POST /auth/login`, applied to
`req.body`: the 400 response sent, or the trimmed username and the password
passed to `authenticate`; `none` is the `TypeError` of destructuring a missing
body. -/
def validateLoginBody (body : JsVal) : Option (Except RouteResult (String × String)) :=
  match body.getProp "username", body.getProp "password" with
  | some username, some password =>
    if !username.truthy || !password.truthy then
      some (Except.error (RouteResult.sent 400 (errorBody "Username & password required")))
    else
      match username, password with
      | JsVal.str u, JsVal.str p =>
        if utf16Length u > 100 || utf16Length p > 255 || utf16Length u < 1 || utf16Length p < 1 then
          some (Except.error (RouteResult.sent 400 (errorBody "Invalid input length")))
        else
          let cleanUsername := jsTrim u
          if cleanUsername == "" then
            some (Except.error (RouteResult.sent 400 (errorBody "Username cannot be empty")))
          else some (Except.ok (cleanUsername, p))
      | _, _ => some (Except.error (RouteResult.sent 400 (errorBody "Invalid input type")))
  | _, _ => none

/-- The `try`/`catch` part of the handler of `POST /auth/login`: the response
for the outcome of `authenticate`. -/
def loginResponse (outcome : Except AuthError (Option AuthResult)) : RouteResult :=
  match outcome with
  | Except.ok none => RouteResult.sent 401 (errorBody "Invalid credentials")
  | Except.ok (some result) =>
    RouteResult.sent 200 (JsVal.obj [("token", JsVal.str result.token), ("user", result.user)])
  | Except.error _ => RouteResult.sent 500 (errorBody "Authentication failed")

/-- The handler of `POST /auth/login` with the calls it makes; `authenticate`
only reads the store. -/
def loginHandled (eng : Engine) (bcryptCompare : String → String → Bool) (jwtSign : JwtSign)
    (jwtSecret : String) (db : Store) (body : JsVal) : Handled :=
  match validateLoginBody body with
  | none =>
    { result := RouteResult.raised "TypeError: Cannot destructure property of req.body",
      db := db }
  | some (Except.error response) => { result := response, db := db }
  | some (Except.ok (cleanUsername, password)) =>
    { result := loginResponse
        (authenticate eng bcryptCompare jwtSign jwtSecret db cleanUsername password),
      db := db, calls := [RepoCall.authenticate cleanUsername password] }

/-! ## JavaScript conversions -/

mutual
/-- `String(v)` on a value read from JSON (`ToString`): `none` is the
`TypeError` "Cannot convert object to primitive value". An array is joined
with commas (`Array.prototype.toString`). A plain object yields
`[object Object]` through `Object.prototype.toString`, unless it has an own
property `toString`: a JSON value is never callable, the inherited `valueOf`
returns the object itself, and the conversion throws. A number `n` stands for
a safe integer, whose string is its decimal numeral. -/
def JsVal.toJsString : JsVal → Option String
  | JsVal.undefined => some "undefined"
  | JsVal.null => some "null"
  | JsVal.bool b => some (if b then "true" else "false")
  | JsVal.num n => some (toString n)
  | JsVal.str s => some s
  | JsVal.arr items => (JsVal.itemStrings items).map (fun parts => ",".intercalate parts)
  | JsVal.obj fields =>
    if (fields.lookup "toString").isSome then none else some "[object Object]"
/-- The strings joined by `Array.prototype.join`: `undefined` and `null`
elements give the empty string, every other element its `ToString`. -/
def JsVal.itemStrings : List JsVal → Option (List String)
  | [] => some []
  | JsVal.undefined :: rest => (JsVal.itemStrings rest).map (fun parts => "" :: parts)
  | JsVal.null :: rest => (JsVal.itemStrings rest).map (fun parts => "" :: parts)
  | x :: rest =>
    match JsVal.toJsString x, JsVal.itemStrings rest with
    | some a, some b => some (a :: b)
    | _, _ => none
end

/-! ## `server.js`: `POST /orders` and `PUT /orders/:id` -/

/-- The two checks on a required text field `x` of an order body:
`!x || typeof x !== "string" || x.trim().length === 0` gives the 400 response
`missing`, then `x.length > max` gives the 400 response `long`; otherwise the
value passed on is `x.trim()`. -/
def requiredText (x : JsVal) (max : Nat) (missing long : String) : Except RouteResult String :=
  match x with
  | JsVal.str s =>
    if s == "" || utf16Length (jsTrim s) == 0 then
      Except.error (RouteResult.sent 400 (errorBody missing))
    else if utf16Length s > max then Except.error (RouteResult.sent 400 (errorBody long))
    else Except.ok (jsTrim s)
  | _ => Except.error (RouteResult.sent 400 (errorBody missing))

/-- The check on an optional field `x` of an order body and the value passed on
for it: `x && String(x).length > max` gives the 400 response `long`; otherwise
the value is `x ? String(x).trim() : null`. The result `none` is the exception
raised by `String(x)`. -/
def optionalText (x : JsVal) (max : Nat) (long : String) :
    Option (Except RouteResult (Option String)) :=
  if x.truthy then
    match x.toJsString with
    | none => none
    | some s =>
      if utf16Length s > max then some (Except.error (RouteResult.sent 400 (errorBody long)))
      else some (Except.ok (some (jsTrim s)))
  else some (Except.ok none)

/-- The condition of the specification on an optional field `x` of an order
body with limit `max`, together with the value `passed` to the repository for
it: `x` is falsy and `null` is passed, or `String(x)` has at most `max`
characters and its trimmed text is passed. -/
def OptionalFieldOk (x : JsVal) (max : Nat) (passed : Option String) : Prop :=
  (x.truthy = false ∧ passed = none) ∨
  (x.truthy = true ∧
    ∃ s, x.toJsString = some s ∧ utf16Length s ≤ max ∧ passed = some (jsTrim s))

/-- The checks of the handlers of `POST /orders` and `PUT /orders/:id` on the
five fields read from `req.body`, in the order of the source: the 400 response
sent, or the values passed to the repository; `none` is the exception raised by
`String` on an optional field. -/
def validateOrderFields (item customer_name customer_phone customer_email
    customer_address : JsVal) : Option (Except RouteResult OrderInput) :=
  match requiredText item 500 "Order item is required"
      "Order item too long (max 500 characters)" with
  | Except.error response => some (Except.error response)
  | Except.ok cleanItem =>
    match requiredText customer_name 100 "Customer name is required"
        "Customer name too long (max 100 characters)" with
    | Except.error response => some (Except.error response)
    | Except.ok cleanName =>
      match optionalText customer_phone 20 "Customer phone too long (max 20 characters)" with
      | none => none
      | some (Except.error response) => some (Except.error response)
      | some (Except.ok phone) =>
        match optionalText customer_email 100
            "Customer email too long (max 100 characters)" with
        | none => none
        | some (Except.error response) => some (Except.error response)
        | some (Except.ok email) =>
          match optionalText customer_address 255
              "Customer address too long (max 255 characters)" with
          | none => none
          | some (Except.error response) => some (Except.error response)
          | some (Except.ok address) =>
            some (Except.ok ⟨cleanItem, cleanName, phone, email, address⟩)

/-- The validation part shared by the handlers of `POST /orders` and
`PUT /orders/:id`, applied to `req.body`: the destructuring of the five fields,
then the checks on them; `none` is an exception raised inside the handler's
`try` block (destructuring a missing body, or `String` of an optional field). -/
def validateOrderBody (body : JsVal) : Option (Except RouteResult OrderInput) :=
  match body.getProp "item", body.getProp "customer_name", body.getProp "customer_phone",
    body.getProp "customer_email", body.getProp "customer_address" with
  | some item, some customer_name, some customer_phone, some customer_email,
      some customer_address =>
    validateOrderFields item customer_name customer_phone customer_email customer_address
  | _, _, _, _, _ => none

/-- `createOrder` of `rbacRepository.js`: `INSERT INTO Orders ... OUTPUT
INSERTED.*` at time `now`; the value returned is `recordset[0]`. A `userId`
that is a number is stored in `created_by`; what the driver makes of any other
value is left to the engine, and the row is modelled with `NULL` there. -/
def createOrder (eng : Engine) (db : Store) (now : Nat) (input : OrderInput) (userId : JsVal) :
    Except DbError Order × Store :=
  match eng.orderInsertFails db userId with
  | some e => (Except.error e, db)
  | none =>
    let row : Order :=
      { id := eng.nextOrderId db, item := input.item, customer_name := input.customer_name,
        customer_phone := orNull input.customer_phone,
        customer_email := orNull input.customer_email,
        customer_address := orNull input.customer_address,
        created_by := (match userId with
          | JsVal.num n => some n
          | _ => none),
        created_at := now, updated_at := now }
    (Except.ok row, { db with orders := db.orders ++ [row] })

/-- The number in `req.user.sub`, as recorded in the trace of calls. -/
def JsVal.asInt : JsVal → Option Int
  | JsVal.num n => some n
  | _ => none

/-- The handler of `POST /orders` (after its guards), applied to `req.user` and
`req.body` at time `now`. Every exception is caught by the handler's `try`
block and answered with 500. -/
def postOrderRoute (eng : Engine) (db : Store) (now : Nat) (user body : JsVal) : Handled :=
  match validateOrderBody body with
  | none => { result := RouteResult.sent 500 (errorBody "Failed to create order"), db := db }
  | some (Except.error response) => { result := response, db := db }
  | some (Except.ok input) =>
    match user.getProp "sub" with
    | none => { result := RouteResult.sent 500 (errorBody "Failed to create order"), db := db }
    | some sub =>
      match createOrder eng db now input sub with
      | (Except.error _, db2) =>
        { result := RouteResult.sent 500 (errorBody "Failed to create order"), db := db2,
          calls := [RepoCall.createOrder input.item sub.asInt input.customer_name
            input.customer_phone input.customer_email input.customer_address] }
      | (Except.ok order, db2) =>
        { result := RouteResult.sent 201
            (JsVal.obj [("message", JsVal.str "Order created"), ("data", order.toJs)]),
          db := db2,
          calls := [RepoCall.createOrder input.item sub.asInt input.customer_name
            input.customer_phone input.customer_email input.customer_address] }

/-- The handler of `PUT /orders/:id` (after its guards), applied to
`req.params.id` and `req.body` at time `now`: the id check, then the checks on
the body, whose exceptions the handler's `try` block answers with 500. -/
def putOrderHandled (db : Store) (now : Nat) (idParam : String) (body : JsVal) : Handled :=
  putOrderRoute db now idParam
    (match validateOrderBody body with
      | none => Except.error (RouteResult.sent 500 (errorBody "Failed to update order"))
      | some validated => validated)

/-! ## `server.js`: `POST /admin/role-permissions` -/

/-- The result of `Number(x)` as the filter of `POST /admin/role-permissions`
reads it: an integer, or `nan` for every value that `Number.isFinite` rejects
(`NaN` and the infinities). Fractions are left out. -/
inductive JsNumber where
  | nan
  | int (n : Int)
  deriving DecidableEq, Repr

/-- `Number(v)` on a value read from JSON, with `StringToNumber` of the
language as an argument (restricted to strings whose value is an integer or
not finite; `nan` also stands for the infinities, which `Number.isFinite`
rejects alike). An array or object is first brought to a string, as `String`
does (the inherited `valueOf` returns the object itself); `none` is the
`TypeError` of that conversion. -/
def JsVal.toNumber (stringToNumber : String → JsNumber) (v : JsVal) : Option JsNumber :=
  match v with
  | JsVal.undefined => some JsNumber.nan
  | JsVal.null => some (JsNumber.int 0)
  | JsVal.bool b => some (JsNumber.int (if b then 1 else 0))
  | JsVal.num n => some (JsNumber.int n)
  | JsVal.str s => some (stringToNumber s)
  | JsVal.arr items => (JsVal.toJsString (JsVal.arr items)).map stringToNumber
  | JsVal.obj fields => (JsVal.toJsString (JsVal.obj fields)).map stringToNumber

/-- `permissionIds.map(Number)`; `none` is the `TypeError` raised at an entry
that has no primitive value. -/
def mapNumber (stringToNumber : String → JsNumber) : List JsVal → Option (List JsNumber)
  | [] => some []
  | x :: rest =>
    match x.toNumber stringToNumber, mapNumber stringToNumber rest with
    | some a, some b => some (a :: b)
    | _, _ => none

/-- The test `Number.isFinite(id) && id > 0`. -/
def isFinitePositive (id : JsNumber) : Bool :=
  match id with
  | JsNumber.int n => n > 0
  | JsNumber.nan => false

/-- The numbers kept by `.filter((id) => Number.isFinite(id) && id > 0)`, in
order. -/
def validIds (numbers : List JsNumber) : List Int :=
  (numbers.filter isFinitePositive).filterMap (fun id =>
    match id with
    | JsNumber.int n => some n
    | JsNumber.nan => none)

/-- The handler of `POST /admin/role-permissions` (after `requireAuth` and
`requireRole("Admin")`), applied to `req.body`. `parseInt(roleId, 10)` and
`permissionIds.map(Number)` run outside the `try` block: an exception there
leaves the handler and reaches the error handler. -/
def adminSetRolePermissionsRoute (eng : Engine) (stringToNumber : String → JsNumber)
    (db : Store) (body : JsVal) : Handled :=
  let source := if body.truthy then body else JsVal.obj []
  match source.getProp "roleId", source.getProp "permissionIds" with
  | some roleId, some (JsVal.arr permissionIds) =>
    if !roleId.truthy then
      { result := RouteResult.sent 400 (errorBody "roleId and permissionIds required"),
        db := db }
    else
      match roleId.toJsString with
      | none =>
        { result := RouteResult.raised "TypeError: Cannot convert object to primitive value",
          db := db }
      | some text =>
        match parseInt10 text with
        | none => { result := RouteResult.sent 400 (errorBody "Invalid roleId"), db := db }
        | some parsedRoleId =>
          if parsedRoleId < 1 then
            { result := RouteResult.sent 400 (errorBody "Invalid roleId"), db := db }
          else if permissionIds.length > 100 then
            { result := RouteResult.sent 400 (errorBody "Too many permissions"), db := db }
          else
            match mapNumber stringToNumber permissionIds with
            | none =>
              { result :=
                  RouteResult.raised "TypeError: Cannot convert object to primitive value",
                db := db }
            | some numbers =>
              let validPermissionIds := validIds numbers
              match setRolePermissions eng db parsedRoleId validPermissionIds with
              | (Except.ok _, db2) =>
                { result := RouteResult.sent 200 (JsVal.obj [("ok", JsVal.bool true)]),
                  db := db2,
                  calls := [RepoCall.setRolePermissions parsedRoleId validPermissionIds] }
              | (Except.error _, db2) =>
                { result := RouteResult.sent 500 (errorBody "Server error"), db := db2,
                  calls := [RepoCall.setRolePermissions parsedRoleId validPermissionIds] }
  | some _, some _ =>
    { result := RouteResult.sent 400 (errorBody "roleId and permissionIds required"), db := db }
  | _, _ =>
    { result := RouteResult.raised "TypeError: Cannot destructure property of req.body",
      db := db }

/-! ## `rbacRepository.js`: `getUsersWithRoles` -/

/-- A row of the recordset of `SELECT u.id, u.username, r.name_role FROM Users u
LEFT JOIN UserRoles ur ... LEFT JOIN Roles r ... ORDER BY u.id`; `name_role` is
`none` where the left join found no role. -/
structure UserRoleRow where
  id : Int
  username : String
  name_role : Option String := none
  deriving DecidableEq, Repr

/-- An entry `{ id, username, roles }` of the list `getUsersWithRoles` returns. -/
structure UserWithRoles where
  id : Int
  username : String
  roles : List String := []
  deriving DecidableEq, Repr

/-- The role name a row adds under the test `if (row.name_role)`: the name when
it is truthy, that is, neither `null` nor the empty string. -/
def keptRole (row : UserRoleRow) : Option String :=
  match row.name_role with
  | some name => if name != "" then some name else none
  | none => none

/-- One turn of the loop of `getUsersWithRoles` on the `Map` built so far, kept
as its values in insertion order (its keys are their ids): `map.set` of a fresh
entry when `!map.has(row.id)`, then `map.get(row.id).roles.push` of a truthy
role name. -/
def groupRow (map : List UserWithRoles) (row : UserRoleRow) : List UserWithRoles :=
  let map1 :=
    if map.any (fun e => e.id == row.id) then map
    else map ++ [{ id := row.id, username := row.username, roles := [] }]
  match keptRole row with
  | some name =>
    map1.map (fun e => if e.id == row.id then { e with roles := e.roles ++ [name] } else e)
  | none => map1

/-- `getUsersWithRoles` applied to the recordset of its query: the loop over
the rows from an empty `Map`, then `Array.from(map.values())`. -/
def getUsersWithRoles (recordset : List UserRoleRow) : List UserWithRoles :=
  recordset.foldl groupRow []

/-- The distinct values of a list in order of first appearance. -/
def firstAppearances : List Int → List Int
  | [] => []
  | x :: xs => x :: (firstAppearances xs).filter (fun y => y != x)

/-- The roles of the first entry of `map` with id `i`, empty when there is
none. -/
def rolesAt (map : List UserWithRoles) (i : Int) : List String :=
  ((map.find? (fun e => e.id == i)).map (fun e => e.roles)).getD []

/-- The number of role names held by the entries of `map`. -/
def totalRoles (map : List UserWithRoles) : Nat :=
  (map.map (fun e => e.roles.length)).sum

/-! ## Sample collaborators -/

/-- A token library that accepts the single token `good` (for evaluating the
guards on concrete requests). -/
def sampleVerify : JwtVerify := fun token _ _ =>
  if token = "good" then
    Except.ok (JsVal.obj [("sub", JsVal.num 1), ("username", JsVal.str "staff"),
      ("roles", JsVal.arr [JsVal.str "Staff"]),
      ("permissions", JsVal.arr
        [JsVal.obj [("name_permission", JsVal.str "View"), ("module", JsVal.str "Order")]])])
  else Except.error (JwtError.jsonWebToken "jwt malformed")

/-- An engine with an exact text comparison that refuses an insert into
`RolePermissions` naming an unknown permission or repeating a stored row. -/
def sampleEngine : Engine where
  sqlEq := fun a b => a == b
  beginFails := fun _ => none
  deleteFails := fun _ _ => none
  insertFails := fun w row =>
    if !(w.permissions.any (fun p => p.id == row.id_permission)) then
      some ⟨"FOREIGN KEY constraint"⟩
    else if w.rolePermissions.contains row then some ⟨"PRIMARY KEY constraint"⟩
    else none
  commitFails := fun _ => none

/-- A password check that accepts the hash `hash:` followed by the password. -/
def sampleCompare : String → String → Bool := fun plain hash => hash == "hash:" ++ plain

/-- A signer that always issues the token `good`. -/
def sampleSign : JwtSign := fun _ _ _ _ => Except.ok "good"

/-- A small store: an administrator and a staff member. -/
def sampleStore : Store where
  users := [⟨1, "admin", "hash:admin@ued"⟩, ⟨2, "staff", "hash:staff@ued"⟩]
  roles := [⟨1, "Admin"⟩, ⟨2, "Manager"⟩, ⟨3, "Staff"⟩]
  permissions := [⟨1, "View", "Order"⟩, ⟨2, "Add", "Order"⟩, ⟨3, "Edit", "Order"⟩,
    ⟨4, "Delete", "Order"⟩]
  userRoles := [⟨1, 1⟩, ⟨2, 3⟩]
  rolePermissions := [⟨1, 1⟩, ⟨1, 2⟩, ⟨1, 3⟩, ⟨1, 4⟩, ⟨3, 1⟩, ⟨3, 2⟩]

/-- The token issued to the staff member of the sample store at time 1000. -/
def sampleJws : Jws where
  alg := "HS256"
  payload := Jwt.stamped 1000 3600
    (authPayload ⟨2, "staff", "hash:staff@ued"⟩ (getUserRoles sampleStore 2)
      (getUserPermissions sampleStore 2))
  key := "devsecret"

/-- A serialisation that knows the single token `good`, standing for `sampleJws`. -/
def sampleCodec : TokenCodec where
  encode := fun _ => "good"
  decode := fun s => if s = "good" then some sampleJws else none

/-- A token library that accepts the single token `staff`, whose claim set
holds the role `Staff` and the permissions `View:Order` and `Add:Order`. -/
def staffVerify : JwtVerify := fun token _ _ =>
  if token = "staff" then
    Except.ok (JsVal.obj [("sub", JsVal.num 1), ("username", JsVal.str "test"),
      ("roles", JsVal.arr [JsVal.str "Staff"]),
      ("permissions", JsVal.arr
        [JsVal.obj [("name_permission", JsVal.str "View"), ("module", JsVal.str "Order")],
         JsVal.obj [("name_permission", JsVal.str "Add"), ("module", JsVal.str "Order")]])])
  else Except.error (JwtError.jsonWebToken "jwt malformed")

/-- The sample store with two orders and one customer. -/
def sampleShop : Store :=
  { sampleStore with
    orders := [{ id := 1, item := "Laptop", customer_name := "An" },
               { id := 2, item := "Phone", customer_name := "Binh" }],
    customers := [{ id := 1, name := "An" }] }

/-- A storage failure as the driver reports it. -/
def sampleFailure : JsError where
  message := "Login failed for user sa"
  stack := some "ConnectionError: Login failed for user sa at connection.js:42"

/-- A claim set with the role `Admin` and no `permissions` field. -/
def claimsWithoutPermissions : JsVal :=
  JsVal.obj [("sub", JsVal.num 1), ("username", JsVal.str "test"),
    ("roles", JsVal.arr [JsVal.str "Admin"])]

/-- A claim set with the role `Admin` whose permissions lack `Delete:Order`. -/
def adminWithoutDelete : JsVal :=
  JsVal.obj [("sub", JsVal.num 1), ("username", JsVal.str "test"),
    ("roles", JsVal.arr [JsVal.str "Admin"]),
    ("permissions", JsVal.arr
      [JsVal.obj [("name_permission", JsVal.str "View"), ("module", JsVal.str "Order")]])]

/-- A claim set with the role `Customer` that holds `Delete:Order`. -/
def customerWithDelete : JsVal :=
  JsVal.obj [("sub", JsVal.num 2), ("username", JsVal.str "guest"),
    ("roles", JsVal.arr [JsVal.str "Customer"]),
    ("permissions", JsVal.arr
      [JsVal.obj [("name_permission", JsVal.str "Delete"), ("module", JsVal.str "Order")]])]

/-- An order body with blanks around its texts and a numeric phone. -/
def sampleOrderBody : JsVal :=
  JsVal.obj [("item", JsVal.str "  Notebook "), ("customer_name", JsVal.str " An "),
    ("customer_phone", JsVal.num 905123456), ("customer_email", JsVal.str ""),
    ("customer_address", JsVal.null)]

/-- An order body whose phone is an object with an own property `toString`. -/
def orderBodyWithObjectPhone : JsVal :=
  JsVal.obj [("item", JsVal.str "Notebook"), ("customer_name", JsVal.str "An"),
    ("customer_phone", JsVal.obj [("toString", JsVal.num 1)])]

/-- A `StringToNumber` for the strings of the samples: blank text is 0, a
signed decimal numeral is its integer, everything else is `NaN`. -/
def sampleStringToNumber (s : String) : JsNumber :=
  let t := (jsTrim s).toList
  let digits := if t.head? == some '-' || t.head? == some '+' then t.drop 1 else t
  if t.isEmpty then JsNumber.int 0
  else if digits.isEmpty || !(digits.all Char.isDigit) then JsNumber.nan
  else
    let n : Int := digits.foldl (fun acc c => acc * 10 + ((c.toNat - 48 : Nat) : Int)) 0
    JsNumber.int (if t.head? == some '-' then -n else n)

/-- A body of `POST /admin/role-permissions` with a textual role id and mixed
entries. -/
def sampleRolePermissionsBody : JsVal :=
  JsVal.obj [("roleId", JsVal.str "3"),
    ("permissionIds", JsVal.arr [JsVal.num 1, JsVal.str "x", JsVal.num 0, JsVal.str "2",
      JsVal.null, JsVal.obj [], JsVal.num (-4), JsVal.bool true])]

/-- A body of `POST /admin/role-permissions` one of whose entries is an object
with an own property `toString`. -/
def rolePermissionsBodyWithObjectEntry : JsVal :=
  JsVal.obj [("roleId", JsVal.num 3),
    ("permissionIds", JsVal.arr [JsVal.num 1, JsVal.obj [("toString", JsVal.num 1)]])]

/-- A recordset with two users, one of them without a role. -/
def sampleRows : List UserRoleRow :=
  [⟨1, "admin", some "Admin"⟩, ⟨1, "admin", some "Manager"⟩, ⟨2, "guest", none⟩,
   ⟨3, "staff", some "Staff"⟩]

/-- Paging arguments with the page `2^53 - 1` and the page size 100. -/
def largePageArgs : PagedArgs :=
  { page := some (JsDouble.finite 9007199254740991), pageSize := some (JsDouble.finite 100) }

/-- Paging arguments with the page 3 and the page size 500. -/
def outOfRangeArgs : PagedArgs :=
  { page := some (JsDouble.finite 3), pageSize := some (JsDouble.finite 500) }

/-- A `bcrypt` module matching `sampleCompare`. -/
def sampleBcrypt : Bcrypt where
  compare := sampleCompare
  hash := fun plain _ => "hash:" ++ plain

/-! ## Properties -/

theorem JsVal.strictEqStr_iff (v : JsVal) (s : String) :
    v.strictEqStr s = true ↔ v = JsVal.str s := by
  cases v <;> simp [JsVal.strictEqStr]

theorem JsVal.getProp_obj (fields : List (String × JsVal)) (key : String) :
    (JsVal.obj fields).getProp key = some ((fields.lookup key).getD JsVal.undefined) := by
  simp only [JsVal.getProp]
  cases fields.lookup key <;> rfl

theorem JsVal.getD_undefined_eq_str (o : Option JsVal) (s : String) :
    (o.getD JsVal.undefined = JsVal.str s) ↔ o = some (JsVal.str s) := by
  cases o <;> simp

/-- Over an array of objects the `some` callback never throws and finds exactly
the entries bound to the two strings. -/
theorem somePermission_map_obj (action module : String) (P : List (List (String × JsVal))) :
    (somePermission action module (P.map JsVal.obj) = some true ∧
        ∃ p ∈ P, p.lookup "name_permission" = some (JsVal.str action) ∧
          p.lookup "module" = some (JsVal.str module)) ∨
    (somePermission action module (P.map JsVal.obj) = some false ∧
        ¬ ∃ p ∈ P, p.lookup "name_permission" = some (JsVal.str action) ∧
          p.lookup "module" = some (JsVal.str module)) := by
  induction P with
  | nil => right; simp [somePermission]
  | cons p rest ih =>
    simp only [List.map_cons, somePermission, JsVal.getProp_obj]
    by_cases hn : p.lookup "name_permission" = some (JsVal.str action)
    · by_cases hm : p.lookup "module" = some (JsVal.str module)
      · left
        simp [hn, hm, JsVal.strictEqStr]
      · have hm2 : ((p.lookup "module").getD JsVal.undefined).strictEqStr module = false := by
          rw [Bool.eq_false_iff, Ne, JsVal.strictEqStr_iff, JsVal.getD_undefined_eq_str]
          exact hm
        have hn2 : ((p.lookup "name_permission").getD JsVal.undefined).strictEqStr action = true := by
          rw [JsVal.strictEqStr_iff, JsVal.getD_undefined_eq_str]
          exact hn
        simp only [hn2, hm2, if_true, Bool.false_eq_true, if_false]
        rcases ih with ⟨h1, h2⟩ | ⟨h1, h2⟩
        · left
          refine ⟨h1, ?_⟩
          obtain ⟨q, hq, hq2⟩ := h2
          exact ⟨q, List.mem_cons_of_mem _ hq, hq2⟩
        · right
          refine ⟨h1, ?_⟩
          rintro ⟨q, hq, hq1, hq2⟩
          rcases List.mem_cons.mp hq with rfl | hq
          · exact hm hq2
          · exact h2 ⟨q, hq, hq1, hq2⟩
    · have hn2 : ((p.lookup "name_permission").getD JsVal.undefined).strictEqStr action = false := by
        rw [Bool.eq_false_iff, Ne, JsVal.strictEqStr_iff, JsVal.getD_undefined_eq_str]
        exact hn
      simp only [hn2, Bool.false_eq_true, if_false]
      rcases ih with ⟨h1, h2⟩ | ⟨h1, h2⟩
      · left
        refine ⟨h1, ?_⟩
        obtain ⟨q, hq, hq2⟩ := h2
        exact ⟨q, List.mem_cons_of_mem _ hq, hq2⟩
      · right
        refine ⟨h1, ?_⟩
        rintro ⟨q, hq, hq1, hq2⟩
        rcases List.mem_cons.mp hq with rfl | hq
        · exact hn hq1
        · exact h2 ⟨q, hq, hq1, hq2⟩

theorem JsVal.truthy_of_getProp_arr (user : JsVal) (key : String) (xs : List JsVal)
    (h : user.getProp key = some (JsVal.arr xs)) : user.truthy = true := by
  cases user <;> simp [JsVal.getProp, JsVal.truthy] at h ⊢

/-- C1. For every action `A`, module `M` and request whose claim set carries a
permission list `P` (an array of permission objects), `requirePermission(A, M)`
calls `next` (sending no response) if and only if some entry of `P` has
`name_permission` exactly `A` and `module` exactly `M`; otherwise it responds
403 and does not call `next`. In particular a list with an entry `(A, M2)`,
`M2 ≠ M`, and no entry `(A, M)` is answered 403. -/
theorem requirePermission_exact_match (action module : String) (user : JsVal)
    (P : List (List (String × JsVal)))
    (hP : user.getProp "permissions" = some (JsVal.arr (P.map JsVal.obj))) :
    (requirePermission action module user = Outcome.next ↔
        ∃ p ∈ P, p.lookup "name_permission" = some (JsVal.str action) ∧
          p.lookup "module" = some (JsVal.str module)) ∧
    ((¬ ∃ p ∈ P, p.lookup "name_permission" = some (JsVal.str action) ∧
          p.lookup "module" = some (JsVal.str module)) →
        requirePermission action module user =
          Outcome.respond 403 "Forbidden: lacking permission") ∧
    (∀ other : String, other ≠ module →
        (∃ p ∈ P, p.lookup "name_permission" = some (JsVal.str action) ∧
          p.lookup "module" = some (JsVal.str other)) →
        (∀ p ∈ P, p.lookup "name_permission" = some (JsVal.str action) →
          p.lookup "module" ≠ some (JsVal.str module)) →
        requirePermission action module user =
          Outcome.respond 403 "Forbidden: lacking permission") := by
  have ht := JsVal.truthy_of_getProp_arr user _ _ hP
  have key : (¬ ∃ p ∈ P, p.lookup "name_permission" = some (JsVal.str action) ∧
          p.lookup "module" = some (JsVal.str module)) →
        requirePermission action module user =
          Outcome.respond 403 "Forbidden: lacking permission" := by
    intro hno
    rcases somePermission_map_obj action module P with ⟨_, h2⟩ | ⟨h1, _⟩
    · exact absurd h2 hno
    · simp [requirePermission, ht, hP, h1]
  refine ⟨?_, key, ?_⟩
  · constructor
    · intro h
      by_contra hno
      rw [key hno] at h
      cases h
    · intro hyes
      rcases somePermission_map_obj action module P with ⟨h1, _⟩ | ⟨_, h2⟩
      · simp [requirePermission, ht, hP, h1]
      · exact absurd hyes h2
  · intro other _ _ hnone
    apply key
    rintro ⟨p, hp, h1, h2⟩
    exact hnone p hp h1 h2

/-- Witness for C1: a `View:Customer` permission does not open `View:Order`. -/
theorem requirePermission_exact_match_witness :
    requirePermission "View" "Order"
        (JsVal.obj [("permissions", JsVal.arr
          [JsVal.obj [("name_permission", JsVal.str "View"), ("module", JsVal.str "Customer")]])])
      = Outcome.respond 403 "Forbidden: lacking permission" :=
  (requirePermission_exact_match "View" "Order"
      (JsVal.obj [("permissions", JsVal.arr
        [JsVal.obj [("name_permission", JsVal.str "View"), ("module", JsVal.str "Customer")]])])
      [[("name_permission", JsVal.str "View"), ("module", JsVal.str "Customer")]]
      (by rfl)).2.1 (by simp [List.lookup])

theorem eval_requirePermission_denied :
    requirePermission "Add" "Order"
      (JsVal.obj [("permissions", JsVal.arr
        [JsVal.obj [("name_permission", JsVal.str "View"), ("module", JsVal.str "Order")]])])
      = Outcome.respond 403 "Forbidden: lacking permission" := by decide

theorem eval_requirePermission_allowed :
    requirePermission "View" "Order"
      (JsVal.obj [("permissions", JsVal.arr
        [JsVal.obj [("name_permission", JsVal.str "View"), ("module", JsVal.str "Order")]])])
      = Outcome.next := by decide

theorem eval_requirePermission_null_entry :
    requirePermission "View" "Order"
      (JsVal.obj [("permissions", JsVal.arr [JsVal.null])]) = Outcome.throws := by decide

theorem eval_requireRole_admin :
    requireRole "Admin" (JsVal.obj [("roles", JsVal.arr [JsVal.str "Admin"])]) = Outcome.next := by
  decide

theorem eval_bearerToken : bearerToken "Bearer abc" = some "abc" := by decide

theorem eval_bearerToken_lower_case : bearerToken "bearer abc" = none := by decide

theorem any_strictEqStr_iff (rs : List JsVal) (s : String) :
    rs.any (fun r => r.strictEqStr s) = true ↔ JsVal.str s ∈ rs := by
  rw [List.any_eq_true]
  constructor
  · rintro ⟨x, hx, hxs⟩
    rw [JsVal.strictEqStr_iff] at hxs
    exact hxs ▸ hx
  · intro h
    exact ⟨JsVal.str s, h, (JsVal.strictEqStr_iff _ _).mpr rfl⟩

theorem roles_includes_iff (roleName : String) (o : Option JsVal) :
    (match o with
      | some (JsVal.arr rs) => rs.any (fun r => r.strictEqStr roleName)
      | _ => false) = true ↔
    ∃ rs, o = some (JsVal.arr rs) ∧ JsVal.str roleName ∈ rs := by
  cases o with
  | none => simp
  | some v =>
    cases v <;> simp [← any_strictEqStr_iff]

/-- C2. For every role name `R` and every request with an attached claim set,
`requireRole(R)` calls `next` if and only if the claim set's `roles` is a list
containing a string exactly equal to `R`; otherwise (`R` absent, `roles`
missing or not a list) it responds 403 and does not call `next`. -/
theorem requireRole_exact_membership (roleName : String) (user : JsVal)
    (hattached : user.truthy = true) :
    (requireRole roleName user = Outcome.next ↔
        ∃ rs, user.getProp "roles" = some (JsVal.arr rs) ∧ JsVal.str roleName ∈ rs) ∧
    ((¬ ∃ rs, user.getProp "roles" = some (JsVal.arr rs) ∧ JsVal.str roleName ∈ rs) →
        requireRole roleName user = Outcome.respond 403 "Forbidden: role required") := by
  have key : ∀ b : Bool,
      (match user.getProp "roles" with
        | some (JsVal.arr rs) => rs.any (fun r => r.strictEqStr roleName)
        | _ => false) = b →
      (b = true ↔ ∃ rs, user.getProp "roles" = some (JsVal.arr rs) ∧ JsVal.str roleName ∈ rs) := by
    intro b hb
    rw [← hb]
    exact roles_includes_iff roleName (user.getProp "roles")
  cases hb : (match user.getProp "roles" with
        | some (JsVal.arr rs) => rs.any (fun r => r.strictEqStr roleName)
        | _ => false) with
  | true =>
    have h1 := (key true hb).mp rfl
    have h2 : requireRole roleName user = Outcome.next := by
      simp only [requireRole, hattached, hb]
      rfl
    exact ⟨⟨fun _ => h1, fun _ => h2⟩, fun hno => absurd h1 hno⟩
  | false =>
    have h1 : ¬ ∃ rs, user.getProp "roles" = some (JsVal.arr rs) ∧ JsVal.str roleName ∈ rs := by
      intro h
      have := (key false hb).mpr h
      cases this
    have h2 : requireRole roleName user = Outcome.respond 403 "Forbidden: role required" := by
      simp only [requireRole, hattached, hb]
      rfl
    refine ⟨⟨fun h => ?_, fun h => absurd h h1⟩, fun _ => h2⟩
    rw [h2] at h
    cases h

/-- Witness for C2: a claim set whose `roles` is a string, not a list. -/
theorem requireRole_exact_membership_witness :
    requireRole "Admin" (JsVal.obj [("roles", JsVal.str "Admin")])
      = Outcome.respond 403 "Forbidden: role required" :=
  (requireRole_exact_membership "Admin" (JsVal.obj [("roles", JsVal.str "Admin")]) rfl).2
    (by simp [JsVal.getProp, List.lookup])

theorem bearerToken_append (t : String) : bearerToken ("Bearer " ++ t) = some t := by
  have h1 : ("Bearer " ++ t).toList = "Bearer ".toList ++ t.toList := String.data_append _ _
  have h2 : "Bearer ".toList.isPrefixOf ("Bearer " ++ t).toList = true := by
    rw [h1, List.isPrefixOf_iff_prefix]
    exact List.prefix_append _ _
  have h3 : ("Bearer ".toList ++ t.toList).drop 7 = t.toList := by
    have : "Bearer ".toList.length = 7 := by decide
    rw [← this, List.drop_left]
  rw [h1] at h2
  simp only [bearerToken, h1, h2, if_true, h3]
  rfl

theorem bearerToken_none (h : String) (hno : ∀ t, h ≠ "Bearer " ++ t) :
    bearerToken h = none := by
  unfold bearerToken
  split
  · next hp =>
    rw [List.isPrefixOf_iff_prefix] at hp
    obtain ⟨r, hr⟩ := hp
    exfalso
    apply hno (String.mk r)
    apply String.ext
    rw [String.data_append]
    exact hr.symm
  · rfl

/-- C3. For every request, `requireAuth` responds 401 without calling `next`
and without setting `req.user` when the Authorization header is absent, does
not start with `Bearer `, carries an empty token after that text, or when
`verifyToken` returns `null` for the text after it; in every other case it
sets `req.user` to exactly the claim set returned by `verifyToken` and calls
`next` once. The token library is an argument that yields a claim set (an
object) whenever it does not throw. -/
theorem requireAuth_cases (jwtVerify : JwtVerify) (jwtSecret : String) (req : Req)
    (hlib : ∀ t v, jwtVerify t jwtSecret ["HS256"] = Except.ok v → v.isObject = true) :
    (req.authorization = none →
        requireAuth jwtVerify jwtSecret req = (Outcome.respond 401 "Missing token", req)) ∧
    (∀ h, req.authorization = some h → (∀ t, h ≠ "Bearer " ++ t) →
        requireAuth jwtVerify jwtSecret req = (Outcome.respond 401 "Missing token", req)) ∧
    (req.authorization = some "Bearer " →
        requireAuth jwtVerify jwtSecret req = (Outcome.respond 401 "Missing token", req)) ∧
    (∀ t, req.authorization = some ("Bearer " ++ t) → t ≠ "" →
        verifyToken jwtVerify jwtSecret t = JsVal.null →
        requireAuth jwtVerify jwtSecret req = (Outcome.respond 401 "Invalid token", req)) ∧
    (∀ t, req.authorization = some ("Bearer " ++ t) → t ≠ "" →
        verifyToken jwtVerify jwtSecret t ≠ JsVal.null →
        requireAuth jwtVerify jwtSecret req =
          (Outcome.next, { req with user := verifyToken jwtVerify jwtSecret t })) := by
  have hhdr : ∀ h : String, (if (h != "") = true then h else "") = h := by
    intro h
    by_cases hh : h = ""
    · simp [hh]
    · simp [hh]
  refine ⟨?_, ?_, ?_, ?_, ?_⟩
  · intro hnone
    simp only [requireAuth, hnone]
    rfl
  · intro h hsome hno
    simp only [requireAuth, hsome, hhdr, bearerToken_none h hno]
  · intro hsome
    simp only [requireAuth, hsome, hhdr]
    rfl
  · intro t hsome hne hnull
    simp only [requireAuth, hsome, hhdr, bearerToken_append, hnull]
    simp [hne, JsVal.truthy]
  · intro t hsome hne hnn
    have htruthy : (verifyToken jwtVerify jwtSecret t).truthy = true := by
      unfold verifyToken at hnn ⊢
      cases hv : jwtVerify t jwtSecret ["HS256"] with
      | error e => simp [hv] at hnn
      | ok v =>
        have := hlib t v hv
        cases v <;> simp [JsVal.isObject] at this
        simp [JsVal.truthy]
    simp only [requireAuth, hsome, hhdr, bearerToken_append]
    simp [hne, htruthy]

/-- Witness for C3: the sample library and a request bearing its one valid token. -/
theorem requireAuth_cases_witness :
    requireAuth sampleVerify "devsecret" { authorization := some "Bearer good" } =
      (Outcome.next,
        { authorization := some "Bearer good",
          user := verifyToken sampleVerify "devsecret" "good" }) :=
  (requireAuth_cases sampleVerify "devsecret" { authorization := some "Bearer good" }
    (by
      intro t v h
      unfold sampleVerify at h
      split at h
      · cases h
        rfl
      · cases h)).2.2.2.2 "good" rfl (by decide)
    (by simp [verifyToken, sampleVerify])

/-! ### Identity resolver -/

theorem mem_getUserRoles (db : Store) (userId : Int) (r : Role) :
    r ∈ getUserRoles db userId ↔
      r ∈ db.roles ∧ ∃ ur ∈ db.userRoles, ur.id_user = userId ∧ ur.id_role = r.id := by
  simp only [getUserRoles, List.mem_flatMap, List.mem_filter, beq_iff_eq]
  constructor
  · rintro ⟨ur, ⟨hur, hu⟩, hr, hid⟩
    exact ⟨hr, ur, hur, hu, hid⟩
  · rintro ⟨hr, ur, hur, hu, hid⟩
    exact ⟨ur, ⟨hur, hu⟩, hr, hid⟩

theorem mem_getRolePermissions (db : Store) (roleIds : List Int) (p : Permission) :
    p ∈ getRolePermissions db roleIds ↔
      p ∈ db.permissions ∧
        ∃ rp ∈ db.rolePermissions, rp.id_permission = p.id ∧ rp.id_role ∈ roleIds := by
  unfold getRolePermissions
  split
  · next h =>
    have hnil : roleIds = [] := List.length_eq_zero.mp (by simpa using h)
    subst hnil
    simp
  · simp only [List.mem_dedup, List.mem_flatMap, List.mem_filter, List.mem_map, beq_iff_eq]
    constructor
    · rintro ⟨rp, hrp, q, ⟨hq, hid⟩, i, ⟨hi, hri⟩, rfl⟩
      exact ⟨hq, rp, hrp, hid, hri ▸ hi⟩
    · rintro ⟨hp, rp, hrp, hid, hi⟩
      exact ⟨rp, hrp, p, ⟨hp, hid⟩, rp.id_role, ⟨hi, rfl⟩, rfl⟩

theorem nodup_getRolePermissions (db : Store) (roleIds : List Int) :
    (getRolePermissions db roleIds).Nodup := by
  unfold getRolePermissions
  split
  · exact List.nodup_nil
  · exact List.nodup_dedup _

theorem mem_getUserPermissions (db : Store) (userId : Int) (p : Permission) :
    p ∈ getUserPermissions db userId ↔
      p ∈ db.permissions ∧
        ∃ rp ∈ db.rolePermissions, rp.id_permission = p.id ∧
          ∃ r ∈ getUserRoles db userId, rp.id_role = r.id := by
  simp only [getUserPermissions, mem_getRolePermissions, List.mem_map]
  constructor
  · rintro ⟨hp, rp, hrp, hid, r, hr, hrid⟩
    exact ⟨hp, rp, hrp, hid, r, hr, hrid.symm⟩
  · rintro ⟨hp, rp, hrp, hid, r, hr, hrid⟩
    exact ⟨hp, rp, hrp, hid, r, hr, hrid.symm⟩

theorem utf16Length_pos (s : String) (h : s ≠ "") : 1 ≤ utf16Length s := by
  unfold utf16Length
  cases hs : s.toList with
  | nil =>
    exfalso
    apply h
    apply String.ext
    exact hs
  | cons c rest =>
    simp only [List.map_cons, List.sum_cons]
    split <;> omega

theorem JsVal.truthy_str (s : String) (h : s ≠ "") : (JsVal.str s).truthy = true := by
  simp [JsVal.truthy, h]

theorem authenticate_invalid (eng : Engine) (bcryptCompare : String → String → Bool)
    (jwtSign : JwtSign) (jwtSecret : String) (db : Store) (username password : String)
    (h : getUserByUsername eng db username = none ∨
      ∃ u, getUserByUsername eng db username = some u ∧
        bcryptCompare password u.password_hash = false) :
    authenticate eng bcryptCompare jwtSign jwtSecret db username password = Except.ok none := by
  rcases h with h | ⟨u, hu, hpw⟩
  · simp [authenticate, h, verifyPassword]
  · simp [authenticate, hu, verifyPassword, hpw]

/-- C4. For every store state, username and password: if no user with that
username exists, or the user exists and the password does not verify against
the stored hash, `authenticate` returns `null` without raising, so both
failures yield the identical value; and `POST /auth/login` answers both with
the same 401 body `{error: "Invalid credentials"}`. -/
theorem authenticate_failure_indistinguishable (eng : Engine)
    (bcryptCompare : String → String → Bool) (jwtSign : JwtSign) (jwtSecret : String)
    (db : Store) :
    (∀ username password : String,
      (getUserByUsername eng db username = none ∨
        ∃ u, getUserByUsername eng db username = some u ∧
          bcryptCompare password u.password_hash = false) →
      authenticate eng bcryptCompare jwtSign jwtSecret db username password = Except.ok none) ∧
    (∀ (body : JsVal) (username password : String),
      body.getProp "username" = some (JsVal.str username) →
      body.getProp "password" = some (JsVal.str password) →
      username ≠ "" → password ≠ "" →
      utf16Length username ≤ 100 → utf16Length password ≤ 255 →
      jsTrim username ≠ "" →
      (getUserByUsername eng db (jsTrim username) = none ∨
        ∃ u, getUserByUsername eng db (jsTrim username) = some u ∧
          bcryptCompare password u.password_hash = false) →
      loginRoute eng bcryptCompare jwtSign jwtSecret db body =
        RouteResult.sent 401 (errorBody "Invalid credentials")) := by
  refine ⟨fun username password h =>
    authenticate_invalid eng bcryptCompare jwtSign jwtSecret db username password h, ?_⟩
  intro body username password hbu hbp hu hp hlu hlp htrim hfail
  have h1 := utf16Length_pos username hu
  have h2 := utf16Length_pos password hp
  have hauth := authenticate_invalid eng bcryptCompare jwtSign jwtSecret db
    (jsTrim username) password hfail
  have c1 : ¬ (100 < utf16Length username) := by omega
  have c2 : ¬ (255 < utf16Length password) := by omega
  have c3 : ¬ (utf16Length username < 1) := by omega
  have c4 : ¬ (utf16Length password < 1) := by omega
  simp [loginRoute, hbu, hbp, JsVal.truthy_str, hu, hp, c1, c2, c3, c4, htrim, hauth]

/-- Witness for C4: an unknown user and a wrong password at the login route. -/
theorem authenticate_failure_indistinguishable_witness :
    loginRoute sampleEngine sampleCompare sampleSign "devsecret" sampleStore
        (JsVal.obj [("username", JsVal.str "nobody"), ("password", JsVal.str "x")]) =
      RouteResult.sent 401 (errorBody "Invalid credentials") ∧
    loginRoute sampleEngine sampleCompare sampleSign "devsecret" sampleStore
        (JsVal.obj [("username", JsVal.str " admin"), ("password", JsVal.str "wrong")]) =
      RouteResult.sent 401 (errorBody "Invalid credentials") :=
  ⟨(authenticate_failure_indistinguishable sampleEngine sampleCompare sampleSign "devsecret"
      sampleStore).2 _ "nobody" "x" rfl rfl (by decide) (by decide) (by decide) (by decide)
      (by decide) (Or.inl (by decide)),
   (authenticate_failure_indistinguishable sampleEngine sampleCompare sampleSign "devsecret"
      sampleStore).2 _ " admin" "wrong" rfl rfl (by decide) (by decide) (by decide) (by decide)
      (by decide) (Or.inr ⟨⟨1, "admin", "hash:admin@ued"⟩, by decide, by decide⟩)⟩

/-- C5. For every store state and every user whose password verifies,
`authenticate` returns the claim set with `sub` the user's id, `username` the
user's username, `roles` the `name_role` of exactly the roles linked to the
user through `UserRoles`, and `permissions` the `(name_permission, module)`
pairs of exactly the `Permissions` rows linked through `RolePermissions` to at
least one of those roles, each such row contributing one entry however many of
the user's roles grant it; a user with no roles gets an empty permission list.
The result is returned whenever signing succeeds. -/
theorem authenticate_claim_set (eng : Engine) (bcryptCompare : String → String → Bool)
    (jwtSign : JwtSign) (jwtSecret : String) (db : Store) (username password : String)
    (u : User) (hu : getUserByUsername eng db username = some u)
    (hpw : bcryptCompare password u.password_hash = true) :
    let roles := getUserRoles db u.id
    let perms := getUserPermissions db u.id
    let claims := authPayload u roles perms
    (∀ token, jwtSign claims jwtSecret "1h" "HS256" = Except.ok token →
      authenticate eng bcryptCompare jwtSign jwtSecret db username password =
        Except.ok (some { token := token, user := claims })) ∧
    (∀ res, authenticate eng bcryptCompare jwtSign jwtSecret db username password =
        Except.ok (some res) → res.user = claims) ∧
    claims.getProp "sub" = some (JsVal.num u.id) ∧
    claims.getProp "username" = some (JsVal.str u.username) ∧
    claims.getProp "roles" = some (JsVal.arr (roles.map (fun r => JsVal.str r.name_role))) ∧
    claims.getProp "permissions" = some (JsVal.arr (perms.map (fun p =>
      JsVal.obj [("name_permission", JsVal.str p.name_permission),
                 ("module", JsVal.str p.module)]))) ∧
    (∀ r, r ∈ roles ↔
      r ∈ db.roles ∧ ∃ ur ∈ db.userRoles, ur.id_user = u.id ∧ ur.id_role = r.id) ∧
    (∀ p, p ∈ perms ↔
      p ∈ db.permissions ∧ ∃ rp ∈ db.rolePermissions, rp.id_permission = p.id ∧
        ∃ r ∈ roles, rp.id_role = r.id) ∧
    perms.Nodup ∧
    (roles = [] → perms = []) := by
  intro roles perms claims
  refine ⟨?_, ?_, rfl, rfl, rfl, rfl, ?_, ?_, ?_, ?_⟩
  · intro token htok
    simp only [authenticate, hu, verifyPassword, hpw]
    simp only [claims, roles, perms] at htok
    simp [htok]
  · intro res hres
    simp only [authenticate, hu, verifyPassword, hpw] at hres
    cases hs : jwtSign (authPayload u (getUserRoles db u.id) (getUserPermissions db u.id))
        jwtSecret "1h" "HS256" with
    | error e => simp [hs] at hres
    | ok token =>
      simp [hs] at hres
      rw [← hres]
  · intro r
    exact mem_getUserRoles db u.id r
  · intro p
    exact mem_getUserPermissions db u.id p
  · exact nodup_getRolePermissions db _
  · intro hnil
    simp only [perms, getUserPermissions]
    have : getUserRoles db u.id = [] := hnil
    rw [this]
    rfl

/-- Witness for C5: the staff member of the sample store. -/
theorem authenticate_claim_set_witness :
    (authPayload ⟨2, "staff", "hash:staff@ued"⟩ (getUserRoles sampleStore 2)
        (getUserPermissions sampleStore 2)).getProp "roles" =
      some (JsVal.arr ((getUserRoles sampleStore 2).map (fun r => JsVal.str r.name_role))) :=
  (authenticate_claim_set sampleEngine sampleCompare sampleSign "devsecret" sampleStore
    "staff" "staff@ued" ⟨2, "staff", "hash:staff@ued"⟩ (by decide) (by decide)).2.2.2.2.1

theorem eval_getUserPermissions_staff : getUserPermissions sampleStore 2 = [⟨1, "View", "Order"⟩, ⟨2, "Add", "Order"⟩] := by
  decide

theorem eval_getUserRoles_staff : getUserRoles sampleStore 2 = [⟨3, "Staff"⟩] := by decide

theorem eval_timespan_hour : timespanSeconds "1h" = some 3600 := by decide

theorem eval_timespan_minutes : timespanSeconds "15m" = some 900 := by decide

theorem eval_authenticate_staff : authenticate sampleEngine sampleCompare (Jwt.sign sampleCodec 1000) "devsecret"
    sampleStore "staff" "staff@ued" =
    Except.ok (some ⟨"good", authPayload ⟨2, "staff", "hash:staff@ued"⟩
      (getUserRoles sampleStore 2) (getUserPermissions sampleStore 2)⟩) := by
  rfl

/-! ### Token issuer and verifier -/

theorem timespanSeconds_one_hour : timespanSeconds "1h" = some 3600 := by decide

theorem Jwt.build_authPayload (now : Nat) (u : User) (roles : List Role)
    (perms : List Permission) (secret : String) :
    Jwt.build now (authPayload u roles perms) secret "1h" "HS256" =
      Except.ok { alg := "HS256", payload := Jwt.stamped now 3600 (authPayload u roles perms),
                  key := secret } := by
  simp only [Jwt.build, timespanSeconds_one_hour]
  rfl

/-- What a successful `authenticate` over the modelled library has issued. -/
theorem authenticate_issued (codec : TokenCodec) (eng : Engine)
    (bcryptCompare : String → String → Bool) (jwtSecret : String) (db : Store)
    (username password : String) (t0 : Nat) (res : AuthResult)
    (hauth : authenticate eng bcryptCompare (Jwt.sign codec t0) jwtSecret db username password
      = Except.ok (some res)) :
    ∃ u, getUserByUsername eng db username = some u ∧
      res.user = authPayload u (getUserRoles db u.id) (getUserPermissions db u.id) ∧
      Jwt.build t0 res.user jwtSecret "1h" "HS256" =
        Except.ok { alg := "HS256", payload := Jwt.stamped t0 3600 res.user, key := jwtSecret } ∧
      res.token = codec.encode
        { alg := "HS256", payload := Jwt.stamped t0 3600 res.user, key := jwtSecret } := by
  unfold authenticate at hauth
  cases hu : getUserByUsername eng db username with
  | none => simp [hu, verifyPassword] at hauth
  | some u =>
    cases hv : bcryptCompare password u.password_hash with
    | false => simp [hu, verifyPassword, hv] at hauth
    | true =>
      simp only [hu, verifyPassword, hv, Jwt.sign, Jwt.build_authPayload] at hauth
      simp at hauth
      refine ⟨u, rfl, ?_, ?_, ?_⟩
      · rw [← hauth]
      · rw [← hauth]
        exact Jwt.build_authPayload t0 u _ _ jwtSecret
      · rw [← hauth]

/-- The verifier on a token that decodes to an HS256 token signed with the
configured secret and stamped to expire at `exp`. -/
theorem verifyToken_stamped (codec : TokenCodec) (secret token : String) (t0 span t1 : Nat)
    (fields : List (String × JsVal))
    (hdec : codec.decode token = some
      { alg := "HS256", payload := Jwt.stamped t0 span (JsVal.obj fields), key := secret }) :
    verifyToken (Jwt.verify codec t1) secret token =
      if t0 + span ≤ t1 then JsVal.null else Jwt.stamped t0 span (JsVal.obj fields) := by
  simp only [verifyToken, Jwt.verify, hdec, Jwt.stamped, JsVal.getProp]
  by_cases h : t0 + span ≤ t1
  · have h2 : ((t0 : Int) + (span : Int)) ≤ (t1 : Int) := by exact_mod_cast h
    simp [List.lookup, h, h2]
  · have h2 : ¬ ((t0 : Int) + (span : Int)) ≤ (t1 : Int) := by
      intro hc
      exact h (by exact_mod_cast hc)
    simp [List.lookup, h, h2]

/-- The decoded form of a token issued by `authenticate`, given that the
serialisation of that token can be read back. -/
theorem issued_token_decodes (codec : TokenCodec) (eng : Engine)
    (bcryptCompare : String → String → Bool) (jwtSecret : String) (db : Store)
    (username password : String) (t0 : Nat) (res : AuthResult)
    (hauth : authenticate eng bcryptCompare (Jwt.sign codec t0) jwtSecret db username password
      = Except.ok (some res))
    (hcodec : ∀ j, Jwt.build t0 res.user jwtSecret "1h" "HS256" = Except.ok j →
      codec.decode (codec.encode j) = some j) :
    ∃ u, getUserByUsername eng db username = some u ∧
      res.user = authPayload u (getUserRoles db u.id) (getUserPermissions db u.id) ∧
      codec.decode res.token = some
        { alg := "HS256", payload := Jwt.stamped t0 3600 res.user, key := jwtSecret } := by
  obtain ⟨u, hu, hpay, hbuild, htok⟩ :=
    authenticate_issued codec eng bcryptCompare jwtSecret db username password t0 res hauth
  refine ⟨u, hu, hpay, ?_⟩
  rw [htok]
  exact hcodec _ hbuild

theorem sampleCodec_reads_back (j : Jws)
    (h : Jwt.build 1000 (authPayload ⟨2, "staff", "hash:staff@ued"⟩ (getUserRoles sampleStore 2)
      (getUserPermissions sampleStore 2)) "devsecret" "1h" "HS256" = Except.ok j) :
    sampleCodec.decode (sampleCodec.encode j) = some j := by
  rw [Jwt.build_authPayload] at h
  injection h with h
  subst h
  rfl

/-- C6. Round trip: for every successful result `{token, user}` of
`authenticate`, `verifyToken(token)` evaluated with the same secret before the
token expires returns a non-null claim set whose `sub`, `username`, `roles`
and `permissions` equal those of `user`, which are the ones computed from the
store at authentication time. -/
theorem token_round_trip (codec : TokenCodec) (eng : Engine)
    (bcryptCompare : String → String → Bool) (jwtSecret : String) (db : Store)
    (username password : String) (t0 t1 : Nat) (res : AuthResult)
    (hauth : authenticate eng bcryptCompare (Jwt.sign codec t0) jwtSecret db username password
      = Except.ok (some res))
    (hcodec : ∀ j, Jwt.build t0 res.user jwtSecret "1h" "HS256" = Except.ok j →
      codec.decode (codec.encode j) = some j)
    (hfresh : t1 < t0 + 3600) :
    let decoded := verifyToken (Jwt.verify codec t1) jwtSecret res.token
    decoded ≠ JsVal.null ∧ decoded.isObject = true ∧
    decoded.getProp "sub" = res.user.getProp "sub" ∧
    decoded.getProp "username" = res.user.getProp "username" ∧
    decoded.getProp "roles" = res.user.getProp "roles" ∧
    decoded.getProp "permissions" = res.user.getProp "permissions" ∧
    ∃ u, getUserByUsername eng db username = some u ∧
      decoded.getProp "sub" = some (JsVal.num u.id) ∧
      decoded.getProp "username" = some (JsVal.str u.username) ∧
      decoded.getProp "roles" =
        some (JsVal.arr ((getUserRoles db u.id).map (fun r => JsVal.str r.name_role))) ∧
      decoded.getProp "permissions" =
        some (JsVal.arr ((getUserPermissions db u.id).map (fun p =>
          JsVal.obj [("name_permission", JsVal.str p.name_permission),
                     ("module", JsVal.str p.module)]))) := by
  intro decoded
  obtain ⟨u, hu, hpay, hdec⟩ :=
    issued_token_decodes codec eng bcryptCompare jwtSecret db username password t0 res hauth hcodec
  have hv : decoded = Jwt.stamped t0 3600 res.user := by
    have hobj : res.user = JsVal.obj
        [("sub", JsVal.num u.id),
         ("username", JsVal.str u.username),
         ("roles", JsVal.arr ((getUserRoles db u.id).map (fun r => JsVal.str r.name_role))),
         ("permissions", JsVal.arr ((getUserPermissions db u.id).map (fun p =>
            JsVal.obj [("name_permission", JsVal.str p.name_permission),
                       ("module", JsVal.str p.module)])))] := hpay
    rw [hobj] at hdec ⊢
    have := verifyToken_stamped codec jwtSecret res.token t0 3600 t1 _ hdec
    rw [if_neg (by omega)] at this
    exact this
  rw [hv, hpay]
  refine ⟨?_, rfl, rfl, rfl, rfl, rfl, u, hu, rfl, rfl, rfl, rfl⟩
  intro h
  cases h

/-- Witness for C6: the staff member's token, issued at 1000 and read at 2000. -/
theorem token_round_trip_witness :
    verifyToken (Jwt.verify sampleCodec 2000) "devsecret" "good" ≠ JsVal.null :=
  (token_round_trip sampleCodec sampleEngine sampleCompare "devsecret" sampleStore
    "staff" "staff@ued" 1000 2000
    ⟨"good", authPayload ⟨2, "staff", "hash:staff@ued"⟩ (getUserRoles sampleStore 2)
      (getUserPermissions sampleStore 2)⟩
    rfl sampleCodec_reads_back (by decide)).1

/-- C7. `verifyToken` never raises: for every input string it returns the
decoded claim set or `null`; and it returns `null` for an expired token, for a
token signed with a secret other than the configured one, for a token whose
header names an algorithm other than HS256 (`none` included), and for a
structurally malformed token. -/
theorem verifyToken_total_and_rejects (jwtVerify : JwtVerify) (codec : TokenCodec)
    (now : Nat) (jwtSecret token : String) :
    (verifyToken jwtVerify jwtSecret token = JsVal.null ∨
      ∃ v, jwtVerify token jwtSecret ["HS256"] = Except.ok v ∧
        verifyToken jwtVerify jwtSecret token = v) ∧
    (∀ j (e : Int), codec.decode token = some j →
      j.payload.getProp "exp" = some (JsVal.num e) → e ≤ (now : Int) →
      verifyToken (Jwt.verify codec now) jwtSecret token = JsVal.null) ∧
    (∀ j, codec.decode token = some j → j.key ≠ jwtSecret →
      verifyToken (Jwt.verify codec now) jwtSecret token = JsVal.null) ∧
    (∀ j, codec.decode token = some j → j.alg ≠ "HS256" →
      verifyToken (Jwt.verify codec now) jwtSecret token = JsVal.null) ∧
    (∀ j, codec.decode token = some j → j.alg = "none" →
      verifyToken (Jwt.verify codec now) jwtSecret token = JsVal.null) ∧
    (codec.decode token = none →
      verifyToken (Jwt.verify codec now) jwtSecret token = JsVal.null) := by
  have halg : ∀ j, codec.decode token = some j → j.alg ≠ "HS256" →
      verifyToken (Jwt.verify codec now) jwtSecret token = JsVal.null := by
    intro j hdec halg
    simp [verifyToken, Jwt.verify, hdec, halg]
  refine ⟨?_, ?_, ?_, halg, ?_, ?_⟩
  · unfold verifyToken
    cases hv : jwtVerify token jwtSecret ["HS256"] with
    | error e => exact Or.inl rfl
    | ok v => exact Or.inr ⟨v, rfl, rfl⟩
  · intro j e hdec hexp hle
    by_cases h1 : j.alg = "HS256"
    · by_cases h2 : j.key = jwtSecret
      · simp [verifyToken, Jwt.verify, hdec, hexp, h1, h2, hle]
      · simp [verifyToken, Jwt.verify, hdec, hexp, h1, h2]
    · exact halg j hdec h1
  · intro j hdec hkey
    by_cases h1 : j.alg = "HS256"
    · simp [verifyToken, Jwt.verify, hdec, h1, hkey]
    · exact halg j hdec h1
  · intro j hdec hnone
    apply halg j hdec
    rw [hnone]
    decide
  · intro hdec
    simp [verifyToken, Jwt.verify, hdec]

/-- Witness for C7: the staff member's token read after its expiration. -/
theorem verifyToken_total_and_rejects_witness :
    verifyToken (Jwt.verify sampleCodec 5000) "devsecret" "good" = JsVal.null :=
  (verifyToken_total_and_rejects sampleVerify sampleCodec 5000 "devsecret" "good").2.1
    sampleJws 4600 rfl rfl (by decide)

/-- C8. Every token issued by `authenticate` carries an expiration exactly
3600 seconds after its issued-at time (`exp = iat + 3600`) and is signed with
HS256 under the configured secret; `verifyToken` accepts it at every time
before the expiration and returns `null` at every time after it. -/
theorem issued_token_expiry (codec : TokenCodec) (eng : Engine)
    (bcryptCompare : String → String → Bool) (jwtSecret : String) (db : Store)
    (username password : String) (t0 : Nat) (res : AuthResult)
    (hauth : authenticate eng bcryptCompare (Jwt.sign codec t0) jwtSecret db username password
      = Except.ok (some res))
    (hcodec : ∀ j, Jwt.build t0 res.user jwtSecret "1h" "HS256" = Except.ok j →
      codec.decode (codec.encode j) = some j) :
    ∃ j, codec.decode res.token = some j ∧
      j.alg = "HS256" ∧ j.key = jwtSecret ∧
      j.payload.getProp "iat" = some (JsVal.num t0) ∧
      j.payload.getProp "exp" = some (JsVal.num ((t0 : Int) + 3600)) ∧
      j.payload.isObject = true ∧
      (∀ t1 : Nat, t1 < t0 + 3600 →
        verifyToken (Jwt.verify codec t1) jwtSecret res.token = j.payload) ∧
      (∀ t1 : Nat, t0 + 3600 < t1 →
        verifyToken (Jwt.verify codec t1) jwtSecret res.token = JsVal.null) := by
  obtain ⟨u, _, hpay, hdec⟩ :=
    issued_token_decodes codec eng bcryptCompare jwtSecret db username password t0 res hauth hcodec
  have hobj : res.user = JsVal.obj
      [("sub", JsVal.num u.id),
       ("username", JsVal.str u.username),
       ("roles", JsVal.arr ((getUserRoles db u.id).map (fun r => JsVal.str r.name_role))),
       ("permissions", JsVal.arr ((getUserPermissions db u.id).map (fun p =>
          JsVal.obj [("name_permission", JsVal.str p.name_permission),
                     ("module", JsVal.str p.module)])))] := hpay
  rw [hobj] at hdec
  refine ⟨_, hdec, rfl, rfl, rfl, rfl, rfl, ?_, ?_⟩
  · intro t1 ht
    have := verifyToken_stamped codec jwtSecret res.token t0 3600 t1 _ hdec
    rw [if_neg (by omega)] at this
    exact this
  · intro t1 ht
    have := verifyToken_stamped codec jwtSecret res.token t0 3600 t1 _ hdec
    rw [if_pos (by omega)] at this
    exact this

/-- Witness for C8: the staff member's token, issued at time 1000. -/
theorem issued_token_expiry_witness :
    ∃ j, sampleCodec.decode "good" = some j ∧
      j.alg = "HS256" ∧ j.key = "devsecret" ∧
      j.payload.getProp "iat" = some (JsVal.num 1000) ∧
      j.payload.getProp "exp" = some (JsVal.num 4600) ∧
      j.payload.isObject = true ∧
      (∀ t1 : Nat, t1 < 1000 + 3600 →
        verifyToken (Jwt.verify sampleCodec t1) "devsecret" "good" = j.payload) ∧
      (∀ t1 : Nat, 1000 + 3600 < t1 →
        verifyToken (Jwt.verify sampleCodec t1) "devsecret" "good" = JsVal.null) :=
  issued_token_expiry sampleCodec sampleEngine sampleCompare "devsecret" sampleStore
    "staff" "staff@ued" 1000
    ⟨"good", authPayload ⟨2, "staff", "hash:staff@ued"⟩ (getUserRoles sampleStore 2)
      (getUserPermissions sampleStore 2)⟩
    rfl sampleCodec_reads_back

/-! ### Role-permission assignment -/

theorem insertAll_ok_rows (eng : Engine) (roleId : Int) (ids : List Int) :
    ∀ w w2, insertAll eng roleId w ids = Except.ok w2 →
      w2 = { w with rolePermissions :=
        w.rolePermissions ++ ids.map (fun pid => (⟨roleId, pid⟩ : RolePermission)) } := by
  induction ids with
  | nil =>
    intro w w2 h
    simp only [insertAll] at h
    injection h with h
    simp [← h]
  | cons pid rest ih =>
    intro w w2 h
    simp only [insertAll, execInsert] at h
    cases hf : eng.insertFails w ⟨roleId, pid⟩ with
    | some e => simp [hf] at h
    | none =>
      simp only [hf] at h
      have := ih _ _ h
      rw [this]
      simp

theorem insertAll_append (eng : Engine) (roleId : Int) (pre rest : List Int) :
    ∀ w, insertAll eng roleId w (pre ++ rest) =
      match insertAll eng roleId w pre with
      | Except.ok w2 => insertAll eng roleId w2 rest
      | Except.error e => Except.error e := by
  induction pre with
  | nil => intro w; rfl
  | cons pid pre ih =>
    intro w
    simp only [List.cons_append, insertAll]
    cases execInsert eng w roleId pid with
    | error e => rfl
    | ok w2 => exact ih w2

theorem execDelete_ok_rows (eng : Engine) (w w1 : Store) (roleId : Int)
    (h : execDelete eng w roleId = Except.ok w1) :
    w1 = { w with rolePermissions := w.rolePermissions.filter (fun rp => rp.id_role != roleId) } := by
  simp only [execDelete] at h
  cases hd : eng.deleteFails w roleId with
  | some e => simp [hd] at h
  | none =>
    simp only [hd] at h
    injection h with h
    exact h.symm

theorem setRolePermissionsBody_ok_rows (eng : Engine) (db w : Store) (roleId : Int)
    (ids : List Int) (h : setRolePermissionsBody eng db roleId ids = Except.ok w) :
    w = { db with rolePermissions :=
      db.rolePermissions.filter (fun rp => rp.id_role != roleId) ++
        (ids.map (fun pid => (⟨roleId, pid⟩ : RolePermission))) } := by
  simp only [setRolePermissionsBody] at h
  cases hd : execDelete eng db roleId with
  | error e => simp [hd] at h
  | ok w1 =>
    simp only [hd] at h
    cases hi : insertAll eng roleId w1 ids with
    | error e => simp [hi] at h
    | ok w2 =>
      simp only [hi, txCommit] at h
      cases hc : eng.commitFails w2 with
      | some e => simp [hc] at h
      | none =>
        simp only [hc] at h
        injection h with h
        rw [← h, insertAll_ok_rows eng roleId ids _ _ hi, execDelete_ok_rows eng db w1 roleId hd]

theorem getPermissionIdsByRole_replaced (db : Store) (roleId : Int) (ids : List Int) :
    getPermissionIdsByRole
      { db with rolePermissions :=
        db.rolePermissions.filter (fun rp => rp.id_role != roleId) ++
          (ids.map (fun pid => (⟨roleId, pid⟩ : RolePermission))) } roleId = ids := by
  simp only [getPermissionIdsByRole, List.filter_append, List.filter_filter, List.map_append]
  have h1 : db.rolePermissions.filter
      (fun rp => (rp.id_role == roleId && rp.id_role != roleId)) = [] := by
    rw [List.filter_eq_nil_iff]
    intro rp _
    by_cases h : rp.id_role = roleId <;> simp [h]
  have h2 : (ids.map (fun pid => (⟨roleId, pid⟩ : RolePermission))).filter
      (fun rp => rp.id_role == roleId) = ids.map (fun pid => (⟨roleId, pid⟩ : RolePermission)) := by
    rw [List.filter_eq_self]
    intro rp hrp
    rw [List.mem_map] at hrp
    obtain ⟨pid, _, rfl⟩ := hrp
    simp
  rw [h1, h2]
  simp [Function.comp_def]

theorem setRolePermissions_ok_state (eng : Engine) (db : Store) (roleId : Int) (ids : List Int)
    (h : (setRolePermissions eng db roleId ids).1 = Except.ok ()) :
    (setRolePermissions eng db roleId ids).2 =
      { db with rolePermissions :=
        db.rolePermissions.filter (fun rp => rp.id_role != roleId) ++
          (ids.map (fun pid => (⟨roleId, pid⟩ : RolePermission))) } := by
  unfold setRolePermissions at h ⊢
  cases hb : eng.beginFails db with
  | some e => simp [hb] at h
  | none =>
    simp only [hb] at h ⊢
    cases hbody : setRolePermissionsBody eng db roleId ids with
    | error e => simp [hbody] at h
    | ok w =>
      simp only [hbody]
      exact setRolePermissionsBody_ok_rows eng db w roleId ids hbody

theorem setRolePermissions_error_state (eng : Engine) (db : Store) (roleId : Int)
    (ids : List Int) (e : DbError)
    (h : (setRolePermissions eng db roleId ids).1 = Except.error e) :
    (setRolePermissions eng db roleId ids).2 = db := by
  unfold setRolePermissions at h ⊢
  cases hb : eng.beginFails db with
  | some e2 => rfl
  | none =>
    simp only [hb] at h ⊢
    cases hbody : setRolePermissionsBody eng db roleId ids with
    | error e2 => rfl
    | ok w => simp [hbody] at h

theorem setRolePermissions_result_cases (eng : Engine) (db : Store) (roleId : Int)
    (ids : List Int) :
    (setRolePermissions eng db roleId ids).1 = Except.ok () ∨
      ∃ e, (setRolePermissions eng db roleId ids).1 = Except.error e := by
  cases h : (setRolePermissions eng db roleId ids).1 with
  | ok u => exact Or.inl rfl
  | error e => exact Or.inr ⟨e, rfl⟩

/-- C9. Replace semantics: for every store state, role id `r` and list `ids`
of permission ids whose inserts succeed, after `setRolePermissions(r, ids)`
completes the rows of role `r` are one row per element of `ids` and
`getPermissionIdsByRole(r)` returns exactly `ids`, whatever rows the role had
before; with `ids = []` it returns the empty list; and running the same call a
second time leaves the result unchanged. -/
theorem setRolePermissions_replace (eng : Engine) (db : Store) (r : Int) (ids : List Int) :
    ((setRolePermissions eng db r ids).1 = Except.ok () →
      (setRolePermissions eng db r ids).2.rolePermissions.filter (fun rp => rp.id_role == r) =
        ids.map (fun pid => (⟨r, pid⟩ : RolePermission)) ∧
      getPermissionIdsByRole (setRolePermissions eng db r ids).2 r = ids ∧
      getPermissionIdsByRole
        (setRolePermissions eng (setRolePermissions eng db r ids).2 r ids).2 r = ids) ∧
    ((setRolePermissions eng db r []).1 = Except.ok () →
      getPermissionIdsByRole (setRolePermissions eng db r []).2 r = []) := by
  have first : ∀ (d : Store) (l : List Int),
      (setRolePermissions eng d r l).1 = Except.ok () →
      getPermissionIdsByRole (setRolePermissions eng d r l).2 r = l := by
    intro d l h
    rw [setRolePermissions_ok_state eng d r l h]
    exact getPermissionIdsByRole_replaced d r l
  refine ⟨fun h => ⟨?_, first db ids h, ?_⟩, first db []⟩
  · have hids := first db ids h
    rw [setRolePermissions_ok_state eng db r ids h] at hids ⊢
    simp only [List.filter_append, List.filter_filter]
    have h1 : db.rolePermissions.filter
        (fun rp => (rp.id_role == r && rp.id_role != r)) = [] := by
      rw [List.filter_eq_nil_iff]
      intro rp _
      by_cases hr : rp.id_role = r <;> simp [hr]
    have h2 : (ids.map (fun pid => (⟨r, pid⟩ : RolePermission))).filter
        (fun rp => rp.id_role == r) = ids.map (fun pid => (⟨r, pid⟩ : RolePermission)) := by
      rw [List.filter_eq_self]
      intro rp hrp
      rw [List.mem_map] at hrp
      obtain ⟨pid, _, rfl⟩ := hrp
      simp
    rw [h1, h2]
    simp
  · rcases setRolePermissions_result_cases eng (setRolePermissions eng db r ids).2 r ids with
      h2 | ⟨e, h2⟩
    · exact first _ ids h2
    · rw [setRolePermissions_error_state eng _ r ids e h2]
      exact first db ids h

/-- Witness for C9: the Staff role of the sample store is given Add and Edit. -/
theorem setRolePermissions_replace_witness :
    getPermissionIdsByRole (setRolePermissions sampleEngine sampleStore 3 [2, 3]).2 3 = [2, 3] :=
  ((setRolePermissions_replace sampleEngine sampleStore 3 [2, 3]).1 rfl).2.1

theorem eval_setRolePermissions_foreign_key : setRolePermissions sampleEngine sampleStore 3 [2, 99] =
    (Except.error ⟨"FOREIGN KEY constraint"⟩, sampleStore) := by rfl

theorem eval_setRolePermissions_duplicate : setRolePermissions sampleEngine sampleStore 3 [2, 2] =
    (Except.error ⟨"PRIMARY KEY constraint"⟩, sampleStore) := by rfl

theorem insertAll_fails_at (eng : Engine) (roleId : Int) (w1 w : Store)
    (pre post : List Int) (pid : Int) (e : DbError)
    (hpre : insertAll eng roleId w1 pre = Except.ok w)
    (hfail : eng.insertFails w ⟨roleId, pid⟩ = some e) :
    insertAll eng roleId w1 (pre ++ pid :: post) = Except.error e := by
  rw [insertAll_append, hpre]
  simp [insertAll, execInsert, hfail]

/-- C10. Atomicity of `setRolePermissions`: for every store state, role id `r`
and list `ids`, if `begin`, the delete, any insert (for example the k-th one
violating a constraint) or the commit fails, the call raises that error and
the store after the call, hence the `RolePermissions` rows of role `r`, is
exactly the store before it (no partial delete, no partial insert); it returns
`{ok: true}` only when every statement succeeded and the transaction
committed. -/
theorem setRolePermissions_atomic (eng : Engine) (db : Store) (r : Int) (ids : List Int) :
    (∀ e, (setRolePermissions eng db r ids).1 = Except.error e →
      (setRolePermissions eng db r ids).2 = db ∧
      getPermissionIdsByRole (setRolePermissions eng db r ids).2 r =
        getPermissionIdsByRole db r) ∧
    (∀ e, eng.beginFails db = some e →
      setRolePermissions eng db r ids = (Except.error e, db)) ∧
    (∀ e, eng.beginFails db = none → eng.deleteFails db r = some e →
      setRolePermissions eng db r ids = (Except.error e, db)) ∧
    (∀ e w1 w pre pid post, eng.beginFails db = none →
      execDelete eng db r = Except.ok w1 → ids = pre ++ pid :: post →
      insertAll eng r w1 pre = Except.ok w → eng.insertFails w ⟨r, pid⟩ = some e →
      setRolePermissions eng db r ids = (Except.error e, db)) ∧
    (∀ e w1 w2, eng.beginFails db = none →
      execDelete eng db r = Except.ok w1 → insertAll eng r w1 ids = Except.ok w2 →
      eng.commitFails w2 = some e →
      setRolePermissions eng db r ids = (Except.error e, db)) ∧
    ((setRolePermissions eng db r ids).1 = Except.ok () →
      ∃ w1 w2, eng.beginFails db = none ∧ eng.deleteFails db r = none ∧
        execDelete eng db r = Except.ok w1 ∧
        insertAll eng r w1 ids = Except.ok w2 ∧
        (∀ pre pid post w, ids = pre ++ pid :: post →
          insertAll eng r w1 pre = Except.ok w → eng.insertFails w ⟨r, pid⟩ = none) ∧
        eng.commitFails w2 = none ∧
        (setRolePermissions eng db r ids).2 = w2) := by
  refine ⟨?_, ?_, ?_, ?_, ?_, ?_⟩
  · intro e h
    have := setRolePermissions_error_state eng db r ids e h
    exact ⟨this, by rw [this]⟩
  · intro e hb
    simp [setRolePermissions, hb]
  · intro e hb hd
    simp [setRolePermissions, hb, setRolePermissionsBody, execDelete, hd]
  · intro e w1 w pre pid post hb hd hids hpre hfail
    have := insertAll_fails_at eng r w1 w pre post pid e hpre hfail
    simp [setRolePermissions, hb, setRolePermissionsBody, hd, hids, this]
  · intro e w1 w2 hb hd hi hc
    simp [setRolePermissions, hb, setRolePermissionsBody, hd, hi, txCommit, hc]
  · intro h
    cases hb : eng.beginFails db with
    | some e => simp [setRolePermissions, hb] at h
    | none =>
      cases hd : execDelete eng db r with
      | error e => simp [setRolePermissions, hb, setRolePermissionsBody, hd] at h
      | ok w1 =>
        have hdf : eng.deleteFails db r = none := by
          cases hdf : eng.deleteFails db r with
          | none => rfl
          | some e => simp [execDelete, hdf] at hd
        cases hi : insertAll eng r w1 ids with
        | error e => simp [setRolePermissions, hb, setRolePermissionsBody, hd, hi] at h
        | ok w2 =>
          cases hc : eng.commitFails w2 with
          | some e =>
            simp [setRolePermissions, hb, setRolePermissionsBody, hd, hi, txCommit, hc] at h
          | none =>
            refine ⟨w1, w2, rfl, hdf, rfl, hi, ?_, hc, ?_⟩
            · intro pre pid post w hids hpre
              cases hf : eng.insertFails w ⟨r, pid⟩ with
              | none => rfl
              | some e =>
                have := insertAll_fails_at eng r w1 w pre post pid e hpre hf
                rw [← hids, hi] at this
                cases this
            · simp [setRolePermissions, hb, setRolePermissionsBody, hd, hi, txCommit, hc]

/-- Witness for C10: the second insert names an unknown permission; the Staff
role keeps its rows. -/
theorem setRolePermissions_atomic_witness :
    (setRolePermissions sampleEngine sampleStore 3 [2, 99]).2 = sampleStore ∧
    getPermissionIdsByRole (setRolePermissions sampleEngine sampleStore 3 [2, 99]).2 3 =
      getPermissionIdsByRole sampleStore 3 :=
  (setRolePermissions_atomic sampleEngine sampleStore 3 [2, 99]).1
    ⟨"FOREIGN KEY constraint"⟩ rfl

/-! ### Permission administration -/

theorem eval_createPermission_duplicate :
    createPermission sampleEngine sampleStore "View" "Order" =
      (Except.error ⟨"Permission already exists for this module"⟩, sampleStore) := by
  rfl

theorem eval_createPermission_new :
    (createPermission sampleEngine sampleStore "View" "Customer").1 =
      Except.ok ⟨5, "View", "Customer"⟩ := by
  rfl

theorem eval_jsIncludes_already_exists :
    jsIncludes "Permission already exists for this module" "already exists" = true := by
  decide

theorem validatePermissionBody_ok (body : JsVal) (a b : String)
    (h : validatePermissionBody body = some (Except.ok (a, b))) :
    ∃ name module, body.getProp "name_permission" = some (JsVal.str name) ∧
      body.getProp "module" = some (JsVal.str module) ∧
      jsTrim name ∈ validPermissions ∧
      1 ≤ utf16Length name ∧ utf16Length name ≤ 100 ∧
      1 ≤ utf16Length module ∧ utf16Length module ≤ 100 ∧
      jsTrim module ≠ "" ∧ a = jsTrim name ∧ b = jsTrim module := by
  unfold validatePermissionBody at h
  cases hn : body.getProp "name_permission" with
  | none => simp [hn] at h
  | some nv =>
    cases hm : body.getProp "module" with
    | none => simp [hn, hm] at h
    | some mv =>
      simp only [hn, hm] at h
      split at h
      · simp at h
      · cases nv with
        | str n =>
          cases mv with
          | str m =>
            simp only at h
            split at h
            · simp at h
            · next hlen =>
              split at h
              · simp at h
              · next hclean =>
                split at h
                · simp at h
                · next hvalid =>
                  simp only [Option.some.injEq, Except.ok.injEq, Prod.mk.injEq] at h
                  simp only [Bool.or_eq_true, decide_eq_true_eq, not_or, not_lt] at hlen
                  simp only [Bool.or_eq_true, beq_iff_eq, not_or] at hclean
                  refine ⟨n, m, rfl, rfl, ?_, ?_, ?_, ?_, ?_, hclean.2, h.1.symm, h.2.symm⟩
                  · simpa using hvalid
                  · omega
                  · omega
                  · omega
                  · omega
          | _ => simp at h
        | _ => simp at h

theorem JsVal.getProp_isSome (v : JsVal) (key : String)
    (h1 : v ≠ JsVal.undefined) (h2 : v ≠ JsVal.null) : ∃ x, v.getProp key = some x := by
  cases v with
  | undefined => exact absurd rfl h1
  | null => exact absurd rfl h2
  | obj fields => exact ⟨_, JsVal.getProp_obj fields key⟩
  | bool b => exact ⟨_, rfl⟩
  | num n => exact ⟨_, rfl⟩
  | str s => exact ⟨_, rfl⟩
  | arr items => exact ⟨_, rfl⟩

theorem validatePermissionBody_cases (body : JsVal)
    (h1 : body ≠ JsVal.undefined) (h2 : body ≠ JsVal.null) :
    (∃ msg, validatePermissionBody body =
        some (Except.error (RouteResult.sent 400 (errorBody msg)))) ∨
    (∃ a b, validatePermissionBody body = some (Except.ok (a, b))) := by
  obtain ⟨nv, hn⟩ := JsVal.getProp_isSome body "name_permission" h1 h2
  obtain ⟨mv, hm⟩ := JsVal.getProp_isSome body "module" h1 h2
  unfold validatePermissionBody
  simp only [hn, hm]
  split
  · exact Or.inl ⟨_, rfl⟩
  · cases nv with
    | str n =>
      cases mv with
      | str m =>
        simp only
        split
        · exact Or.inl ⟨_, rfl⟩
        · split
          · exact Or.inl ⟨_, rfl⟩
          · split
            · exact Or.inl ⟨_, rfl⟩
            · exact Or.inr ⟨_, _, rfl⟩
      | _ => exact Or.inl ⟨_, rfl⟩
    | _ => exact Or.inl ⟨_, rfl⟩

/-- C11. For every store state in which a `Permissions` row with
`name_permission = n` and `module = m` already exists, `createPermission(n, m)`
raises an error whose message contains `already exists` and performs no insert
(the store is unchanged, so no duplicate row is created), and
`POST /admin/permissions` answers that error with 409. The row is found by the
engine's text comparison, which an exactly equal row satisfies whenever the
comparison is reflexive. -/
theorem createPermission_conflict (eng : Engine) (db : Store) (n m : String) :
    ((∃ p ∈ db.permissions, eng.sqlEq p.name_permission n = true ∧
        eng.sqlEq p.module m = true) →
      createPermission eng db n m =
        (Except.error ⟨"Permission already exists for this module"⟩, db) ∧
      (∃ e, (createPermission eng db n m).1 = Except.error e ∧
        jsIncludes e.message "already exists" = true) ∧
      (createPermission eng db n m).2.permissions = db.permissions ∧
      (∀ body, validatePermissionBody body = some (Except.ok (n, m)) →
        (adminCreatePermissionRoute eng db body).result =
          RouteResult.sent 409 (errorBody "Permission already exists for this module") ∧
        (adminCreatePermissionRoute eng db body).db = db)) ∧
    ((∀ s, eng.sqlEq s s = true) →
      (∃ p ∈ db.permissions, p.name_permission = n ∧ p.module = m) →
      createPermission eng db n m =
        (Except.error ⟨"Permission already exists for this module"⟩, db)) := by
  have key : (∃ p ∈ db.permissions, eng.sqlEq p.name_permission n = true ∧
        eng.sqlEq p.module m = true) →
      createPermission eng db n m =
        (Except.error ⟨"Permission already exists for this module"⟩, db) := by
    rintro ⟨p, hp, h1, h2⟩
    have hmem : p ∈ db.permissions.filter
        (fun p => eng.sqlEq p.name_permission n && eng.sqlEq p.module m) := by
      rw [List.mem_filter]
      exact ⟨hp, by simp [h1, h2]⟩
    have hpos := List.length_pos_of_mem hmem
    simp [createPermission, hpos]
  refine ⟨fun h => ?_, fun hrefl h => ?_⟩
  · have hc := key h
    refine ⟨hc, ⟨_, by rw [hc], by decide⟩, by rw [hc], ?_⟩
    intro body hbody
    simp only [adminCreatePermissionRoute, hbody, hc, createPermissionResponse]
    rw [if_pos (by decide)]
    exact ⟨rfl, trivial⟩
  · obtain ⟨p, hp, h1, h2⟩ := h
    exact key ⟨p, hp, by rw [h1]; exact hrefl n, by rw [h2]; exact hrefl m⟩

/-- Witness for C11: `View:Order` is already in the sample store. -/
theorem createPermission_conflict_witness :
    (adminCreatePermissionRoute sampleEngine sampleStore
        (JsVal.obj [("name_permission", JsVal.str "View"), ("module", JsVal.str " Order ")])).result =
      RouteResult.sent 409 (errorBody "Permission already exists for this module") ∧
    (adminCreatePermissionRoute sampleEngine sampleStore
        (JsVal.obj [("name_permission", JsVal.str "View"), ("module", JsVal.str " Order ")])).db =
      sampleStore :=
  ((createPermission_conflict sampleEngine sampleStore "View" "Order").1
    ⟨⟨1, "View", "Order"⟩, by decide, by decide, by decide⟩).2.2.2 _ (by rfl)

/-- C12. For every authorised `POST /admin/permissions` request,
`repo.createPermission` is called only if `name_permission`, after trimming
surrounding whitespace, is exactly one of `View`, `Add`, `Edit`, `Delete` and
`module` is a string of 1 to 100 characters that is non-empty after trimming;
every other body (missing field, non-string, over 100 characters, blank after
trim, name outside the enum) gets a 400 response and no storage call. -/
theorem adminCreatePermission_validation (eng : Engine) (db : Store) (body : JsVal) :
    (∀ c ∈ (adminCreatePermissionRoute eng db body).calls,
      ∃ name module, body.getProp "name_permission" = some (JsVal.str name) ∧
        body.getProp "module" = some (JsVal.str module) ∧
        jsTrim name ∈ ["View", "Add", "Edit", "Delete"] ∧
        1 ≤ utf16Length module ∧ utf16Length module ≤ 100 ∧ jsTrim module ≠ "" ∧
        c = RepoCall.createPermission (jsTrim name) (jsTrim module)) ∧
    (body ≠ JsVal.undefined → body ≠ JsVal.null →
      (¬ ∃ name module, body.getProp "name_permission" = some (JsVal.str name) ∧
        body.getProp "module" = some (JsVal.str module) ∧
        jsTrim name ∈ ["View", "Add", "Edit", "Delete"] ∧
        1 ≤ utf16Length module ∧ utf16Length module ≤ 100 ∧ jsTrim module ≠ "") →
      ∃ msg, (adminCreatePermissionRoute eng db body).result =
          RouteResult.sent 400 (errorBody msg) ∧
        (adminCreatePermissionRoute eng db body).calls = [] ∧
        (adminCreatePermissionRoute eng db body).db = db) := by
  constructor
  · intro c hc
    unfold adminCreatePermissionRoute at hc
    cases hv : validatePermissionBody body with
    | none => simp [hv] at hc
    | some r =>
      cases r with
      | error response => simp [hv] at hc
      | ok pair =>
        obtain ⟨a, b⟩ := pair
        simp only [hv, List.mem_singleton] at hc
        obtain ⟨name, module, h1, h2, h3, _, _, h6, h7, h8, ha, hb⟩ :=
          validatePermissionBody_ok body a b hv
        exact ⟨name, module, h1, h2, h3, h6, h7, h8, by rw [hc, ha, hb]⟩
  · intro h1 h2 hno
    rcases validatePermissionBody_cases body h1 h2 with ⟨msg, hv⟩ | ⟨a, b, hv⟩
    · exact ⟨msg, by simp [adminCreatePermissionRoute, hv]⟩
    · exfalso
      obtain ⟨name, module, h1, h2, h3, _, _, h6, h7, h8, _, _⟩ :=
        validatePermissionBody_ok body a b hv
      exact hno ⟨name, module, h1, h2, h3, h6, h7, h8⟩

/-- Witness for C12: a lower-case name is outside the enum. -/
theorem adminCreatePermission_validation_witness :
    ∃ msg, (adminCreatePermissionRoute sampleEngine sampleStore
        (JsVal.obj [("name_permission", JsVal.str "view"), ("module", JsVal.str "Order")])).result =
        RouteResult.sent 400 (errorBody msg) ∧
      (adminCreatePermissionRoute sampleEngine sampleStore
        (JsVal.obj [("name_permission", JsVal.str "view"), ("module", JsVal.str "Order")])).calls = [] ∧
      (adminCreatePermissionRoute sampleEngine sampleStore
        (JsVal.obj [("name_permission", JsVal.str "view"), ("module", JsVal.str "Order")])).db =
        sampleStore :=
  (adminCreatePermission_validation sampleEngine sampleStore
    (JsVal.obj [("name_permission", JsVal.str "view"), ("module", JsVal.str "Order")])).2
    (by intro h; cases h) (by intro h; cases h)
    (by
      rintro ⟨name, module, h1, _, h3, _⟩
      have : name = "view" := by
        simp [JsVal.getProp, List.lookup] at h1
        exact h1.symm
      subst this
      revert h3
      decide)

/-! ### Password change -/

theorem eval_changePassword_staff :
    (changePasswordRoute sampleEngine serverBcrypt sampleStore "staff"
      (JsVal.obj [("currentPassword", JsVal.str "staff@ued"),
        ("newPassword", JsVal.str "newpass1")])).result =
      RouteResult.sent 500 (errorBody "Failed to change password") := by
  rfl

theorem eval_changePassword_staff_bound :
    (changePasswordRoute sampleEngine (some sampleBcrypt) sampleStore "staff"
      (JsVal.obj [("currentPassword", JsVal.str "staff@ued"),
        ("newPassword", JsVal.str "newpass1")])).calls =
      [RepoCall.getUserByUsername "staff", RepoCall.updateUserPassword none "hash:newpass1"] := by
  rfl

theorem validateChangePasswordBody_same (body c : JsVal)
    (hc : body.getProp "currentPassword" = some c)
    (hn : body.getProp "newPassword" = some c) :
    ∃ msg, validateChangePasswordBody body =
      some (Except.error (RouteResult.sent 400 (errorBody msg))) := by
  unfold validateChangePasswordBody
  simp only [hc, hn]
  split
  · exact ⟨_, rfl⟩
  · cases c with
    | str p =>
      simp only
      split
      · exact ⟨_, rfl⟩
      · split
        · exact ⟨_, rfl⟩
        · simp
    | _ => exact ⟨_, rfl⟩

/-- C13. For every authenticated `POST /auth/change-password` request whose
`currentPassword` equals its `newPassword`, the handler responds 400 and
performs no storage operation at all: neither the user lookup nor
`updateUserPassword` is invoked, and the store is unchanged. -/
theorem changePassword_same_password_rejected (eng : Engine) (bcrypt : Option Bcrypt)
    (db : Store) (username : String) (body c : JsVal)
    (hc : body.getProp "currentPassword" = some c)
    (hn : body.getProp "newPassword" = some c) :
    ∃ msg, (changePasswordRoute eng bcrypt db username body).result =
        RouteResult.sent 400 (errorBody msg) ∧
      (changePasswordRoute eng bcrypt db username body).calls = [] ∧
      (changePasswordRoute eng bcrypt db username body).db = db := by
  obtain ⟨msg, hv⟩ := validateChangePasswordBody_same body c hc hn
  exact ⟨msg, by simp [changePasswordRoute, hv]⟩

/-- Witness for C13: the staff member repeats the current password. -/
theorem changePassword_same_password_rejected_witness :
    ∃ msg, (changePasswordRoute sampleEngine serverBcrypt sampleStore "staff"
        (JsVal.obj [("currentPassword", JsVal.str "staff@ued"),
          ("newPassword", JsVal.str "staff@ued")])).result =
        RouteResult.sent 400 (errorBody msg) ∧
      (changePasswordRoute sampleEngine serverBcrypt sampleStore "staff"
        (JsVal.obj [("currentPassword", JsVal.str "staff@ued"),
          ("newPassword", JsVal.str "staff@ued")])).calls = [] ∧
      (changePasswordRoute sampleEngine serverBcrypt sampleStore "staff"
        (JsVal.obj [("currentPassword", JsVal.str "staff@ued"),
          ("newPassword", JsVal.str "staff@ued")])).db = sampleStore :=
  changePassword_same_password_rejected sampleEngine serverBcrypt sampleStore "staff"
    (JsVal.obj [("currentPassword", JsVal.str "staff@ued"),
      ("newPassword", JsVal.str "staff@ued")])
    (JsVal.str "staff@ued") rfl rfl

theorem updateUserPassword_none (db : Store) (passwordHash : String) :
    updateUserPassword db none passwordHash = db := by
  unfold updateUserPassword
  have : db.users.map (fun u =>
      if some u.id = none then { u with password_hash := passwordHash } else u) = db.users := by
    simp
  rw [this]

theorem User.getInt_user_id (u : User) : u.getInt "user_id" = none := by
  unfold User.getInt
  rw [if_neg (by decide)]

/-- Whatever `bcrypt` is bound to, the handler of `POST /auth/change-password`
leaves the store as it was: the row id it passes, `user.user_id`, is
`undefined`. -/
theorem changePasswordRoute_store_unchanged (eng : Engine) (bcrypt : Option Bcrypt)
    (db : Store) (username : String) (body : JsVal) :
    (changePasswordRoute eng bcrypt db username body).db = db := by
  unfold changePasswordRoute
  split
  · rfl
  · rfl
  · split
    · rfl
    · split
      · rfl
      · split
        · rfl
        · simp only [User.getInt_user_id, updateUserPassword_none]

/-- With `bcrypt` unbound, as in `server.js`, a request that passes validation
for an existing user is answered 500. -/
theorem changePasswordRoute_server_fails (eng : Engine) (db : Store) (username : String)
    (body : JsVal) (c n : String) (user : User)
    (hv : validateChangePasswordBody body = some (Except.ok (c, n)))
    (hu : getUserByUsername eng db username = some user) :
    (changePasswordRoute eng serverBcrypt db username body).result =
      RouteResult.sent 500 (errorBody "Failed to change password") := by
  simp [changePasswordRoute, hv, hu, serverBcrypt]

/-- C14 (failing input). The staff member of the sample store, whose password
is `staff@ued`, asks to change it to `newpass1`: the handler answers 500
`Failed to change password`, the `Users` table keeps the old hash, and
`authenticate` with the new password returns `null`. -/
theorem changePassword_valid_request_fails :
    (changePasswordRoute sampleEngine serverBcrypt sampleStore "staff"
      (JsVal.obj [("currentPassword", JsVal.str "staff@ued"),
        ("newPassword", JsVal.str "newpass1")])).result =
      RouteResult.sent 500 (errorBody "Failed to change password") ∧
    (changePasswordRoute sampleEngine serverBcrypt sampleStore "staff"
      (JsVal.obj [("currentPassword", JsVal.str "staff@ued"),
        ("newPassword", JsVal.str "newpass1")])).db = sampleStore ∧
    (authenticate sampleEngine sampleCompare sampleSign "devsecret"
      (changePasswordRoute sampleEngine serverBcrypt sampleStore "staff"
        (JsVal.obj [("currentPassword", JsVal.str "staff@ued"),
          ("newPassword", JsVal.str "newpass1")])).db "staff" "newpass1") = Except.ok none ∧
    (changePasswordRoute sampleEngine (some sampleBcrypt) sampleStore "staff"
      (JsVal.obj [("currentPassword", JsVal.str "staff@ued"),
        ("newPassword", JsVal.str "newpass1")])).db = sampleStore := by
  refine ⟨rfl, rfl, rfl, rfl⟩

/-! ### Route table -/

theorem eval_gate_post_orders :
    (gate sampleVerify "devsecret" Route.postOrders { authorization := some "Bearer good" }).1 =
      Outcome.respond 403 "Forbidden: lacking permission" := by
  rfl

theorem eval_gate_get_orders :
    (gate sampleVerify "devsecret" Route.getOrders { authorization := some "Bearer good" }).1 =
      Outcome.next := by
  rfl

theorem eval_gate_admin_users :
    (gate sampleVerify "devsecret" Route.adminUsers { authorization := some "Bearer good" }).1 =
      Outcome.respond 403 "Forbidden: role required" := by
  rfl

theorem eval_gate_no_token :
    (gate sampleVerify "devsecret" Route.deleteOrder { authorization := none }).1 =
      Outcome.respond 401 "Missing token" := by
  rfl

theorem somePermission_true (action module : String) (ps : List JsVal)
    (h : somePermission action module ps = some true) :
    ∃ p ∈ ps, p.getProp "name_permission" = some (JsVal.str action) ∧
      p.getProp "module" = some (JsVal.str module) := by
  induction ps with
  | nil => simp [somePermission] at h
  | cons p rest ih =>
    simp only [somePermission] at h
    cases hn : p.getProp "name_permission" with
    | none => simp [hn] at h
    | some n =>
      simp only [hn] at h
      by_cases ha : n.strictEqStr action = true
      · simp only [ha, if_true] at h
        cases hm : p.getProp "module" with
        | none => simp [hm] at h
        | some mv =>
          simp only [hm] at h
          by_cases hb : mv.strictEqStr module = true
          · rw [JsVal.strictEqStr_iff] at ha hb
            exact ⟨p, List.mem_cons_self _ _, by rw [hn, ha], by rw [hm, hb]⟩
          · simp only [hb, Bool.false_eq_true, if_false] at h
            obtain ⟨q, hq, hq2⟩ := ih h
            exact ⟨q, List.mem_cons_of_mem _ hq, hq2⟩
      · simp only [ha, Bool.false_eq_true, if_false] at h
        obtain ⟨q, hq, hq2⟩ := ih h
        exact ⟨q, List.mem_cons_of_mem _ hq, hq2⟩

theorem requirePermission_next (action module : String) (user : JsVal)
    (h : requirePermission action module user = Outcome.next) :
    ∃ ps p, user.getProp "permissions" = some (JsVal.arr ps) ∧ p ∈ ps ∧
      p.getProp "name_permission" = some (JsVal.str action) ∧
      p.getProp "module" = some (JsVal.str module) := by
  unfold requirePermission at h
  split at h
  · cases h
  · split at h
    · next ps hps =>
      split at h
      · cases h
      · next hsome =>
        obtain ⟨p, hp, h1, h2⟩ := somePermission_true action module ps hsome
        exact ⟨ps, p, hps, hp, h1, h2⟩
      · cases h
    · cases h

theorem requireRole_next (roleName : String) (user : JsVal)
    (h : requireRole roleName user = Outcome.next) :
    ∃ rs, user.getProp "roles" = some (JsVal.arr rs) ∧ JsVal.str roleName ∈ rs := by
  unfold requireRole at h
  split at h
  · cases h
  · simp only at h
    split at h
    · cases h
    · next hok =>
      rw [← roles_includes_iff]
      simpa using hok

theorem runChain_auth_then (jwtVerify : JwtVerify) (jwtSecret : String) (mw : Middleware)
    (req : Req)
    (h : (runChain jwtVerify jwtSecret [Middleware.auth, mw] req).1 = Outcome.next) :
    (requireAuth jwtVerify jwtSecret req).1 = Outcome.next ∧
    (runMiddleware jwtVerify jwtSecret mw (requireAuth jwtVerify jwtSecret req).2).1 =
      Outcome.next := by
  simp only [runChain, runMiddleware] at h
  cases ha : requireAuth jwtVerify jwtSecret req with
  | mk o req2 =>
    rw [ha] at h
    cases o with
    | next =>
      refine ⟨rfl, ?_⟩
      simp only at h
      cases hm : runMiddleware jwtVerify jwtSecret mw req2 with
      | mk o2 req3 =>
        unfold runMiddleware at hm
        rw [hm] at h
        cases o2 with
        | next => rfl
        | respond st msg => simp at h
        | throws => simp at h
    | respond st msg => simp at h
    | throws => simp at h

theorem gate_permission_route (jwtVerify : JwtVerify) (jwtSecret : String) (route : Route)
    (req : Req) (action module : String)
    (hmw : route.middlewares = [Middleware.auth, Middleware.permission action module])
    (h : (gate jwtVerify jwtSecret route req).1 = Outcome.next) :
    (requireAuth jwtVerify jwtSecret req).1 = Outcome.next ∧
    ∃ ps p, (requireAuth jwtVerify jwtSecret req).2.user.getProp "permissions" =
        some (JsVal.arr ps) ∧ p ∈ ps ∧
      p.getProp "name_permission" = some (JsVal.str action) ∧
      p.getProp "module" = some (JsVal.str module) := by
  unfold gate at h
  rw [hmw] at h
  obtain ⟨h1, h2⟩ := runChain_auth_then jwtVerify jwtSecret _ req h
  exact ⟨h1, requirePermission_next action module _ h2⟩

theorem gate_role_route (jwtVerify : JwtVerify) (jwtSecret : String) (route : Route)
    (req : Req) (roleName : String)
    (hmw : route.middlewares = [Middleware.auth, Middleware.role roleName])
    (h : (gate jwtVerify jwtSecret route req).1 = Outcome.next) :
    (requireAuth jwtVerify jwtSecret req).1 = Outcome.next ∧
    ∃ rs, (requireAuth jwtVerify jwtSecret req).2.user.getProp "roles" =
        some (JsVal.arr rs) ∧ JsVal.str roleName ∈ rs := by
  unfold gate at h
  rw [hmw] at h
  obtain ⟨h1, h2⟩ := runChain_auth_then jwtVerify jwtSecret _ req h
  exact ⟨h1, requireRole_next roleName _ h2⟩

theorem admin_routes_middlewares (route : Route)
    (h : "/admin/".toList.isPrefixOf route.pattern.2.toList = true) :
    route.middlewares = [Middleware.auth, Middleware.role "Admin"] := by
  cases route <;> first | rfl | (revert h; decide)

/-- C15. Route table conformity: for every request, the handler of
GET/POST/PUT/DELETE on `/orders` (resp. `/customers`) runs only if
`requireAuth` passed and the claim set contains the permission (View/Add/Edit/
Delete respectively, module `Order` resp. `Customer`), and the handler of every
`/admin/*` route runs only if `requireAuth` passed and the claim set's roles
contain `Admin`. Consequently a token whose permissions are exactly
`[View:Order, Add:Order]` passes the gate of `POST /orders` and is answered 403
on `DELETE /orders/5`. -/
theorem route_table_conformity (jwtVerify : JwtVerify) (jwtSecret : String) (req : Req) :
    (∀ route method path action module,
      (route, method, path, action, module) ∈
        [(Route.getOrders, "GET", "/orders", "View", "Order"),
         (Route.postOrders, "POST", "/orders", "Add", "Order"),
         (Route.putOrder, "PUT", "/orders/:id", "Edit", "Order"),
         (Route.deleteOrder, "DELETE", "/orders/:id", "Delete", "Order"),
         (Route.getCustomers, "GET", "/customers", "View", "Customer"),
         (Route.postCustomers, "POST", "/customers", "Add", "Customer"),
         (Route.putCustomer, "PUT", "/customers/:id", "Edit", "Customer"),
         (Route.deleteCustomer, "DELETE", "/customers/:id", "Delete", "Customer")] →
      route.pattern = (method, path) ∧
      ((gate jwtVerify jwtSecret route req).1 = Outcome.next →
        (requireAuth jwtVerify jwtSecret req).1 = Outcome.next ∧
        ∃ ps p, (requireAuth jwtVerify jwtSecret req).2.user.getProp "permissions" =
            some (JsVal.arr ps) ∧ p ∈ ps ∧
          p.getProp "name_permission" = some (JsVal.str action) ∧
          p.getProp "module" = some (JsVal.str module))) ∧
    (∀ route : Route, "/admin/".toList.isPrefixOf route.pattern.2.toList = true →
      (gate jwtVerify jwtSecret route req).1 = Outcome.next →
      (requireAuth jwtVerify jwtSecret req).1 = Outcome.next ∧
      ∃ rs, (requireAuth jwtVerify jwtSecret req).2.user.getProp "roles" =
          some (JsVal.arr rs) ∧ JsVal.str "Admin" ∈ rs) ∧
    (∀ req2 : Req, requireAuth jwtVerify jwtSecret req = (Outcome.next, req2) →
      req2.user.getProp "permissions" = some (JsVal.arr
        [JsVal.obj [("name_permission", JsVal.str "View"), ("module", JsVal.str "Order")],
         JsVal.obj [("name_permission", JsVal.str "Add"), ("module", JsVal.str "Order")]]) →
      (gate jwtVerify jwtSecret Route.postOrders req).1 = Outcome.next ∧
      (gate jwtVerify jwtSecret Route.deleteOrder req).1 =
        Outcome.respond 403 "Forbidden: lacking permission") := by
  refine ⟨?_, ?_, ?_⟩
  · intro route method path action module hmem
    simp only [List.mem_cons, Prod.mk.injEq, List.mem_singleton, List.not_mem_nil,
      or_false] at hmem
    rcases hmem with h | h | h | h | h | h | h | h <;>
      obtain ⟨rfl, rfl, rfl, rfl, rfl⟩ := h <;>
      exact ⟨rfl, gate_permission_route jwtVerify jwtSecret _ req _ _ rfl⟩
  · intro route hadmin h
    exact gate_role_route jwtVerify jwtSecret route req "Admin"
      (admin_routes_middlewares route hadmin) h
  · intro req2 hauth hperms
    have ht : req2.user.truthy = true := JsVal.truthy_of_getProp_arr _ _ _ hperms
    have hadd : somePermission "Add" "Order"
        [JsVal.obj [("name_permission", JsVal.str "View"), ("module", JsVal.str "Order")],
         JsVal.obj [("name_permission", JsVal.str "Add"), ("module", JsVal.str "Order")]] =
        some true := by decide
    have hdel : somePermission "Delete" "Order"
        [JsVal.obj [("name_permission", JsVal.str "View"), ("module", JsVal.str "Order")],
         JsVal.obj [("name_permission", JsVal.str "Add"), ("module", JsVal.str "Order")]] =
        some false := by decide
    have h1 : requirePermission "Add" "Order" req2.user = Outcome.next := by
      simp only [requirePermission, ht, hperms, hadd]
      rfl
    have h2 : requirePermission "Delete" "Order" req2.user =
        Outcome.respond 403 "Forbidden: lacking permission" := by
      simp only [requirePermission, ht, hperms, hdel]
      rfl
    constructor
    · simp only [gate, Route.middlewares, runChain, runMiddleware, hauth, h1]
    · simp only [gate, Route.middlewares, runChain, runMiddleware, hauth, h2]

/-- Witness for C15: a token carrying exactly `View:Order` and `Add:Order`. -/
theorem route_table_conformity_witness :
    (gate staffVerify "devsecret" Route.postOrders { authorization := some "Bearer staff" }).1 =
      Outcome.next ∧
    (gate staffVerify "devsecret" Route.deleteOrder { authorization := some "Bearer staff" }).1 =
      Outcome.respond 403 "Forbidden: lacking permission" :=
  (route_table_conformity staffVerify "devsecret" { authorization := some "Bearer staff" }).2.2
    _ rfl rfl

/-! ### Paged queries -/

theorem roundHalfEven_intCast (k : Int) : roundHalfEven (k : ℚ) = k := by
  unfold roundHalfEven
  simp

theorem roundHalfEven_nonneg (x : ℚ) (hx : 0 ≤ x) : 0 ≤ roundHalfEven x := by
  have hf : 0 ≤ ⌊x⌋ := Int.floor_nonneg.mpr hx
  unfold roundHalfEven
  simp only
  split
  · exact hf
  · split
    · omega
    · split
      · exact hf
      · omega

theorem round64_zero : round64 0 = JsDouble.finite 0 := by
  simp [round64]

theorem round64_natCast (n : Nat) (h : n < 2 ^ 53) : round64 (n : ℚ) = JsDouble.finite n := by
  rcases Nat.eq_zero_or_pos n with h0 | hpos
  · subst h0
    simpa using round64_zero
  · have hne : (n : ℚ) ≠ 0 := by exact_mod_cast hpos.ne'
    have hlog : Nat.log 2 n < 53 := Nat.log_lt_of_lt_pow hpos.ne' h
    obtain ⟨k, hk⟩ : ∃ k : Nat, Nat.log 2 n + k = 52 := ⟨52 - Nat.log 2 n, by omega⟩
    have hbin : binade (n : ℚ) - 52 = -(k : Int) := by
      unfold binade
      rw [Nat.abs_cast, Int.log_natCast]
      omega
    have hulp : (2 : ℚ) ^ (binade (n : ℚ) - 52) = ((2 : ℚ) ^ k)⁻¹ := by
      rw [hbin, zpow_neg, zpow_natCast]
    have hdiv : (n : ℚ) / ((2 : ℚ) ^ k)⁻¹ = ((n * 2 ^ k : Int) : ℚ) := by
      rw [div_inv_eq_mul]
      push_cast
      ring
    have hpow : (2 : ℚ) ^ k ≠ 0 := by positivity
    have hv : (((n * 2 ^ k : Int) : ℚ)) * ((2 : ℚ) ^ k)⁻¹ = (n : ℚ) := by
      push_cast
      field_simp
    have hsmall : ¬ ((2 : ℚ) ^ 1024 ≤ |(n : ℚ)|) := by
      rw [Nat.abs_cast, not_le]
      have h1 : (n : ℚ) < 2 ^ 53 := by exact_mod_cast h
      have h2 : (2 : ℚ) ^ 53 ≤ 2 ^ 1024 := by
        apply pow_le_pow_right₀ <;> norm_num
      linarith
    unfold round64
    rw [if_neg hne]
    simp only [hulp, hdiv, roundHalfEven_intCast, hv, if_neg hsmall]

theorem round64_nonneg (x : ℚ) (hx : 0 ≤ x) :
    round64 x = JsDouble.posInf ∨ ∃ v, round64 x = JsDouble.finite v ∧ 0 ≤ v := by
  rcases hx.eq_or_lt with h0 | hpos
  · subst h0
    exact Or.inr ⟨0, round64_zero, le_refl _⟩
  · have hulp : (0 : ℚ) < 2 ^ (binade x - 52) := by positivity
    have hm : 0 ≤ roundHalfEven (x / 2 ^ (binade x - 52)) :=
      roundHalfEven_nonneg _ (div_nonneg hx hulp.le)
    have hv : (0 : ℚ) ≤ (roundHalfEven (x / 2 ^ (binade x - 52)) : ℚ) * 2 ^ (binade x - 52) :=
      mul_nonneg (by exact_mod_cast hm) hulp.le
    unfold round64
    rw [if_neg hpos.ne']
    simp only [if_pos hpos]
    split
    · exact Or.inl rfl
    · exact Or.inr ⟨_, rfl, hv⟩

theorem round64_rounds_large_product :
    round64 900719925474099000 = JsDouble.finite 900719925474098944 := by
  have hlog : Nat.log 2 900719925474099000 = 59 := by
    rw [Nat.log_eq_iff (Or.inl (by norm_num))]
    norm_num
  have hbin : binade (900719925474099000 : ℚ) - 52 = 7 := by
    unfold binade
    have hc : |(900719925474099000 : ℚ)| = ((900719925474099000 : Nat) : ℚ) := by norm_num
    rw [hc, Int.log_natCast, hlog]
    norm_num
  have hfloor : ⌊(900719925474099000 : ℚ) / 2 ^ (7 : Int)⌋ = 7036874417766398 := by
    rw [Int.floor_eq_iff]
    norm_num
  have hround : roundHalfEven ((900719925474099000 : ℚ) / 2 ^ (7 : Int)) = 7036874417766398 := by
    unfold roundHalfEven
    simp only [hfloor]
    rw [if_pos (by norm_num)]
  unfold round64
  rw [if_neg (by norm_num)]
  simp only [hbin, hround]
  rw [if_neg (by norm_num)]
  norm_num

theorem JsDouble.sub_finite (x y : ℚ) :
    (JsDouble.finite x).sub (JsDouble.finite y) = round64 (x - y) := rfl

theorem JsDouble.mul_finite (x y : ℚ) :
    (JsDouble.finite x).mul (JsDouble.finite y) = round64 (x * y) := rfl

theorem round64_intCast (n : Int) (h0 : 0 ≤ n) (h : n < 2 ^ 53) :
    round64 (n : ℚ) = JsDouble.finite n := by
  obtain ⟨k, rfl⟩ := Int.eq_ofNat_of_zero_le h0
  have hk : k < 2 ^ 53 := by exact_mod_cast h
  simpa using round64_natCast k hk

theorem normalizePage_cases (x : JsDouble) :
    (normalizePage x = JsDouble.posInf ∨ ∃ q, normalizePage x = JsDouble.finite q ∧ 1 ≤ q) ∧
    (x = JsDouble.nan ∨ x = JsDouble.negInf ∨ (∃ q, x = JsDouble.finite q ∧ q < 1) →
      normalizePage x = JsDouble.finite 1) ∧
    (x = JsDouble.posInf ∨ (∃ q, x = JsDouble.finite q ∧ 1 ≤ q) → normalizePage x = x) := by
  cases x with
  | nan => simp [normalizePage, JsDouble.le]
  | posInf => simp [normalizePage, JsDouble.le]
  | negInf => simp [normalizePage, JsDouble.le]
  | finite q =>
    by_cases h : 1 ≤ q
    · simp [normalizePage, JsDouble.le, h]
    · simp [normalizePage, JsDouble.le, h, not_le.mp h]

theorem normalizePageSize_cases (x : JsDouble) :
    (∃ q, normalizePageSize x = JsDouble.finite q ∧ 1 ≤ q ∧ q ≤ 100) ∧
    (x = JsDouble.nan ∨ x = JsDouble.posInf ∨ x = JsDouble.negInf ∨
        (∃ q, x = JsDouble.finite q ∧ (q < 1 ∨ 100 < q)) →
      normalizePageSize x = JsDouble.finite 10) ∧
    ((∃ q, x = JsDouble.finite q ∧ 1 ≤ q ∧ q ≤ 100) → normalizePageSize x = x) := by
  cases x with
  | nan =>
    simp [normalizePageSize, JsDouble.le]
    norm_num
  | posInf =>
    simp [normalizePageSize, JsDouble.le]
    norm_num
  | negInf =>
    simp [normalizePageSize, JsDouble.le]
    norm_num
  | finite q =>
    by_cases h1 : 1 ≤ q
    · by_cases h2 : q ≤ 100
      · simp [normalizePageSize, JsDouble.le, h1, h2]
      · simp [normalizePageSize, JsDouble.le, h1, h2, not_le.mp h2]
        norm_num
    · simp [normalizePageSize, JsDouble.le, h1, not_le.mp h1]
      norm_num

/-- The offset computed from a page of at least 1 and a page size in `[1, 100]`
is never negative. -/
theorem offset_nonneg (page pageSize : JsDouble)
    (hp : page = JsDouble.posInf ∨ ∃ q, page = JsDouble.finite q ∧ 1 ≤ q)
    (hs : ∃ q, pageSize = JsDouble.finite q ∧ 1 ≤ q ∧ q ≤ 100) :
    (page.sub (JsDouble.finite 1)).mul pageSize = JsDouble.posInf ∨
    ∃ v, (page.sub (JsDouble.finite 1)).mul pageSize = JsDouble.finite v ∧ 0 ≤ v := by
  obtain ⟨s, rfl, hs1, _⟩ := hs
  have hs0 : 0 < s := by linarith
  rcases hp with rfl | ⟨q, rfl, hq⟩
  · left
    simp [JsDouble.sub, JsDouble.mul, JsDouble.scaleInf, hs0, hs0.ne']
  · rcases round64_nonneg (q - 1) (by linarith) with h | ⟨v, h, hv⟩
    · left
      simp [JsDouble.sub, JsDouble.mul, JsDouble.scaleInf, h, hs0, hs0.ne']
    · simp only [JsDouble.sub, h, JsDouble.mul]
      exact round64_nonneg (v * s) (mul_nonneg hv hs0.le)

/-- The offset of an integer page and page size is their exact product when
that is below `2^53`. -/
theorem offset_exact (p s : Int) (hp : 1 ≤ p) (hs : 1 ≤ s) (h : (p - 1) * s < 2 ^ 53) :
    ((JsDouble.finite p).sub (JsDouble.finite 1)).mul (JsDouble.finite s) =
      JsDouble.finite (((p - 1) * s : Int) : ℚ) := by
  have h0 : 0 ≤ p - 1 := by omega
  have h1 : p - 1 < 2 ^ 53 := by nlinarith
  have hsub : round64 ((p : ℚ) - 1) = JsDouble.finite ((p - 1 : Int) : ℚ) := by
    have := round64_intCast (p - 1) h0 h1
    push_cast at this ⊢
    exact this
  have hmul : round64 (((p - 1 : Int) : ℚ) * (s : ℚ)) =
      JsDouble.finite (((p - 1) * s : Int) : ℚ) := by
    have := round64_intCast ((p - 1) * s) (mul_nonneg h0 (by omega)) h
    push_cast at this ⊢
    exact this
  rw [JsDouble.sub_finite, hsub, JsDouble.mul_finite, hmul]

/-- The paging fields of both paged query functions. -/
theorem paged_fields (f : PagedArgs → PagedPlan)
    (hf : f = getOrdersPaged ∨ f = getCustomersPaged) (args : PagedArgs) :
    (f args).page = normalizePage (args.page.getD (JsDouble.finite 1)) ∧
    (f args).pageSize = normalizePageSize (args.pageSize.getD (JsDouble.finite 10)) ∧
    (f args).offset = ((f args).page.sub (JsDouble.finite 1)).mul (f args).pageSize := by
  rcases hf with rfl | rfl <;> exact ⟨rfl, rfl, rfl⟩

theorem eval_getOrdersPaged_defaults :
    (getOrdersPaged {}).page = JsDouble.finite 1 ∧
    (getOrdersPaged {}).pageSize = JsDouble.finite 10 ∧
    (getOrdersPaged {}).offset = JsDouble.finite 0 ∧ (getOrdersPaged {}).sort = "created_at" ∧
    (getOrdersPaged {}).dir = "DESC" := by
  obtain ⟨ep, es, eo⟩ := paged_fields getOrdersPaged (Or.inl rfl) {}
  have a1 : ({} : PagedArgs).page.getD (JsDouble.finite 1) = JsDouble.finite 1 := rfl
  have a2 : ({} : PagedArgs).pageSize.getD (JsDouble.finite 10) = JsDouble.finite 10 := rfl
  have hp : (getOrdersPaged {}).page = JsDouble.finite 1 := by
    rw [ep, a1]
    exact (normalizePage_cases _).2.2 (Or.inr ⟨1, rfl, le_refl _⟩)
  have hs : (getOrdersPaged {}).pageSize = JsDouble.finite 10 := by
    rw [es, a2]
    exact (normalizePageSize_cases _).2.2 ⟨10, rfl, by norm_num, by norm_num⟩
  have ho := offset_exact 1 10 (by norm_num) (by norm_num) (by norm_num)
  refine ⟨hp, hs, ?_, by decide, by decide⟩
  rw [eo, hp, hs]
  simpa using ho

theorem eval_getOrdersPaged_out_of_range :
    (getOrdersPaged outOfRangeArgs).pageSize = JsDouble.finite 10 ∧
    (getOrdersPaged outOfRangeArgs).offset = JsDouble.finite 20 := by
  obtain ⟨ep, es, eo⟩ := paged_fields getOrdersPaged (Or.inl rfl) outOfRangeArgs
  have a1 : outOfRangeArgs.page.getD (JsDouble.finite 1) = JsDouble.finite 3 := rfl
  have a2 : outOfRangeArgs.pageSize.getD (JsDouble.finite 10) = JsDouble.finite 500 := rfl
  have hp : (getOrdersPaged outOfRangeArgs).page = JsDouble.finite 3 := by
    rw [ep, a1]
    exact (normalizePage_cases _).2.2 (Or.inr ⟨3, rfl, by norm_num⟩)
  have hs : (getOrdersPaged outOfRangeArgs).pageSize = JsDouble.finite 10 := by
    rw [es, a2]
    exact (normalizePageSize_cases _).2.1
      (Or.inr (Or.inr (Or.inr ⟨500, rfl, Or.inr (by norm_num)⟩)))
  have ho := offset_exact 3 10 (by norm_num) (by norm_num) (by norm_num)
  refine ⟨hs, ?_⟩
  rw [eo, hp, hs]
  simpa using ho

theorem eval_getOrdersPaged_injection :
    (getOrdersPaged { sort := some "id; DROP TABLE Orders", dir := some "AsC" }).sort =
      "created_at" ∧
    (getOrdersPaged { sort := some "id; DROP TABLE Orders", dir := some "AsC" }).dir = "ASC" := by
  decide

/-- C16 as stated fails at page `2^53 - 1` with page size 100: both values are
kept, and the offset bound to `@offset` is `900719925474098944`, the double
nearest to the product, not `(page - 1) * pageSize = 900719925474099000`. -/
theorem paging_offset_rounds_at_large_page :
    (getOrdersPaged largePageArgs).page = JsDouble.finite 9007199254740991 ∧
    (getOrdersPaged largePageArgs).pageSize = JsDouble.finite 100 ∧
    (getOrdersPaged largePageArgs).offset =
      JsDouble.finite 900719925474098944 ∧
    (getOrdersPaged largePageArgs).offset ≠
      JsDouble.finite ((9007199254740991 - 1) * 100) := by
  obtain ⟨ep, es, eo⟩ := paged_fields getOrdersPaged (Or.inl rfl) largePageArgs
  have a1 : largePageArgs.page.getD (JsDouble.finite 1) = JsDouble.finite 9007199254740991 :=
    rfl
  have a2 : largePageArgs.pageSize.getD (JsDouble.finite 10) = JsDouble.finite 100 := rfl
  have hp : (getOrdersPaged largePageArgs).page = JsDouble.finite 9007199254740991 := by
    rw [ep, a1]
    exact (normalizePage_cases _).2.2 (Or.inr ⟨_, rfl, by norm_num⟩)
  have hs : (getOrdersPaged largePageArgs).pageSize = JsDouble.finite 100 := by
    rw [es, a2]
    exact (normalizePageSize_cases _).2.2 ⟨100, rfl, by norm_num, by norm_num⟩
  have hsub : round64 ((9007199254740991 : ℚ) - 1) = JsDouble.finite 9007199254740990 := by
    have := round64_natCast 9007199254740990 (by norm_num)
    norm_num at this ⊢
    exact this
  have ho : (getOrdersPaged largePageArgs).offset =
      JsDouble.finite 900719925474098944 := by
    have hprod : (9007199254740990 : ℚ) * 100 = 900719925474099000 := by norm_num
    rw [eo, hp, hs, JsDouble.sub_finite, hsub, JsDouble.mul_finite, hprod]
    exact round64_rounds_large_product
  refine ⟨hp, hs, ho, ?_⟩
  rw [ho]
  intro hc
  injection hc with hq
  norm_num at hq

/-- C16, amended. Paging normalisation in double precision: for every `page` and
`pageSize` Number given to `getOrdersPaged` or `getCustomersPaged`, the
returned page is at least 1 and the returned page size lies in `[1, 100]`; a
missing, `NaN` or below-1 page becomes 1, a missing, `NaN` or out-of-range page
size becomes 10 (replaced by the default, not clamped), an in-range value is
kept unchanged; the row offset sent to storage is `(page - 1) * pageSize` with
each operation rounded to the nearest double, it is never negative, and it is
the exact product whenever page and page size are integers whose product
`(page - 1) * pageSize` is below `2^53`. -/
theorem paging_normalisation (f : PagedArgs → PagedPlan)
    (hf : f = getOrdersPaged ∨ f = getCustomersPaged) (args : PagedArgs) :
    ((f args).page = JsDouble.posInf ∨ ∃ q, (f args).page = JsDouble.finite q ∧ 1 ≤ q) ∧
    (∃ q, (f args).pageSize = JsDouble.finite q ∧ 1 ≤ q ∧ q ≤ 100) ∧
    ((args.page = none ∨ args.page = some JsDouble.nan ∨ args.page = some JsDouble.negInf ∨
        ∃ q, args.page = some (JsDouble.finite q) ∧ q < 1) →
      (f args).page = JsDouble.finite 1) ∧
    (∀ x, args.page = some x → (x = JsDouble.posInf ∨ ∃ q, x = JsDouble.finite q ∧ 1 ≤ q) →
      (f args).page = x) ∧
    ((args.pageSize = none ∨ args.pageSize = some JsDouble.nan ∨
        args.pageSize = some JsDouble.posInf ∨ args.pageSize = some JsDouble.negInf ∨
        ∃ q, args.pageSize = some (JsDouble.finite q) ∧ (q < 1 ∨ 100 < q)) →
      (f args).pageSize = JsDouble.finite 10) ∧
    (∀ q, args.pageSize = some (JsDouble.finite q) → 1 ≤ q → q ≤ 100 →
      (f args).pageSize = JsDouble.finite q) ∧
    (f args).offset = ((f args).page.sub (JsDouble.finite 1)).mul (f args).pageSize ∧
    ((f args).offset = JsDouble.posInf ∨ ∃ v, (f args).offset = JsDouble.finite v ∧ 0 ≤ v) ∧
    (∀ p s : Int, (f args).page = JsDouble.finite p → (f args).pageSize = JsDouble.finite s →
      (p - 1) * s < 2 ^ 53 → (f args).offset = JsDouble.finite (((p - 1) * s : Int) : ℚ)) := by
  obtain ⟨hp, hs, ho⟩ := paged_fields f hf args
  have hpage := normalizePage_cases (args.page.getD (JsDouble.finite 1))
  have hsize := normalizePageSize_cases (args.pageSize.getD (JsDouble.finite 10))
  rw [← hp] at hpage
  rw [← hs] at hsize
  refine ⟨hpage.1, hsize.1, ?_, ?_, ?_, ?_, ho, ?_, ?_⟩
  · rintro (h | h | h | ⟨q, h, hq⟩)
    · rw [hp, h]
      exact (normalizePage_cases _).2.2 (Or.inr ⟨1, rfl, le_refl _⟩)
    · rw [hp, h]
      exact (normalizePage_cases _).2.1 (Or.inl rfl)
    · rw [hp, h]
      exact (normalizePage_cases _).2.1 (Or.inr (Or.inl rfl))
    · rw [hp, h]
      exact (normalizePage_cases _).2.1 (Or.inr (Or.inr ⟨q, rfl, hq⟩))
  · intro x h hx
    rw [hp, h]
    exact (normalizePage_cases _).2.2 hx
  · rintro (h | h | h | h | ⟨q, h, hq⟩)
    · rw [hs, h]
      exact (normalizePageSize_cases _).2.2 ⟨10, rfl, by norm_num, by norm_num⟩
    · rw [hs, h]
      exact (normalizePageSize_cases _).2.1 (Or.inl rfl)
    · rw [hs, h]
      exact (normalizePageSize_cases _).2.1 (Or.inr (Or.inl rfl))
    · rw [hs, h]
      exact (normalizePageSize_cases _).2.1 (Or.inr (Or.inr (Or.inl rfl)))
    · rw [hs, h]
      exact (normalizePageSize_cases _).2.1 (Or.inr (Or.inr (Or.inr ⟨q, rfl, hq⟩)))
  · intro q h h1 h2
    rw [hs, h]
    exact (normalizePageSize_cases _).2.2 ⟨q, rfl, h1, h2⟩
  · rw [ho]
    exact offset_nonneg _ _ hpage.1 hsize.1
  · intro p s hpp hss hlt
    have hp1 : 1 ≤ p := by
      rcases hpage.1 with h | ⟨q, h, hq⟩
      · rw [hpp] at h
        cases h
      · rw [hpp] at h
        injection h with h
        rw [← h] at hq
        exact_mod_cast hq
    have hs1 : 1 ≤ s := by
      obtain ⟨q, h, hq, _⟩ := hsize.1
      rw [hss] at h
      injection h with h
      rw [← h] at hq
      exact_mod_cast hq
    rw [ho, hpp, hss]
    exact offset_exact p s hp1 hs1 hlt

/-- Witness for C16: page size 500 is replaced by 10, not clamped to 100. -/
theorem paging_normalisation_witness :
    (getCustomersPaged outOfRangeArgs).pageSize = JsDouble.finite 10 :=
  (paging_normalisation getCustomersPaged (Or.inr rfl) outOfRangeArgs).2.2.2.2.1
    (Or.inr (Or.inr (Or.inr (Or.inr ⟨500, rfl, Or.inr (by norm_num)⟩))))

/-- The direction chosen by `dir && dir.toLowerCase() === "asc" ? "ASC" : "DESC"`. -/
theorem direction_choice (d : String) :
    ((if (d != "" && jsToLowerCase d == "asc") = true then "ASC" else "DESC") = "ASC" ↔
      jsToLowerCase d = "asc") ∧
    ((if (d != "" && jsToLowerCase d == "asc") = true then "ASC" else "DESC") = "ASC" ∨
      (if (d != "" && jsToLowerCase d == "asc") = true then "ASC" else "DESC") = "DESC") := by
  by_cases h : jsToLowerCase d = "asc"
  · have hne : d ≠ "" := by
      intro hd
      rw [hd] at h
      revert h
      decide
    simp [h, hne]
  · simp [h]

/-- The column chosen by `if (!sortWhitelist.has(sort)) sort = "created_at"`. -/
theorem sort_choice (whitelist : List String) (hc : "created_at" ∈ whitelist) (s : String) :
    (if (!(whitelist.contains s)) = true then "created_at" else s) ∈ whitelist ∧
    (s ∈ whitelist → (if (!(whitelist.contains s)) = true then "created_at" else s) = s) ∧
    (s ∉ whitelist →
      (if (!(whitelist.contains s)) = true then "created_at" else s) = "created_at") := by
  by_cases h : s ∈ whitelist
  · simp [h]
  · simp [h, hc]

/-- C17. Sort allow-list: for every `sort` and `dir` string given to
`getOrdersPaged` (resp. `getCustomersPaged`), the column interpolated into
`ORDER BY` is a member of `{id, item, customer_name, created_at}` (resp.
`{id, name, phone, email, created_at}`), equal to the input when the input is
in the list and to `created_at` otherwise, and the direction interpolated is
`ASC` exactly when `dir` lower-cased equals `asc` and `DESC` otherwise; so the
query text is one of finitely many texts, none holding caller-supplied text. -/
theorem sort_allow_list (args : PagedArgs) (s d : String)
    (hs : args.sort = some s) (hd : args.dir = some d) :
    ((getOrdersPaged args).sort ∈ ["id", "item", "customer_name", "created_at"] ∧
      (s ∈ ["id", "item", "customer_name", "created_at"] → (getOrdersPaged args).sort = s) ∧
      (s ∉ ["id", "item", "customer_name", "created_at"] →
        (getOrdersPaged args).sort = "created_at") ∧
      ((getOrdersPaged args).dir = "ASC" ↔ jsToLowerCase d = "asc") ∧
      (jsToLowerCase d ≠ "asc" → (getOrdersPaged args).dir = "DESC") ∧
      ∃ w ∈ [ordersWhereSearch, ""],
        ∃ c ∈ ["id", "item", "customer_name", "created_at"],
          ∃ o ∈ ["ASC", "DESC"], (getOrdersPaged args).dataQuery = ordersDataQuery w c o) ∧
    ((getCustomersPaged args).sort ∈ ["id", "name", "phone", "email", "created_at"] ∧
      (s ∈ ["id", "name", "phone", "email", "created_at"] → (getCustomersPaged args).sort = s) ∧
      (s ∉ ["id", "name", "phone", "email", "created_at"] →
        (getCustomersPaged args).sort = "created_at") ∧
      ((getCustomersPaged args).dir = "ASC" ↔ jsToLowerCase d = "asc") ∧
      (jsToLowerCase d ≠ "asc" → (getCustomersPaged args).dir = "DESC") ∧
      ∃ w ∈ [customersWhereSearch, ""],
        ∃ c ∈ ["id", "name", "phone", "email", "created_at"],
          ∃ o ∈ ["ASC", "DESC"],
            (getCustomersPaged args).dataQuery = customersDataQuery w c o) := by
  have hdir := direction_choice d
  have hdesc : jsToLowerCase d ≠ "asc" →
      (if (d != "" && jsToLowerCase d == "asc") = true then "ASC" else "DESC") = "DESC" := by
    intro h
    rcases hdir.2 with h2 | h2
    · exact absurd (hdir.1.mp h2) h
    · exact h2
  constructor
  · have hsort := sort_choice ["id", "item", "customer_name", "created_at"] (by decide) s
    have e1 : (getOrdersPaged args).sort =
        (if (!(["id", "item", "customer_name", "created_at"].contains s)) = true
          then "created_at" else s) := by
      simp only [getOrdersPaged, hs, Option.getD_some]
    have e2 : (getOrdersPaged args).dir =
        (if (d != "" && jsToLowerCase d == "asc") = true then "ASC" else "DESC") := by
      simp only [getOrdersPaged, hd, Option.getD_some]
    refine ⟨e1 ▸ hsort.1, fun h => e1 ▸ hsort.2.1 h, fun h => e1 ▸ hsort.2.2 h,
      e2 ▸ hdir.1, fun h => e2 ▸ hdesc h, ?_⟩
    refine ⟨if (args.search.getD "" != "") = true then ordersWhereSearch else "", ?_,
      (getOrdersPaged args).sort, e1 ▸ hsort.1, (getOrdersPaged args).dir, ?_, rfl⟩
    · split <;> simp
    · rw [e2]
      rcases hdir.2 with h | h <;> rw [h] <;> simp
  · have hsort := sort_choice ["id", "name", "phone", "email", "created_at"] (by decide) s
    have e1 : (getCustomersPaged args).sort =
        (if (!(["id", "name", "phone", "email", "created_at"].contains s)) = true
          then "created_at" else s) := by
      simp only [getCustomersPaged, hs, Option.getD_some]
    have e2 : (getCustomersPaged args).dir =
        (if (d != "" && jsToLowerCase d == "asc") = true then "ASC" else "DESC") := by
      simp only [getCustomersPaged, hd, Option.getD_some]
    refine ⟨e1 ▸ hsort.1, fun h => e1 ▸ hsort.2.1 h, fun h => e1 ▸ hsort.2.2 h,
      e2 ▸ hdir.1, fun h => e2 ▸ hdesc h, ?_⟩
    refine ⟨if (args.search.getD "" != "") = true then customersWhereSearch else "", ?_,
      (getCustomersPaged args).sort, e1 ▸ hsort.1, (getCustomersPaged args).dir, ?_, rfl⟩
    · split <;> simp
    · rw [e2]
      rcases hdir.2 with h | h <;> rw [h] <;> simp

/-- Witness for C17: a sort text that is not a column name falls back to
`created_at`. -/
theorem sort_allow_list_witness :
    (getOrdersPaged { sort := some "id; DROP TABLE Orders", dir := some "AsC" }).sort =
      "created_at" ∧
    ((getOrdersPaged { sort := some "id; DROP TABLE Orders", dir := some "AsC" }).dir = "ASC" ↔
      jsToLowerCase "AsC" = "asc") :=
  ⟨(sort_allow_list { sort := some "id; DROP TABLE Orders", dir := some "AsC" }
      "id; DROP TABLE Orders" "AsC" rfl rfl).1.2.2.1 (by decide),
   (sort_allow_list { sort := some "id; DROP TABLE Orders", dir := some "AsC" }
      "id; DROP TABLE Orders" "AsC" rfl rfl).1.2.2.2.1⟩

/-! ### Error responses -/

theorem eval_parseInt10 :
    parseInt10 "5" = some 5 ∧ parseInt10 " 42abc" = some 42 ∧ parseInt10 "-3" = some (-3) ∧
    parseInt10 "abc" = none ∧ parseInt10 "" = none := by
  decide

theorem eval_errorHandler_production :
    errorHandler (some "production") sampleFailure =
      RouteResult.sent 500 (JsVal.obj [("error", JsVal.str "Internal server error")]) := by
  rfl

theorem eval_deleteOrder_existing :
    (deleteOrderRoute sampleShop "2").db.orders =
      [{ id := 1, item := "Laptop", customer_name := "An" }] := by
  decide

/-- C18 (counterexample). With `NODE_ENV` unset or set to `test`, neither of
which is `development`, the global error handler puts the message and the
stack of the error in the body; so the claim that every value other than
`development` gets the generic text does not hold. -/
theorem errorHandler_leaks_outside_production :
    (errorHandler none sampleFailure).body =
      JsVal.obj [("error", JsVal.str "Login failed for user sa"),
        ("stack", JsVal.str "ConnectionError: Login failed for user sa at connection.js:42")] ∧
    (errorHandler (some "test") sampleFailure).body =
      JsVal.obj [("error", JsVal.str "Login failed for user sa"),
        ("stack", JsVal.str "ConnectionError: Login failed for user sa at connection.js:42")] ∧
    ¬ (∀ (nodeEnv : Option String) (err : JsError), nodeEnv ≠ some "development" →
        (errorHandler nodeEnv err).body.getProp "error" =
          some (JsVal.str "Internal server error")) := by
  refine ⟨rfl, rfl, ?_⟩
  intro h
  have h1 := h none sampleFailure (by decide)
  have h2 : (errorHandler none sampleFailure).body.getProp "error" =
      some (JsVal.str "Login failed for user sa") := rfl
  rw [h2] at h1
  injection h1 with h1
  injection h1 with h1
  revert h1
  decide

/-- C18 (amended). For every error reaching the global error handler: when
`NODE_ENV` is `production` the body is exactly `{error: "Internal server
error"}`, with neither the message nor the stack of the error; for every other
value of `NODE_ENV` (unset, `test` and `development` included) the `error`
field is the message of the error and a non-empty stack is included. The
status is `err.status`, or 500 when that is absent or zero. -/
theorem errorHandler_production_only (err : JsError) :
    (errorHandler (some "production") err).body =
      JsVal.obj [("error", JsVal.str "Internal server error")] ∧
    (∀ nodeEnv : Option String, nodeEnv ≠ some "production" →
      (errorHandler nodeEnv err).body.getProp "error" = some (JsVal.str err.message) ∧
      (∀ stack, err.stack = some stack → stack ≠ "" →
        (errorHandler nodeEnv err).body.getProp "stack" = some (JsVal.str stack))) ∧
    (∀ nodeEnv : Option String,
      (errorHandler nodeEnv err).status =
        match err.status with
        | some n => if n != 0 then n else 500
        | none => 500) := by
  refine ⟨?_, ?_, ?_⟩
  · simp only [errorHandler, RouteResult.body]
    cases err.stack <;> simp
  · intro nodeEnv hne
    have hdev : (nodeEnv != some "production") = true := by simp [hne]
    constructor
    · simp [errorHandler, RouteResult.body, hdev, JsVal.getProp, List.lookup]
    · intro stack hs hst
      simp [errorHandler, RouteResult.body, hdev, hs, hst, JsVal.getProp, List.lookup]
  · intro nodeEnv
    simp only [errorHandler, RouteResult.status]

/-- Witness for C18 (amended): `NODE_ENV` unset. -/
theorem errorHandler_production_only_witness :
    (errorHandler none sampleFailure).body.getProp "error" =
      some (JsVal.str "Login failed for user sa") :=
  ((errorHandler_production_only sampleFailure).2.1 none (by decide)).1

/-! ### Health check -/

theorem healthRoute_relays_message (err : JsError) (timestamp : String) :
    healthRoute (Except.error err) timestamp =
      RouteResult.sent 503
        (JsVal.obj [("status", JsVal.str "error"), ("database", JsVal.str "disconnected"),
          ("message", JsVal.str err.message)]) := by
  rfl

/-- C19 (failing input). `GET /health` while the storage connection fails with
the message `Login failed for user sa`: whatever `NODE_ENV` is, the 503 body
sent to the client carries that message in its `message` field, while the
global error handler under `production` sends the generic text for the same
error. -/
theorem health_leaks_storage_error :
    (healthRoute (Except.error sampleFailure) "2026-01-01T00:00:00.000Z").status = 503 ∧
    (healthRoute (Except.error sampleFailure) "2026-01-01T00:00:00.000Z").body.getProp "message" =
      some (JsVal.str "Login failed for user sa") ∧
    (errorHandler (some "production") sampleFailure).body =
      JsVal.obj [("error", JsVal.str "Internal server error")] := by
  refine ⟨rfl, rfl, rfl⟩

/-! ### Absent records -/

theorem deleteOrder_absent (db : Store) (n : Int) (h : ∀ o ∈ db.orders, o.id ≠ n) :
    deleteOrder db n = db := by
  unfold deleteOrder
  have : db.orders.filter (fun o => o.id != n) = db.orders := by
    rw [List.filter_eq_self]
    intro o ho
    simp [h o ho]
  rw [this]

theorem deleteCustomer_absent (db : Store) (n : Int) (h : ∀ c ∈ db.customers, c.id ≠ n) :
    deleteCustomer db n = db := by
  unfold deleteCustomer
  have : db.customers.filter (fun c => c.id != n) = db.customers := by
    rw [List.filter_eq_self]
    intro c hc
    simp [h c hc]
  rw [this]

theorem updateOrder_absent (db : Store) (now : Nat) (n : Int) (input : OrderInput)
    (h : ∀ o ∈ db.orders, o.id ≠ n) : updateOrder db now n input = (none, db) := by
  unfold updateOrder
  have h1 : db.orders.filter (fun o => o.id == n) = [] := by
    rw [List.filter_eq_nil_iff]
    intro o ho
    simp [h o ho]
  have h2 : ∀ f : Order → Order,
      db.orders.map (fun o => if (o.id == n) = true then f o else o) = db.orders := by
    intro f
    conv_rhs => rw [← List.map_id db.orders]
    apply List.map_congr_left
    intro o ho
    simp [h o ho]
  simp only [h1, h2, List.map_nil, List.head?_nil]

theorem updateCustomer_absent (db : Store) (now : Nat) (n : Int) (input : CustomerInput)
    (h : ∀ c ∈ db.customers, c.id ≠ n) : updateCustomer db now n input = (none, db) := by
  unfold updateCustomer
  have h1 : db.customers.filter (fun c => c.id == n) = [] := by
    rw [List.filter_eq_nil_iff]
    intro c hc
    simp [h c hc]
  have h2 : ∀ f : Customer → Customer,
      db.customers.map (fun c => if (c.id == n) = true then f c else c) = db.customers := by
    intro f
    conv_rhs => rw [← List.map_id db.customers]
    apply List.map_congr_left
    intro c hc
    simp [h c hc]
  simp only [h1, h2, List.map_nil, List.head?_nil]

/-- `DELETE /orders/:id` and `DELETE /customers/:id` with a valid positive id
that matches no record: the answer is 200 and the store is unchanged. -/
theorem delete_absent_answers_200 (db : Store) (idParam : String) (n : Int)
    (hid : parseInt10 idParam = some n) (hpos : 1 ≤ n) (_hsafe : n ≤ 9007199254740991) :
    ((∀ o ∈ db.orders, o.id ≠ n) →
      (deleteOrderRoute db idParam).result =
        RouteResult.sent 200
          (JsVal.obj [("message", JsVal.str "Order deleted"), ("id", JsVal.num n)]) ∧
      (deleteOrderRoute db idParam).db = db) ∧
    ((∀ c ∈ db.customers, c.id ≠ n) →
      (deleteCustomerRoute db idParam).result =
        RouteResult.sent 200
          (JsVal.obj [("message", JsVal.str "Customer deleted"), ("id", JsVal.num n)]) ∧
      (deleteCustomerRoute db idParam).db = db) := by
  have hlt : ¬ n < 1 := by omega
  constructor
  · intro h
    simp only [deleteOrderRoute, hid, hlt, if_false, deleteOrder_absent db n h]
    exact ⟨trivial, trivial⟩
  · intro h
    simp only [deleteCustomerRoute, hid, hlt, if_false, deleteCustomer_absent db n h]
    exact ⟨trivial, trivial⟩

/-- `PUT /orders/:id` and `PUT /customers/:id` with a valid positive id that
matches no record and a body that passes validation: the answer is 404 and the
store is unchanged; a body that fails validation is answered with the 400 of
the validation. -/
theorem put_absent_answers_404 (db : Store) (now : Nat) (idParam : String) (n : Int)
    (hid : parseInt10 idParam = some n) (hpos : 1 ≤ n) (_hsafe : n ≤ 9007199254740991) :
    ((∀ o ∈ db.orders, o.id ≠ n) → ∀ input,
      (putOrderRoute db now idParam (Except.ok input)).result =
        RouteResult.sent 404 (errorBody "Order not found") ∧
      (putOrderRoute db now idParam (Except.ok input)).db = db) ∧
    ((∀ c ∈ db.customers, c.id ≠ n) → ∀ input,
      (putCustomerRoute db now idParam (Except.ok input)).result =
        RouteResult.sent 404 (errorBody "Customer not found") ∧
      (putCustomerRoute db now idParam (Except.ok input)).db = db) ∧
    (∀ response, (putOrderRoute db now idParam (Except.error response)).result = response ∧
      (putCustomerRoute db now idParam (Except.error response)).result = response) := by
  have hlt : ¬ n < 1 := by omega
  refine ⟨?_, ?_, ?_⟩
  · intro h input
    simp only [putOrderRoute, hid, hlt, if_false, updateOrder_absent db now n input h]
    exact ⟨trivial, trivial⟩
  · intro h input
    simp only [putCustomerRoute, hid, hlt, if_false, updateCustomer_absent db now n input h]
    exact ⟨trivial, trivial⟩
  · intro response
    simp only [putOrderRoute, putCustomerRoute, hid, hlt, if_false]
    exact ⟨trivial, trivial⟩

/-- C20 (failing input). `DELETE /orders/5` and `DELETE /customers/5` on a
store with orders 1 and 2 and customer 1: both answer 200 (`Order deleted`,
`Customer deleted`) and leave the store unchanged, where `PUT /orders/5` with
a valid body answers 404. -/
theorem delete_absent_record_not_404 :
    (deleteOrderRoute sampleShop "5").result =
      RouteResult.sent 200
        (JsVal.obj [("message", JsVal.str "Order deleted"), ("id", JsVal.num 5)]) ∧
    (deleteOrderRoute sampleShop "5").db = sampleShop ∧
    (deleteCustomerRoute sampleShop "5").result =
      RouteResult.sent 200
        (JsVal.obj [("message", JsVal.str "Customer deleted"), ("id", JsVal.num 5)]) ∧
    (deleteCustomerRoute sampleShop "5").db = sampleShop ∧
    (putOrderRoute sampleShop 1000 "5"
      (Except.ok { item := "Tablet", customer_name := "Chi" })).result =
      RouteResult.sent 404 (errorBody "Order not found") ∧
    (putOrderRoute sampleShop 1000 "5"
      (Except.ok { item := "Tablet", customer_name := "Chi" })).db = sampleShop := by
  refine ⟨rfl, by decide, rfl, by decide, rfl, by decide⟩

/-! ### Frame of the role-permission assignment -/

theorem replaced_rows_other_roles (rows : List RolePermission) (r : Int) (ids : List Int) :
    (rows.filter (fun rp => rp.id_role != r) ++
        ids.map (fun pid => (⟨r, pid⟩ : RolePermission))).filter (fun rp => rp.id_role != r) =
      rows.filter (fun rp => rp.id_role != r) := by
  rw [List.filter_append, List.filter_filter]
  have h1 : (ids.map (fun pid => (⟨r, pid⟩ : RolePermission))).filter
      (fun rp => rp.id_role != r) = [] := by
    rw [List.filter_eq_nil_iff]
    intro rp hrp
    rw [List.mem_map] at hrp
    obtain ⟨pid, _, rfl⟩ := hrp
    simp
  rw [h1, List.append_nil]
  congr 1
  funext rp
  simp

theorem getPermissionIdsByRole_of_other_rows (a b : Store) (r r2 : Int) (h : r2 ≠ r)
    (hrows : a.rolePermissions.filter (fun rp => rp.id_role != r) =
      b.rolePermissions.filter (fun rp => rp.id_role != r)) :
    getPermissionIdsByRole a r2 = getPermissionIdsByRole b r2 := by
  unfold getPermissionIdsByRole
  have key : ∀ rows : List RolePermission,
      rows.filter (fun rp => rp.id_role == r2) =
        (rows.filter (fun rp => rp.id_role != r)).filter (fun rp => rp.id_role == r2) := by
    intro rows
    rw [List.filter_filter]
    congr 1
    funext rp
    by_cases h2 : rp.id_role = r2
    · simp [h2, h]
    · simp [h2]
  rw [key a.rolePermissions, key b.rolePermissions, hrows]

/-- C28. Frame of `setRolePermissions`: for every store state, role id `r` and
list `ids`, whether the call commits or fails, the `RolePermissions` rows of
every role other than `r` are unchanged, and the `Roles`, `Permissions`,
`Users` and `UserRoles` tables (and the order and customer tables) are
unchanged. -/
theorem setRolePermissions_frame (eng : Engine) (db : Store) (r : Int) (ids : List Int) :
    (setRolePermissions eng db r ids).2.rolePermissions.filter (fun rp => rp.id_role != r) =
      db.rolePermissions.filter (fun rp => rp.id_role != r) ∧
    (∀ r2, r2 ≠ r →
      getPermissionIdsByRole (setRolePermissions eng db r ids).2 r2 =
        getPermissionIdsByRole db r2) ∧
    (setRolePermissions eng db r ids).2.roles = db.roles ∧
    (setRolePermissions eng db r ids).2.permissions = db.permissions ∧
    (setRolePermissions eng db r ids).2.users = db.users ∧
    (setRolePermissions eng db r ids).2.userRoles = db.userRoles ∧
    (setRolePermissions eng db r ids).2.orders = db.orders ∧
    (setRolePermissions eng db r ids).2.customers = db.customers := by
  have hrows : (setRolePermissions eng db r ids).2.rolePermissions.filter
      (fun rp => rp.id_role != r) = db.rolePermissions.filter (fun rp => rp.id_role != r) := by
    rcases setRolePermissions_result_cases eng db r ids with h | ⟨e, h⟩
    · rw [setRolePermissions_ok_state eng db r ids h]
      exact replaced_rows_other_roles db.rolePermissions r ids
    · rw [setRolePermissions_error_state eng db r ids e h]
  refine ⟨hrows, fun r2 h2 => getPermissionIdsByRole_of_other_rows _ _ r r2 h2 hrows, ?_⟩
  rcases setRolePermissions_result_cases eng db r ids with h | ⟨e, h⟩
  · rw [setRolePermissions_ok_state eng db r ids h]
    exact ⟨rfl, rfl, rfl, rfl, rfl, rfl⟩
  · rw [setRolePermissions_error_state eng db r ids e h]
    exact ⟨rfl, rfl, rfl, rfl, rfl, rfl⟩

/-- Witness for C28: replacing the Staff role's permissions leaves the Admin
role's rows alone. -/
theorem setRolePermissions_frame_witness :
    getPermissionIdsByRole (setRolePermissions sampleEngine sampleStore 3 [4]).2 1 =
      getPermissionIdsByRole sampleStore 1 :=
  (setRolePermissions_frame sampleEngine sampleStore 3 [4]).2.1 1 (by decide)

/-! ### The permission guard on arbitrary claim sets -/

theorem requirePermission_throws_of_no_array (action module : String) (user : JsVal)
    (ht : user.truthy = true) (h : ∀ ps, user.getProp "permissions" ≠ some (JsVal.arr ps)) :
    requirePermission action module user = Outcome.throws := by
  cases hp : user.getProp "permissions" with
  | none => simp [requirePermission, ht, hp]
  | some v =>
    cases v with
    | arr ps => exact absurd hp (h ps)
    | _ => simp [requirePermission, ht, hp]

/-- C26 (failing input). A claim set without a `permissions` field (or whose
`permissions` is not an array, or holds a `null` entry) attached as `req.user`:
`requirePermission("View", "Order")` raises a `TypeError`, so the `async`
middleware rejects without sending 403 or calling `next`; `requireRole`, which
tests `Array.isArray` first, answers 403 on a claim set without `roles`. -/
theorem requirePermission_throws_on_malformed_claims :
    requirePermission "View" "Order" claimsWithoutPermissions = Outcome.throws ∧
    requirePermission "View" "Order"
      (JsVal.obj [("sub", JsVal.num 1), ("permissions", JsVal.str "all")]) = Outcome.throws ∧
    requirePermission "View" "Order"
      (JsVal.obj [("sub", JsVal.num 1), ("permissions", JsVal.arr [JsVal.null])]) =
      Outcome.throws ∧
    requireRole "Admin" (JsVal.obj [("sub", JsVal.num 1)]) =
      Outcome.respond 403 "Forbidden: role required" := by
  decide

/-! ### The permission guard and the other claims -/

theorem gate_permission_outcome (jwtVerify : JwtVerify) (jwtSecret : String) (route : Route)
    (action module : String) (req req2 : Req)
    (hmw : route.middlewares = [Middleware.auth, Middleware.permission action module])
    (hauth : requireAuth jwtVerify jwtSecret req = (Outcome.next, req2)) :
    gate jwtVerify jwtSecret route req = (requirePermission action module req2.user, req2) := by
  simp only [gate, hmw, runChain, runMiddleware, hauth]
  cases requirePermission action module req2.user <;> rfl

theorem requirePermission_congr (action module : String) (u1 u2 : JsVal)
    (h1 : u1.truthy = true) (h2 : u2.truthy = true)
    (hp : u1.getProp "permissions" = u2.getProp "permissions") :
    requirePermission action module u1 = requirePermission action module u2 := by
  unfold requirePermission
  rw [h1, h2, hp]

/-- C27. The decision of `requirePermission(A, M)` does not depend on the claim
set's roles, `sub` or `username`: any two attached claim sets with equal
permission lists get the same decision; so on `DELETE /orders/:id` a token
holding `Delete:Order` passes whatever role names it carries, and a token
without it, the role `Admin` included, is answered 403. -/
theorem requirePermission_ignores_roles (action module : String) :
    (∀ u1 u2 : JsVal, u1.truthy = true → u2.truthy = true →
      u1.getProp "permissions" = u2.getProp "permissions" →
      requirePermission action module u1 = requirePermission action module u2) ∧
    (∀ (jwtVerify : JwtVerify) (jwtSecret : String) (req req2 : Req)
        (P : List (List (String × JsVal))),
      requireAuth jwtVerify jwtSecret req = (Outcome.next, req2) →
      req2.user.getProp "permissions" = some (JsVal.arr (P.map JsVal.obj)) →
      ((∃ p ∈ P, p.lookup "name_permission" = some (JsVal.str "Delete") ∧
          p.lookup "module" = some (JsVal.str "Order")) →
        (gate jwtVerify jwtSecret Route.deleteOrder req).1 = Outcome.next) ∧
      ((¬ ∃ p ∈ P, p.lookup "name_permission" = some (JsVal.str "Delete") ∧
          p.lookup "module" = some (JsVal.str "Order")) →
        (gate jwtVerify jwtSecret Route.deleteOrder req).1 =
          Outcome.respond 403 "Forbidden: lacking permission")) ∧
    requirePermission "Delete" "Order" customerWithDelete = Outcome.next ∧
    requirePermission "Delete" "Order" adminWithoutDelete =
      Outcome.respond 403 "Forbidden: lacking permission" ∧
    requireRole "Admin" adminWithoutDelete = Outcome.next := by
  refine ⟨fun u1 u2 h1 h2 hp => requirePermission_congr action module u1 u2 h1 h2 hp,
    ?_, by decide, by decide, by decide⟩
  intro jwtVerify jwtSecret req req2 P hauth hperms
  have ht := JsVal.truthy_of_getProp_arr _ _ _ hperms
  rw [gate_permission_outcome jwtVerify jwtSecret Route.deleteOrder "Delete" "Order" req req2
    rfl hauth]
  constructor
  · intro hyes
    rcases somePermission_map_obj "Delete" "Order" P with ⟨h1, _⟩ | ⟨_, h2⟩
    · simp [requirePermission, ht, hperms, h1]
    · exact absurd hyes h2
  · intro hno
    rcases somePermission_map_obj "Delete" "Order" P with ⟨_, h2⟩ | ⟨h1, _⟩
    · exact absurd h2 hno
    · simp [requirePermission, ht, hperms, h1]

/-- Witness for C27: the same permissions under the roles `Customer` and
`Admin`. -/
theorem requirePermission_ignores_roles_witness :
    requirePermission "Delete" "Order" customerWithDelete =
      requirePermission "Delete" "Order"
        (JsVal.obj [("roles", JsVal.arr [JsVal.str "Admin"]),
          ("permissions", JsVal.arr
            [JsVal.obj [("name_permission", JsVal.str "Delete"),
              ("module", JsVal.str "Order")]])]) :=
  (requirePermission_ignores_roles "Delete" "Order").1 _ _ rfl rfl rfl

/-! ### Guards and the store -/

theorem requireAuth_outcome_cases (jwtVerify : JwtVerify) (jwtSecret : String) (req : Req) :
    (∃ decoded, requireAuth jwtVerify jwtSecret req =
        (Outcome.next, { req with user := decoded })) ∨
    ∃ msg, requireAuth jwtVerify jwtSecret req = (Outcome.respond 401 msg, req) := by
  unfold requireAuth
  simp only
  split
  · exact Or.inr ⟨_, rfl⟩
  · split
    · exact Or.inr ⟨_, rfl⟩
    · split
      · exact Or.inr ⟨_, rfl⟩
      · exact Or.inl ⟨_, rfl⟩

theorem requireAuth_attaches_verifyToken (jwtVerify : JwtVerify) (jwtSecret : String)
    (req : Req) (token : String) (hh : req.authorization = some ("Bearer " ++ token))
    (hok : (requireAuth jwtVerify jwtSecret req).1 = Outcome.next) :
    (requireAuth jwtVerify jwtSecret req).2.user = verifyToken jwtVerify jwtSecret token := by
  have hhdr : (if ("Bearer " ++ token != "") = true then "Bearer " ++ token else "") =
      "Bearer " ++ token := by
    split
    · rfl
    · next h =>
      simp only [bne_iff_ne, ne_eq, Decidable.not_not] at h
      exact h.symm
  unfold requireAuth at hok ⊢
  simp only [hh, hhdr, bearerToken_append] at hok ⊢
  split at hok
  · simp at hok
  · next hne =>
    simp only [hne] at hok ⊢
    split at hok
    · simp at hok
    · next ht =>
      simp only [ht]
      rfl

/-- C21. Store independence (frozen snapshot): for every request and every two
store states, each of the three guards, and the whole gate of every route,
reaches the same decision and leaves the same request, invokes no repository
function and leaves the store as it is; the claim set that `requireAuth`
attaches is the result of `verifyToken` on the bearer token, which takes no
store. -/
theorem guards_store_independent (jwtVerify : JwtVerify) (jwtSecret : String)
    (s1 s2 : Store) (mw : Middleware) (route : Route) (req : Req) :
    (guardOn jwtVerify jwtSecret mw s1 req).outcome =
      (guardOn jwtVerify jwtSecret mw s2 req).outcome ∧
    (guardOn jwtVerify jwtSecret mw s1 req).req = (guardOn jwtVerify jwtSecret mw s2 req).req ∧
    (guardOn jwtVerify jwtSecret mw s1 req).calls = [] ∧
    (guardOn jwtVerify jwtSecret mw s1 req).db = s1 ∧
    (gateOn jwtVerify jwtSecret route s1 req).outcome =
      (gateOn jwtVerify jwtSecret route s2 req).outcome ∧
    (gateOn jwtVerify jwtSecret route s1 req).req =
      (gateOn jwtVerify jwtSecret route s2 req).req ∧
    (gateOn jwtVerify jwtSecret route s1 req).calls = [] ∧
    (gateOn jwtVerify jwtSecret route s1 req).db = s1 ∧
    (∀ token, req.authorization = some ("Bearer " ++ token) →
      (guardOn jwtVerify jwtSecret Middleware.auth s1 req).outcome = Outcome.next →
      (guardOn jwtVerify jwtSecret Middleware.auth s1 req).req.user =
        verifyToken jwtVerify jwtSecret token ∧
      (guardOn jwtVerify jwtSecret Middleware.auth s2 req).req.user =
        verifyToken jwtVerify jwtSecret token) := by
  refine ⟨rfl, rfl, rfl, rfl, rfl, rfl, rfl, rfl, ?_⟩
  intro token hh hok
  have := requireAuth_attaches_verifyToken jwtVerify jwtSecret req token hh hok
  exact ⟨this, this⟩

/-- Witness for C21: the staff token on the sample store and on an empty one. -/
theorem guards_store_independent_witness :
    (guardOn staffVerify "devsecret" Middleware.auth sampleStore
        { authorization := some "Bearer staff" }).req.user =
      verifyToken staffVerify "devsecret" "staff" ∧
    (guardOn staffVerify "devsecret" Middleware.auth {}
        { authorization := some "Bearer staff" }).req.user =
      verifyToken staffVerify "devsecret" "staff" :=
  (guards_store_independent staffVerify "devsecret" sampleStore {} Middleware.auth
    Route.getOrders { authorization := some "Bearer staff" }).2.2.2.2.2.2.2.2 "staff" rfl rfl

/-- A token issued to the staff member at time 1000 still opens `GET /orders`
at time 2000 on a store in which the Staff role has lost every permission and
the user rows are gone; a new login on that store is refused. -/
theorem eval_stale_token_still_passes :
    (gateOn (Jwt.verify sampleCodec 2000) "devsecret" Route.getOrders
      { (setRolePermissions sampleEngine sampleStore 3 []).2 with users := [] }
      { authorization := some "Bearer good" }).outcome = Outcome.next ∧
    getPermissionIdsByRole (setRolePermissions sampleEngine sampleStore 3 []).2 3 = [] ∧
    authenticate sampleEngine sampleCompare (Jwt.sign sampleCodec 2000) "devsecret"
      { (setRolePermissions sampleEngine sampleStore 3 []).2 with users := [] }
      "staff" "staff@ued" = Except.ok none := by
  refine ⟨rfl, rfl, rfl⟩

/-! ### Guard order -/

theorem gate_auth_refused (jwtVerify : JwtVerify) (jwtSecret : String) (route : Route)
    (mw : Middleware) (req : Req) (msg : String)
    (hmw : route.middlewares = [Middleware.auth, mw])
    (hauth : requireAuth jwtVerify jwtSecret req = (Outcome.respond 401 msg, req)) :
    gate jwtVerify jwtSecret route req = (Outcome.respond 401 msg, req) := by
  simp only [gate, hmw, runChain, runMiddleware, hauth]

theorem requirePermission_outcome_cases (action module : String) (user : JsVal) :
    requirePermission action module user = Outcome.next ∨
    requirePermission action module user = Outcome.throws ∨
    requirePermission action module user = Outcome.respond 401 "Unauthorized" ∨
    requirePermission action module user =
      Outcome.respond 403 "Forbidden: lacking permission" := by
  unfold requirePermission
  split
  · exact Or.inr (Or.inr (Or.inl rfl))
  · split
    · split
      · exact Or.inr (Or.inl rfl)
      · exact Or.inl rfl
      · exact Or.inr (Or.inr (Or.inr rfl))
    · exact Or.inr (Or.inl rfl)

/-- The gate of a permission-gated route either passes, throws, or answers 401
or 403. -/
theorem gate_permission_cases (jwtVerify : JwtVerify) (jwtSecret : String) (route : Route)
    (action module : String) (req : Req)
    (hmw : route.middlewares = [Middleware.auth, Middleware.permission action module]) :
    (gate jwtVerify jwtSecret route req).1 = Outcome.next ∨
    (gate jwtVerify jwtSecret route req).1 = Outcome.throws ∨
    (∃ msg, (gate jwtVerify jwtSecret route req).1 = Outcome.respond 401 msg) ∨
    (gate jwtVerify jwtSecret route req).1 =
      Outcome.respond 403 "Forbidden: lacking permission" := by
  rcases requireAuth_outcome_cases jwtVerify jwtSecret req with ⟨decoded, h⟩ | ⟨msg, h⟩
  · rw [gate_permission_outcome jwtVerify jwtSecret route action module req _ hmw h]
    rcases requirePermission_outcome_cases action module decoded with h2 | h2 | h2 | h2
    · exact Or.inl h2
    · exact Or.inr (Or.inl h2)
    · exact Or.inr (Or.inr (Or.inl ⟨_, h2⟩))
    · exact Or.inr (Or.inr (Or.inr h2))
  · rw [gate_auth_refused jwtVerify jwtSecret route _ req msg hmw h]
    exact Or.inr (Or.inr (Or.inl ⟨msg, rfl⟩))

theorem serve_of_respond (jwtVerify : JwtVerify) (jwtSecret : String) (route : Route)
    (handler : Request → Store → Handled) (db : Store) (request : Request)
    (status : Nat) (msg : String)
    (h : (gate jwtVerify jwtSecret route request.req).1 = Outcome.respond status msg) :
    (serve jwtVerify jwtSecret route handler db request).result =
      RouteResult.sent status (errorBody msg) ∧
    (serve jwtVerify jwtSecret route handler db request).db = db ∧
    (serve jwtVerify jwtSecret route handler db request).calls = [] := by
  unfold serve
  cases hg : gate jwtVerify jwtSecret route request.req with
  | mk o r =>
    rw [hg] at h
    simp only at h
    subst h
    exact ⟨rfl, rfl, rfl⟩

theorem serve_of_throws (jwtVerify : JwtVerify) (jwtSecret : String) (route : Route)
    (handler : Request → Store → Handled) (db : Store) (request : Request)
    (h : (gate jwtVerify jwtSecret route request.req).1 = Outcome.throws) :
    (serve jwtVerify jwtSecret route handler db request).result =
      RouteResult.raised "TypeError in a guard" ∧
    (serve jwtVerify jwtSecret route handler db request).db = db ∧
    (serve jwtVerify jwtSecret route handler db request).calls = [] := by
  unfold serve
  cases hg : gate jwtVerify jwtSecret route request.req with
  | mk o r =>
    rw [hg] at h
    simp only at h
    subst h
    exact ⟨rfl, rfl, rfl⟩

/-- C24. Guard order on the permission-gated routes: no repository function is
invoked and the store is untouched for a request that fails `requireAuth` or
`requirePermission`; a request without a valid token is answered 401 whatever
its body and `:id`, and a request whose valid token lacks the required
permission is answered 403 whatever its body and `:id`; so the 400 and 404
answers are reachable only when the gate has passed. This holds for every
handler registered behind the gate. -/
theorem guard_order (jwtVerify : JwtVerify) (jwtSecret : String) (route : Route)
    (action module : String)
    (hmw : route.middlewares = [Middleware.auth, Middleware.permission action module])
    (handler : Request → Store → Handled) (db : Store) (request : Request) :
    ((gate jwtVerify jwtSecret route request.req).1 ≠ Outcome.next →
      (serve jwtVerify jwtSecret route handler db request).calls = [] ∧
      (serve jwtVerify jwtSecret route handler db request).db = db) ∧
    ((requireAuth jwtVerify jwtSecret request.req).1 ≠ Outcome.next →
      ∃ msg, ∀ body idParam,
        (serve jwtVerify jwtSecret route handler db
          { request with body := body, idParam := idParam }).result =
          RouteResult.sent 401 (errorBody msg) ∧
        (serve jwtVerify jwtSecret route handler db
          { request with body := body, idParam := idParam }).calls = [] ∧
        (serve jwtVerify jwtSecret route handler db
          { request with body := body, idParam := idParam }).db = db) ∧
    (∀ req2 (P : List (List (String × JsVal))),
      requireAuth jwtVerify jwtSecret request.req = (Outcome.next, req2) →
      req2.user.getProp "permissions" = some (JsVal.arr (P.map JsVal.obj)) →
      (¬ ∃ p ∈ P, p.lookup "name_permission" = some (JsVal.str action) ∧
          p.lookup "module" = some (JsVal.str module)) →
      ∀ body idParam,
        (serve jwtVerify jwtSecret route handler db
          { request with body := body, idParam := idParam }).result =
          RouteResult.sent 403 (errorBody "Forbidden: lacking permission") ∧
        (serve jwtVerify jwtSecret route handler db
          { request with body := body, idParam := idParam }).calls = [] ∧
        (serve jwtVerify jwtSecret route handler db
          { request with body := body, idParam := idParam }).db = db) ∧
    (((serve jwtVerify jwtSecret route handler db request).result.status = 400 ∨
        (serve jwtVerify jwtSecret route handler db request).result.status = 404) →
      (gate jwtVerify jwtSecret route request.req).1 = Outcome.next) := by
  refine ⟨?_, ?_, ?_, ?_⟩
  · intro hne
    rcases gate_permission_cases jwtVerify jwtSecret route action module request.req hmw with
      h | h | ⟨msg, h⟩ | h
    · exact absurd h hne
    · exact ⟨(serve_of_throws _ _ _ handler db request h).2.2,
        (serve_of_throws _ _ _ handler db request h).2.1⟩
    · exact ⟨(serve_of_respond _ _ _ handler db request _ _ h).2.2,
        (serve_of_respond _ _ _ handler db request _ _ h).2.1⟩
    · exact ⟨(serve_of_respond _ _ _ handler db request _ _ h).2.2,
        (serve_of_respond _ _ _ handler db request _ _ h).2.1⟩
  · intro hne
    rcases requireAuth_outcome_cases jwtVerify jwtSecret request.req with ⟨decoded, h⟩ | ⟨msg, h⟩
    · rw [h] at hne
      exact absurd rfl hne
    · refine ⟨msg, fun body idParam => ?_⟩
      have hg := gate_auth_refused jwtVerify jwtSecret route _ request.req msg hmw h
      have h1 : (gate jwtVerify jwtSecret route
          ({ request with body := body, idParam := idParam } : Request).req).1 =
          Outcome.respond 401 msg := by
        show (gate jwtVerify jwtSecret route request.req).1 = _
        rw [hg]
      obtain ⟨r1, r2, r3⟩ := serve_of_respond jwtVerify jwtSecret route handler db
        { request with body := body, idParam := idParam } 401 msg h1
      exact ⟨r1, r3, r2⟩
  · intro req2 P hauth hperms hno body idParam
    have ht := JsVal.truthy_of_getProp_arr _ _ _ hperms
    have hperm : requirePermission action module req2.user =
        Outcome.respond 403 "Forbidden: lacking permission" := by
      rcases somePermission_map_obj action module P with ⟨_, h2⟩ | ⟨h1, _⟩
      · exact absurd h2 hno
      · simp [requirePermission, ht, hperms, h1]
    have h1 : (gate jwtVerify jwtSecret route
        ({ request with body := body, idParam := idParam } : Request).req).1 =
        Outcome.respond 403 "Forbidden: lacking permission" := by
      show (gate jwtVerify jwtSecret route request.req).1 = _
      rw [gate_permission_outcome jwtVerify jwtSecret route action module _ req2 hmw hauth,
        hperm]
    obtain ⟨r1, r2, r3⟩ := serve_of_respond jwtVerify jwtSecret route handler db
      { request with body := body, idParam := idParam } 403 _ h1
    exact ⟨r1, r3, r2⟩
  · intro hst
    rcases gate_permission_cases jwtVerify jwtSecret route action module request.req hmw with
      h | h | ⟨msg, h⟩ | h
    · exact h
    · rw [(serve_of_throws _ _ _ handler db request h).1] at hst
      simp [RouteResult.status] at hst
    · rw [(serve_of_respond _ _ _ handler db request _ _ h).1] at hst
      simp [RouteResult.status] at hst
    · rw [(serve_of_respond _ _ _ handler db request _ _ h).1] at hst
      simp [RouteResult.status] at hst

/-- Witness for C24: a token holding only `View:Order` on `DELETE /orders/abc`. -/
theorem guard_order_witness :
    (serve sampleVerify "devsecret" Route.deleteOrder
      (fun request db => deleteOrderRoute db request.idParam) sampleShop
      { req := { authorization := some "Bearer good" }, idParam := "abc" }).result =
      RouteResult.sent 403 (errorBody "Forbidden: lacking permission") :=
  ((guard_order sampleVerify "devsecret" Route.deleteOrder "Delete" "Order" rfl
      (fun request db => deleteOrderRoute db request.idParam) sampleShop
      { req := { authorization := some "Bearer good" } }).2.2.1
    { authorization := some "Bearer good",
      user := verifyToken sampleVerify "devsecret" "good" }
    [[("name_permission", JsVal.str "View"), ("module", JsVal.str "Order")]]
    rfl rfl (by simp [List.lookup]) JsVal.undefined "abc").1

/-! ### Login validation -/

/-- The traced handler answers as `loginRoute` does. -/
theorem loginHandled_result (eng : Engine) (bcryptCompare : String → String → Bool)
    (jwtSign : JwtSign) (jwtSecret : String) (db : Store) (body : JsVal) :
    (loginHandled eng bcryptCompare jwtSign jwtSecret db body).result =
      loginRoute eng bcryptCompare jwtSign jwtSecret db body := by
  unfold loginHandled loginRoute validateLoginBody
  cases hu : body.getProp "username" with
  | none => rfl
  | some uv =>
    cases hp : body.getProp "password" with
    | none => rfl
    | some pv =>
      simp only
      by_cases h1 : (!uv.truthy || !pv.truthy) = true
      · rw [if_pos h1, if_pos h1]
      · rw [if_neg h1, if_neg h1]
        cases uv with
        | str u =>
          cases pv with
          | str p =>
            simp only
            by_cases h2 : (decide (utf16Length u > 100) || decide (utf16Length p > 255) ||
                decide (utf16Length u < 1) || decide (utf16Length p < 1)) = true
            · rw [if_pos h2, if_pos h2]
            · rw [if_neg h2, if_neg h2]
              by_cases h3 : (jsTrim u == "") = true
              · rw [if_pos h3, if_pos h3]
              · rw [if_neg h3, if_neg h3]
                rfl
          | _ => rfl
        | _ => rfl

theorem validateLoginBody_ok (body : JsVal) (a b : String)
    (h : validateLoginBody body = some (Except.ok (a, b))) :
    ∃ u p, body.getProp "username" = some (JsVal.str u) ∧
      body.getProp "password" = some (JsVal.str p) ∧
      u ≠ "" ∧ p ≠ "" ∧ utf16Length u ≤ 100 ∧ jsTrim u ≠ "" ∧ utf16Length p ≤ 255 ∧
      a = jsTrim u ∧ b = p := by
  unfold validateLoginBody at h
  cases hu : body.getProp "username" with
  | none => simp [hu] at h
  | some uv =>
    cases hp : body.getProp "password" with
    | none => simp [hu, hp] at h
    | some pv =>
      simp only [hu, hp] at h
      by_cases h1 : (!uv.truthy || !pv.truthy) = true
      · rw [if_pos h1] at h
        simp at h
      · rw [if_neg h1] at h
        cases uv with
        | str u =>
          cases pv with
          | str p =>
            simp only at h
            by_cases h2 : (decide (utf16Length u > 100) || decide (utf16Length p > 255) ||
                decide (utf16Length u < 1) || decide (utf16Length p < 1)) = true
            · rw [if_pos h2] at h
              simp at h
            · rw [if_neg h2] at h
              by_cases h3 : (jsTrim u == "") = true
              · rw [if_pos h3] at h
                simp at h
              · rw [if_neg h3] at h
                simp only [Option.some.injEq, Except.ok.injEq, Prod.mk.injEq] at h
                simp only [Bool.or_eq_true, decide_eq_true_eq, not_or, not_lt] at h2
                simp only [Bool.or_eq_true, Bool.not_eq_true', not_or, Bool.not_eq_false,
                  JsVal.truthy, bne_iff_ne, ne_eq] at h1
                simp only [beq_iff_eq] at h3
                exact ⟨u, p, rfl, rfl, h1.1, h1.2, h2.1.1.1, h3, h2.1.1.2, h.1.symm, h.2.symm⟩
          | _ => simp at h
        | _ => simp at h

theorem validateLoginBody_of_valid (body : JsVal) (u p : String)
    (hu : body.getProp "username" = some (JsVal.str u))
    (hp : body.getProp "password" = some (JsVal.str p))
    (h1 : u ≠ "") (h2 : p ≠ "") (h3 : utf16Length u ≤ 100) (h4 : jsTrim u ≠ "")
    (h5 : utf16Length p ≤ 255) :
    validateLoginBody body = some (Except.ok (jsTrim u, p)) := by
  have l1 := utf16Length_pos u h1
  have l2 := utf16Length_pos p h2
  have c1 : ¬ (100 < utf16Length u) := by omega
  have c2 : ¬ (255 < utf16Length p) := by omega
  have c3 : ¬ (utf16Length u < 1) := by omega
  have c4 : ¬ (utf16Length p < 1) := by omega
  simp [validateLoginBody, hu, hp, JsVal.truthy, h1, h2, c1, c2, c3, c4, h4]

theorem validateLoginBody_cases (body : JsVal)
    (h1 : body ≠ JsVal.undefined) (h2 : body ≠ JsVal.null) :
    (∃ msg, validateLoginBody body =
        some (Except.error (RouteResult.sent 400 (errorBody msg)))) ∨
    (∃ a b, validateLoginBody body = some (Except.ok (a, b))) := by
  obtain ⟨uv, hu⟩ := JsVal.getProp_isSome body "username" h1 h2
  obtain ⟨pv, hp⟩ := JsVal.getProp_isSome body "password" h1 h2
  unfold validateLoginBody
  simp only [hu, hp]
  split
  · exact Or.inl ⟨_, rfl⟩
  · cases uv with
    | str u =>
      cases pv with
      | str p =>
        simp only
        split
        · exact Or.inl ⟨_, rfl⟩
        · split
          · exact Or.inl ⟨_, rfl⟩
          · exact Or.inr ⟨_, _, rfl⟩
      | _ => exact Or.inl ⟨_, rfl⟩
    | _ => exact Or.inl ⟨_, rfl⟩

/-- C22. For every `POST /auth/login` body, `authenticate` is invoked only if
`username` and `password` are both non-empty strings, `username` has at most
100 characters and is non-empty after trimming, and `password` has at most 255
characters (and it is invoked whenever they are); every other body gets a 400
response without any storage access. When invoked, `authenticate` receives the
trimmed username and the password unmodified. -/
theorem login_validation (eng : Engine) (bcryptCompare : String → String → Bool)
    (jwtSign : JwtSign) (jwtSecret : String) (db : Store) (body : JsVal) :
    (∀ c ∈ (loginHandled eng bcryptCompare jwtSign jwtSecret db body).calls,
      ∃ u p, body.getProp "username" = some (JsVal.str u) ∧
        body.getProp "password" = some (JsVal.str p) ∧
        u ≠ "" ∧ p ≠ "" ∧ utf16Length u ≤ 100 ∧ jsTrim u ≠ "" ∧ utf16Length p ≤ 255 ∧
        c = RepoCall.authenticate (jsTrim u) p) ∧
    (∀ u p, body.getProp "username" = some (JsVal.str u) →
      body.getProp "password" = some (JsVal.str p) →
      u ≠ "" → p ≠ "" → utf16Length u ≤ 100 → jsTrim u ≠ "" → utf16Length p ≤ 255 →
      (loginHandled eng bcryptCompare jwtSign jwtSecret db body).calls =
        [RepoCall.authenticate (jsTrim u) p] ∧
      (loginHandled eng bcryptCompare jwtSign jwtSecret db body).result =
        loginResponse (authenticate eng bcryptCompare jwtSign jwtSecret db (jsTrim u) p)) ∧
    (body ≠ JsVal.undefined → body ≠ JsVal.null →
      (¬ ∃ u p, body.getProp "username" = some (JsVal.str u) ∧
        body.getProp "password" = some (JsVal.str p) ∧
        u ≠ "" ∧ p ≠ "" ∧ utf16Length u ≤ 100 ∧ jsTrim u ≠ "" ∧ utf16Length p ≤ 255) →
      ∃ msg, (loginHandled eng bcryptCompare jwtSign jwtSecret db body).result =
          RouteResult.sent 400 (errorBody msg) ∧
        (loginHandled eng bcryptCompare jwtSign jwtSecret db body).calls = []) ∧
    (loginHandled eng bcryptCompare jwtSign jwtSecret db body).db = db := by
  refine ⟨?_, ?_, ?_, ?_⟩
  · intro c hc
    unfold loginHandled at hc
    cases hv : validateLoginBody body with
    | none => simp [hv] at hc
    | some r =>
      cases r with
      | error response => simp [hv] at hc
      | ok pair =>
        obtain ⟨a, b⟩ := pair
        simp only [hv, List.mem_singleton] at hc
        obtain ⟨u, p, h1, h2, h3, h4, h5, h6, h7, ha, hb⟩ := validateLoginBody_ok body a b hv
        exact ⟨u, p, h1, h2, h3, h4, h5, h6, h7, by rw [hc, ha, hb]⟩
  · intro u p hu hp h1 h2 h3 h4 h5
    have hv := validateLoginBody_of_valid body u p hu hp h1 h2 h3 h4 h5
    simp only [loginHandled, hv]
    exact ⟨trivial, trivial⟩
  · intro h1 h2 hno
    rcases validateLoginBody_cases body h1 h2 with ⟨msg, hv⟩ | ⟨a, b, hv⟩
    · exact ⟨msg, by simp [loginHandled, hv]⟩
    · exfalso
      obtain ⟨u, p, h1, h2, h3, h4, h5, h6, h7, _, _⟩ := validateLoginBody_ok body a b hv
      exact hno ⟨u, p, h1, h2, h3, h4, h5, h6, h7⟩
  · unfold loginHandled
    split <;> rfl

/-- Witness for C22: a login whose username carries surrounding blanks. -/
theorem login_validation_witness :
    (loginHandled sampleEngine sampleCompare sampleSign "devsecret" sampleStore
      (JsVal.obj [("username", JsVal.str "  staff "), ("password", JsVal.str " pw ")])).calls =
      [RepoCall.authenticate "staff" " pw "] :=
  ((login_validation sampleEngine sampleCompare sampleSign "devsecret" sampleStore
      (JsVal.obj [("username", JsVal.str "  staff "), ("password", JsVal.str " pw ")])).2.1
    "  staff " " pw " rfl rfl (by decide) (by decide) (by decide) (by decide) (by decide)).1

theorem createPermission_state_cases (eng : Engine) (db : Store) (n m : String) :
    ((∃ e, (createPermission eng db n m).1 = Except.error e) ∧
      (createPermission eng db n m).2 = db) ∨
    ((db.permissions.filter
        (fun p => eng.sqlEq p.name_permission n && eng.sqlEq p.module m)) = [] ∧
      (createPermission eng db n m).1 = Except.ok ⟨eng.nextPermissionId db, n, m⟩ ∧
      (createPermission eng db n m).2 =
        { db with permissions := db.permissions ++ [⟨eng.nextPermissionId db, n, m⟩] }) := by
  unfold createPermission
  simp only
  by_cases hlen : (db.permissions.filter
      (fun p => eng.sqlEq p.name_permission n && eng.sqlEq p.module m)).length > 0
  · rw [if_pos hlen]
    exact Or.inl ⟨⟨_, rfl⟩, rfl⟩
  · rw [if_neg hlen]
    cases hins : eng.permissionInsertFails db n m with
    | some e => exact Or.inl ⟨⟨_, rfl⟩, rfl⟩
    | none =>
      refine Or.inr ⟨?_, rfl, rfl⟩
      exact List.length_eq_zero.mp (by omega)

/-- C23. Uniqueness invariant of `createPermission`: when the engine's text
comparison holds between equal strings and no two rows of `Permissions` share
a `(name_permission, module)` pair, no two rows share a pair after a call
either, whether it returns or raises. A call that raises leaves the store as it
was; a call that returns adds exactly one row `(n, m)` at the identity the
engine assigned, changes no other table, and returns that row's id, `n` and
`m`. -/
theorem createPermission_uniqueness (eng : Engine) (db : Store) (n m : String)
    (hrefl : ∀ s, eng.sqlEq s s = true)
    (huniq : (db.permissions.map (fun p => (p.name_permission, p.module))).Nodup) :
    ((createPermission eng db n m).2.permissions.map
        (fun p => (p.name_permission, p.module))).Nodup ∧
    (∀ e, (createPermission eng db n m).1 = Except.error e →
      (createPermission eng db n m).2 = db) ∧
    (∀ created, (createPermission eng db n m).1 = Except.ok created →
      created = ⟨eng.nextPermissionId db, n, m⟩ ∧
      (createPermission eng db n m).2 =
        { db with permissions := db.permissions ++ [created] } ∧
      (∀ p ∈ db.permissions, ¬ (p.name_permission = n ∧ p.module = m))) := by
  rcases createPermission_state_cases eng db n m with ⟨⟨e, he⟩, hdb⟩ | ⟨hnone, hres, hdb⟩
  · refine ⟨by rw [hdb]; exact huniq, fun _ _ => hdb, ?_⟩
    intro created hc
    rw [he] at hc
    cases hc
  · have hfresh : ∀ p ∈ db.permissions, ¬ (p.name_permission = n ∧ p.module = m) := by
      intro p hp hpair
      have hmem : p ∈ db.permissions.filter
          (fun p => eng.sqlEq p.name_permission n && eng.sqlEq p.module m) := by
        rw [List.mem_filter]
        refine ⟨hp, ?_⟩
        rw [hpair.1, hpair.2, hrefl n, hrefl m]
        rfl
      rw [hnone] at hmem
      cases hmem
    refine ⟨?_, ?_, ?_⟩
    · rw [hdb]
      simp only [List.map_append, List.map_cons, List.map_nil]
      rw [List.nodup_append]
      refine ⟨huniq, List.nodup_singleton _, ?_⟩
      intro pair h1 h2
      rw [List.mem_singleton] at h2
      rw [List.mem_map] at h1
      obtain ⟨p, hp, hpe⟩ := h1
      rw [h2] at hpe
      simp only [Prod.mk.injEq] at hpe
      exact hfresh p hp hpe
    · intro e he
      rw [hres] at he
      cases he
    · intro created hc
      rw [hres] at hc
      simp only [Except.ok.injEq] at hc
      subst hc
      exact ⟨rfl, hdb, hfresh⟩

/-- Witness for C23: a new permission on the sample store, whose four
permissions have distinct pairs. -/
theorem createPermission_uniqueness_witness :
    ((createPermission sampleEngine sampleStore "Export" "Order").2.permissions.map
        (fun p => (p.name_permission, p.module))).Nodup ∧
    (createPermission sampleEngine sampleStore "Export" "Order").1 =
      Except.ok ⟨5, "Export", "Order"⟩ :=
  ⟨(createPermission_uniqueness sampleEngine sampleStore "Export" "Order"
      (fun s => by simp [sampleEngine]) (by decide)).1, rfl⟩

/-! ### Order bodies -/

theorem eval_toJsString_array :
    (JsVal.arr [JsVal.num 1, JsVal.arr [JsVal.str "a", JsVal.null], JsVal.bool true]).toJsString =
      some "1,a,,true" := by decide

theorem eval_toJsString_own_toString :
    (JsVal.obj [("toString", JsVal.num 1)]).toJsString = none := by decide

theorem eval_validateOrderBody_sample :
    validateOrderBody sampleOrderBody =
      some (Except.ok ⟨"Notebook", "An", some "905123456", none, none⟩) := by
  rfl

theorem eval_validateOrderBody_object_phone :
    validateOrderBody orderBodyWithObjectPhone = none := by
  rfl

theorem utf16Length_eq_zero (s : String) : utf16Length s = 0 ↔ s = "" := by
  constructor
  · intro h
    by_contra hne
    have := utf16Length_pos s hne
    omega
  · intro h
    subst h
    rfl

theorem requiredText_ok_iff (x : JsVal) (max : Nat) (missing long t : String) :
    requiredText x max missing long = Except.ok t ↔
      ∃ s, x = JsVal.str s ∧ jsTrim s ≠ "" ∧ utf16Length s ≤ max ∧ t = jsTrim s := by
  cases x with
  | str s =>
    simp only [requiredText]
    by_cases h1 : (s == "" || utf16Length (jsTrim s) == 0) = true
    · rw [if_pos h1]
      constructor
      · intro h
        cases h
      · rintro ⟨s2, hs, hne, _, _⟩
        cases hs
        exfalso
        simp only [Bool.or_eq_true, beq_iff_eq] at h1
        rcases h1 with h1 | h1
        · subst h1
          exact hne (by decide)
        · exact hne ((utf16Length_eq_zero _).mp h1)
    · rw [if_neg h1]
      by_cases h2 : utf16Length s > max
      · rw [if_pos h2]
        constructor
        · intro h
          cases h
        · rintro ⟨s2, hs, _, hle, _⟩
          cases hs
          omega
      · rw [if_neg h2]
        constructor
        · intro h
          simp only [Except.ok.injEq] at h
          refine ⟨s, rfl, ?_, by omega, h.symm⟩
          intro he
          apply h1
          simp [he, utf16Length_eq_zero]
        · rintro ⟨s2, hs, _, _, ht⟩
          cases hs
          rw [ht]
  | _ => simp [requiredText]

theorem requiredText_error (x : JsVal) (max : Nat) (missing long : String) (r : RouteResult)
    (h : requiredText x max missing long = Except.error r) :
    ∃ msg, r = RouteResult.sent 400 (errorBody msg) := by
  cases x with
  | str s =>
    simp only [requiredText] at h
    by_cases h1 : (s == "" || utf16Length (jsTrim s) == 0) = true
    · rw [if_pos h1] at h
      simp only [Except.error.injEq] at h
      exact ⟨missing, h.symm⟩
    · rw [if_neg h1] at h
      by_cases h2 : utf16Length s > max
      · rw [if_pos h2] at h
        simp only [Except.error.injEq] at h
        exact ⟨long, h.symm⟩
      · rw [if_neg h2] at h
        cases h
  | _ =>
    simp only [requiredText, Except.error.injEq] at h
    exact ⟨missing, h.symm⟩

theorem optionalText_ok_iff (x : JsVal) (max : Nat) (long : String) (t : Option String) :
    optionalText x max long = some (Except.ok t) ↔ OptionalFieldOk x max t := by
  unfold optionalText OptionalFieldOk
  by_cases ht : x.truthy = true
  · rw [if_pos ht]
    cases hs : x.toJsString with
    | none => simp [ht]
    | some s =>
      simp only
      by_cases hl : utf16Length s > max
      · rw [if_pos hl]
        simp only [ht, Bool.true_eq_false, false_and, false_or, true_and]
        constructor
        · intro h
          cases h
        · rintro ⟨s2, h2, hle, _⟩
          cases h2
          omega
      · rw [if_neg hl]
        simp only [ht, Bool.true_eq_false, false_and, false_or, true_and]
        constructor
        · intro h
          simp only [Option.some.injEq, Except.ok.injEq] at h
          exact ⟨s, rfl, by omega, h.symm⟩
        · rintro ⟨s2, h2, _, h3⟩
          cases h2
          rw [h3]
  · rw [if_neg ht]
    simp only [Bool.not_eq_true] at ht
    simp only [ht, true_and, Bool.false_eq_true, false_and, or_false, Option.some.injEq,
      Except.ok.injEq]
    exact eq_comm

theorem optionalText_error (x : JsVal) (max : Nat) (long : String) (r : RouteResult)
    (h : optionalText x max long = some (Except.error r)) :
    r = RouteResult.sent 400 (errorBody long) := by
  unfold optionalText at h
  by_cases ht : x.truthy = true
  · rw [if_pos ht] at h
    cases hs : x.toJsString with
    | none => simp [hs] at h
    | some s =>
      simp only [hs] at h
      by_cases hl : utf16Length s > max
      · rw [if_pos hl] at h
        simp only [Option.some.injEq, Except.error.injEq] at h
        exact h.symm
      · rw [if_neg hl] at h
        simp at h
  · rw [if_neg ht] at h
    simp at h

theorem optionalText_none_iff (x : JsVal) (max : Nat) (long : String) :
    optionalText x max long = none ↔ x.truthy = true ∧ x.toJsString = none := by
  unfold optionalText
  by_cases ht : x.truthy = true
  · rw [if_pos ht]
    cases hs : x.toJsString with
    | none => simp [ht]
    | some s =>
      simp only [ht, true_and]
      by_cases hl : utf16Length s > max
      · rw [if_pos hl]
        simp
      · rw [if_neg hl]
        simp
  · rw [if_neg ht]
    simp [ht]

theorem validateOrderFields_ok_iff (item name phone email address : JsVal)
    (input : OrderInput) :
    validateOrderFields item name phone email address = some (Except.ok input) ↔
      ∃ i c p e a, item = JsVal.str i ∧ jsTrim i ≠ "" ∧ utf16Length i ≤ 500 ∧
        name = JsVal.str c ∧ jsTrim c ≠ "" ∧ utf16Length c ≤ 100 ∧
        OptionalFieldOk phone 20 p ∧ OptionalFieldOk email 100 e ∧
        OptionalFieldOk address 255 a ∧ input = ⟨jsTrim i, jsTrim c, p, e, a⟩ := by
  constructor
  · intro h
    unfold validateOrderFields at h
    cases hr1 : requiredText item 500 "Order item is required"
        "Order item too long (max 500 characters)" with
    | error r => simp [hr1] at h
    | ok ci =>
      cases hr2 : requiredText name 100 "Customer name is required"
          "Customer name too long (max 100 characters)" with
      | error r => simp [hr1, hr2] at h
      | ok cn =>
        cases ho1 : optionalText phone 20 "Customer phone too long (max 20 characters)" with
        | none => simp [hr1, hr2, ho1] at h
        | some v1 =>
          cases v1 with
          | error r => simp [hr1, hr2, ho1] at h
          | ok p =>
            cases ho2 : optionalText email 100
                "Customer email too long (max 100 characters)" with
            | none => simp [hr1, hr2, ho1, ho2] at h
            | some v2 =>
              cases v2 with
              | error r => simp [hr1, hr2, ho1, ho2] at h
              | ok e =>
                cases ho3 : optionalText address 255
                    "Customer address too long (max 255 characters)" with
                | none => simp [hr1, hr2, ho1, ho2, ho3] at h
                | some v3 =>
                  cases v3 with
                  | error r => simp [hr1, hr2, ho1, ho2, ho3] at h
                  | ok a =>
                    simp only [hr1, hr2, ho1, ho2, ho3, Option.some.injEq,
                      Except.ok.injEq] at h
                    obtain ⟨i, hi, hi1, hi2, hci⟩ := (requiredText_ok_iff _ _ _ _ _).mp hr1
                    obtain ⟨c, hc, hc1, hc2, hcn⟩ := (requiredText_ok_iff _ _ _ _ _).mp hr2
                    refine ⟨i, c, p, e, a, hi, hi1, hi2, hc, hc1, hc2,
                      (optionalText_ok_iff _ _ _ _).mp ho1, (optionalText_ok_iff _ _ _ _).mp ho2,
                      (optionalText_ok_iff _ _ _ _).mp ho3, ?_⟩
                    rw [← h, hci, hcn]
  · rintro ⟨i, c, p, e, a, hi, hi1, hi2, hc, hc1, hc2, hp, he, ha, hin⟩
    have hr1 := (requiredText_ok_iff item 500 "Order item is required"
      "Order item too long (max 500 characters)" (jsTrim i)).mpr ⟨i, hi, hi1, hi2, rfl⟩
    have hr2 := (requiredText_ok_iff name 100 "Customer name is required"
      "Customer name too long (max 100 characters)" (jsTrim c)).mpr ⟨c, hc, hc1, hc2, rfl⟩
    have ho1 := (optionalText_ok_iff phone 20
      "Customer phone too long (max 20 characters)" p).mpr hp
    have ho2 := (optionalText_ok_iff email 100
      "Customer email too long (max 100 characters)" e).mpr he
    have ho3 := (optionalText_ok_iff address 255
      "Customer address too long (max 255 characters)" a).mpr ha
    simp only [validateOrderFields, hr1, hr2, ho1, ho2, ho3, hin]

theorem validateOrderFields_refused (item name phone email address : JsVal)
    (hp : phone.truthy = true → phone.toJsString ≠ none)
    (he : email.truthy = true → email.toJsString ≠ none)
    (ha : address.truthy = true → address.toJsString ≠ none) :
    (∃ msg, validateOrderFields item name phone email address =
        some (Except.error (RouteResult.sent 400 (errorBody msg)))) ∨
    (∃ input, validateOrderFields item name phone email address = some (Except.ok input)) := by
  unfold validateOrderFields
  cases hr1 : requiredText item 500 "Order item is required"
      "Order item too long (max 500 characters)" with
  | error r =>
    obtain ⟨msg, hm⟩ := requiredText_error _ _ _ _ _ hr1
    exact Or.inl ⟨msg, by rw [hm]⟩
  | ok ci =>
    cases hr2 : requiredText name 100 "Customer name is required"
        "Customer name too long (max 100 characters)" with
    | error r =>
      obtain ⟨msg, hm⟩ := requiredText_error _ _ _ _ _ hr2
      exact Or.inl ⟨msg, by rw [hm]⟩
    | ok cn =>
      cases ho1 : optionalText phone 20 "Customer phone too long (max 20 characters)" with
      | none =>
        have hn := (optionalText_none_iff _ _ _).mp ho1
        exact absurd hn.2 (hp hn.1)
      | some v1 =>
        cases v1 with
        | error r => exact Or.inl ⟨_, by rw [optionalText_error _ _ _ _ ho1]⟩
        | ok p =>
          cases ho2 : optionalText email 100
              "Customer email too long (max 100 characters)" with
          | none =>
            have hn := (optionalText_none_iff _ _ _).mp ho2
            exact absurd hn.2 (he hn.1)
          | some v2 =>
            cases v2 with
            | error r => exact Or.inl ⟨_, by rw [optionalText_error _ _ _ _ ho2]⟩
            | ok e =>
              cases ho3 : optionalText address 255
                  "Customer address too long (max 255 characters)" with
              | none =>
                have hn := (optionalText_none_iff _ _ _).mp ho3
                exact absurd hn.2 (ha hn.1)
              | some v3 =>
                cases v3 with
                | error r => exact Or.inl ⟨_, by rw [optionalText_error _ _ _ _ ho3]⟩
                | ok a => exact Or.inr ⟨_, rfl⟩

theorem validateOrderBody_of_fields (body item name phone email address : JsVal)
    (h1 : body.getProp "item" = some item) (h2 : body.getProp "customer_name" = some name)
    (h3 : body.getProp "customer_phone" = some phone)
    (h4 : body.getProp "customer_email" = some email)
    (h5 : body.getProp "customer_address" = some address) :
    validateOrderBody body = validateOrderFields item name phone email address := by
  simp only [validateOrderBody, h1, h2, h3, h4, h5]

theorem validateOrderBody_fields (body : JsVal) (v : Except RouteResult OrderInput)
    (h : validateOrderBody body = some v) :
    ∃ item name phone email address, body.getProp "item" = some item ∧
      body.getProp "customer_name" = some name ∧ body.getProp "customer_phone" = some phone ∧
      body.getProp "customer_email" = some email ∧
      body.getProp "customer_address" = some address ∧
      validateOrderFields item name phone email address = some v := by
  unfold validateOrderBody at h
  cases h1 : body.getProp "item" with
  | none => simp [h1] at h
  | some item =>
    cases h2 : body.getProp "customer_name" with
    | none => simp [h1, h2] at h
    | some name =>
      cases h3 : body.getProp "customer_phone" with
      | none => simp [h1, h2, h3] at h
      | some phone =>
        cases h4 : body.getProp "customer_email" with
        | none => simp [h1, h2, h3, h4] at h
        | some email =>
          cases h5 : body.getProp "customer_address" with
          | none => simp [h1, h2, h3, h4, h5] at h
          | some address =>
            simp only [h1, h2, h3, h4, h5] at h
            exact ⟨item, name, phone, email, address, rfl, rfl, rfl, rfl, rfl, h⟩

theorem validateOrderBody_ok_iff (body : JsVal) (input : OrderInput) :
    validateOrderBody body = some (Except.ok input) ↔
      ∃ i c phone email address p e a,
        body.getProp "item" = some (JsVal.str i) ∧ jsTrim i ≠ "" ∧ utf16Length i ≤ 500 ∧
        body.getProp "customer_name" = some (JsVal.str c) ∧ jsTrim c ≠ "" ∧
        utf16Length c ≤ 100 ∧
        body.getProp "customer_phone" = some phone ∧ OptionalFieldOk phone 20 p ∧
        body.getProp "customer_email" = some email ∧ OptionalFieldOk email 100 e ∧
        body.getProp "customer_address" = some address ∧ OptionalFieldOk address 255 a ∧
        input = ⟨jsTrim i, jsTrim c, p, e, a⟩ := by
  constructor
  · intro h
    obtain ⟨item, name, phone, email, address, h1, h2, h3, h4, h5, hv⟩ :=
      validateOrderBody_fields body _ h
    obtain ⟨i, c, p, e, a, hi, hi1, hi2, hc, hc1, hc2, hp, he, ha, hin⟩ :=
      (validateOrderFields_ok_iff _ _ _ _ _ _).mp hv
    subst hi
    subst hc
    exact ⟨i, c, phone, email, address, p, e, a, h1, hi1, hi2, h2, hc1, hc2, h3, hp, h4, he,
      h5, ha, hin⟩
  · rintro ⟨i, c, phone, email, address, p, e, a, h1, hi1, hi2, h2, hc1, hc2, h3, hp, h4, he,
      h5, ha, hin⟩
    rw [validateOrderBody_of_fields body _ _ _ _ _ h1 h2 h3 h4 h5]
    exact (validateOrderFields_ok_iff _ _ _ _ _ _).mpr
      ⟨i, c, p, e, a, rfl, hi1, hi2, rfl, hc1, hc2, hp, he, ha, hin⟩

theorem validateOrderBody_refused (body : JsVal)
    (h1 : body ≠ JsVal.undefined) (h2 : body ≠ JsVal.null)
    (hconv : ∀ key ∈ ["customer_phone", "customer_email", "customer_address"],
      ∀ x, body.getProp key = some x → x.truthy = true → x.toJsString ≠ none) :
    (∃ msg, validateOrderBody body =
        some (Except.error (RouteResult.sent 400 (errorBody msg)))) ∨
    (∃ input, validateOrderBody body = some (Except.ok input)) := by
  obtain ⟨item, hi⟩ := JsVal.getProp_isSome body "item" h1 h2
  obtain ⟨name, hn⟩ := JsVal.getProp_isSome body "customer_name" h1 h2
  obtain ⟨phone, hp⟩ := JsVal.getProp_isSome body "customer_phone" h1 h2
  obtain ⟨email, he⟩ := JsVal.getProp_isSome body "customer_email" h1 h2
  obtain ⟨address, ha⟩ := JsVal.getProp_isSome body "customer_address" h1 h2
  rw [validateOrderBody_of_fields body _ _ _ _ _ hi hn hp he ha]
  exact validateOrderFields_refused item name phone email address
    (hconv _ (by decide) _ hp) (hconv _ (by decide) _ he) (hconv _ (by decide) _ ha)

theorem order_handlers_follow_validation (eng : Engine) (db : Store) (now : Nat)
    (user sub body : JsVal) (idParam : String) (orderId : Int)
    (hsub : user.getProp "sub" = some sub)
    (hid : parseInt10 idParam = some orderId) (hpos : 1 ≤ orderId) :
    (∀ input, validateOrderBody body = some (Except.ok input) →
      (postOrderRoute eng db now user body).calls =
        [RepoCall.createOrder input.item sub.asInt input.customer_name input.customer_phone
          input.customer_email input.customer_address] ∧
      (putOrderHandled db now idParam body).calls =
        [RepoCall.updateOrder orderId input.item input.customer_name input.customer_phone
          input.customer_email input.customer_address]) ∧
    (∀ r, validateOrderBody body = some (Except.error r) →
      (postOrderRoute eng db now user body).result = r ∧
      (postOrderRoute eng db now user body).calls = [] ∧
      (postOrderRoute eng db now user body).db = db ∧
      (putOrderHandled db now idParam body).result = r ∧
      (putOrderHandled db now idParam body).calls = [] ∧
      (putOrderHandled db now idParam body).db = db) ∧
    (validateOrderBody body = none →
      (postOrderRoute eng db now user body).result =
        RouteResult.sent 500 (errorBody "Failed to create order") ∧
      (postOrderRoute eng db now user body).calls = [] ∧
      (putOrderHandled db now idParam body).result =
        RouteResult.sent 500 (errorBody "Failed to update order") ∧
      (putOrderHandled db now idParam body).calls = []) := by
  have hlt : ¬ (orderId < 1) := by omega
  refine ⟨?_, ?_, ?_⟩
  · intro input hv
    constructor
    · simp only [postOrderRoute, hv, hsub]
      cases hc : createOrder eng db now input sub with
      | mk outcome db2 =>
        cases outcome with
        | error e => rfl
        | ok order => rfl
    · simp only [putOrderHandled, putOrderRoute, hv, hid, if_neg hlt]
      cases hu : updateOrder db now orderId input with
      | mk found db2 =>
        cases found with
        | none => rfl
        | some order => rfl
  · intro r hv
    simp only [postOrderRoute, putOrderHandled, putOrderRoute, hv, hid, if_neg hlt]
    exact ⟨trivial, trivial, trivial, trivial, trivial, trivial⟩
  · intro hv
    simp only [postOrderRoute, putOrderHandled, putOrderRoute, hv, hid, if_neg hlt]
    exact ⟨trivial, trivial, trivial, trivial⟩

/-- C25, at a body the claim sends to "called or 400": `item` and
`customer_name` are valid and `customer_phone` is a JSON object with an own
property `toString`. `String(customer_phone)` throws inside the `try` block, so
`POST /orders` and `PUT /orders/:id` answer 500 and call no repository
function. -/
theorem order_unconvertible_phone_answers_500 :
    (postOrderRoute sampleEngine sampleShop 1000 (JsVal.obj [("sub", JsVal.num 2)])
        orderBodyWithObjectPhone).result =
      RouteResult.sent 500 (errorBody "Failed to create order") ∧
    (postOrderRoute sampleEngine sampleShop 1000 (JsVal.obj [("sub", JsVal.num 2)])
        orderBodyWithObjectPhone).calls = [] ∧
    (putOrderHandled sampleShop 1000 "1" orderBodyWithObjectPhone).result =
      RouteResult.sent 500 (errorBody "Failed to update order") ∧
    (putOrderHandled sampleShop 1000 "1" orderBodyWithObjectPhone).calls = [] := by
  refine ⟨rfl, rfl, rfl, rfl⟩

theorem eval_postOrderRoute_sample :
    (postOrderRoute sampleEngine sampleShop 1000 (JsVal.obj [("sub", JsVal.num 2)])
        sampleOrderBody).calls =
      [RepoCall.createOrder "Notebook" (some 2) "An" (some "905123456") none none] := by
  rfl

/-! ### Role-permission replacement over HTTP -/

theorem eval_adminSetRolePermissions_sample :
    (adminSetRolePermissionsRoute sampleEngine sampleStringToNumber sampleStore
        sampleRolePermissionsBody).calls = [RepoCall.setRolePermissions 3 [1, 2, 1]] := by
  rfl

theorem eval_adminSetRolePermissions_sample_result :
    (adminSetRolePermissionsRoute sampleEngine sampleStringToNumber sampleStore
        sampleRolePermissionsBody).result =
      RouteResult.sent 500 (errorBody "Server error") := by
  rfl

theorem validIds_eq_filter (numbers : List JsNumber) :
    (validIds numbers).map JsNumber.int = numbers.filter isFinitePositive := by
  unfold validIds
  induction numbers with
  | nil => rfl
  | cons x rest ih =>
    cases x with
    | nan => simpa [List.filter, isFinitePositive] using ih
    | int n =>
      by_cases hn : n > 0
      · simpa [List.filter, isFinitePositive, hn] using ih
      · simpa [List.filter, isFinitePositive, hn] using ih

theorem mapNumber_eq_some_iff (stringToNumber : String → JsNumber) (entries : List JsVal)
    (numbers : List JsNumber) :
    mapNumber stringToNumber entries = some numbers ↔
      entries.map (JsVal.toNumber stringToNumber) = numbers.map some := by
  induction entries generalizing numbers with
  | nil =>
    cases numbers with
    | nil => simp [mapNumber]
    | cons y ys => simp [mapNumber]
  | cons x rest ih =>
    unfold mapNumber
    cases hx : x.toNumber stringToNumber with
    | none =>
      cases numbers with
      | nil => simp
      | cons y ys => simp [hx]
    | some a =>
      cases hrest : mapNumber stringToNumber rest with
      | none =>
        cases numbers with
        | nil => simp
        | cons y ys =>
          have hno := (ih ys).not.mp (by rw [hrest]; simp)
          simp [hx, hno]
      | some b =>
        have hb := (ih b).mp hrest
        cases numbers with
        | nil => simp
        | cons y ys =>
          simp only [Option.some.injEq, List.cons.injEq, List.map_cons, hx, hb]
          constructor
          · rintro ⟨h1, h2⟩
            exact ⟨h1, by rw [h2]⟩
          · rintro ⟨h1, h2⟩
            refine ⟨h1, ?_⟩
            exact List.map_injective_iff.mpr (Option.some_injective _) h2

theorem adminSetRolePermissions_missing (eng : Engine) (stringToNumber : String → JsNumber)
    (db : Store) (body roleId permissionIds : JsVal) (hbody : body.truthy = true)
    (hr : body.getProp "roleId" = some roleId)
    (hp : body.getProp "permissionIds" = some permissionIds)
    (h : roleId.truthy = false ∨ ∀ entries, permissionIds ≠ JsVal.arr entries) :
    adminSetRolePermissionsRoute eng stringToNumber db body =
      { result := RouteResult.sent 400 (errorBody "roleId and permissionIds required"),
        db := db } := by
  unfold adminSetRolePermissionsRoute
  simp only [hbody, if_true, hr, hp]
  cases permissionIds with
  | arr entries =>
    rcases h with h | h
    · simp [h]
    · exact absurd rfl (h entries)
  | _ => rfl

theorem adminSetRolePermissions_no_body (eng : Engine) (stringToNumber : String → JsNumber)
    (db : Store) (body : JsVal) (hbody : body.truthy = false) :
    adminSetRolePermissionsRoute eng stringToNumber db body =
      { result := RouteResult.sent 400 (errorBody "roleId and permissionIds required"),
        db := db } := by
  unfold adminSetRolePermissionsRoute
  simp only [hbody]
  rfl

theorem adminSetRolePermissions_validation (eng : Engine)
    (stringToNumber : String → JsNumber) (db : Store) (body roleId : JsVal)
    (entries : List JsVal) (text : String) (hbody : body.truthy = true)
    (hr : body.getProp "roleId" = some roleId)
    (hp : body.getProp "permissionIds" = some (JsVal.arr entries))
    (htruthy : roleId.truthy = true) (htext : roleId.toJsString = some text) :
    ((parseInt10 text = none ∨ ∃ n, parseInt10 text = some n ∧ n < 1) →
      adminSetRolePermissionsRoute eng stringToNumber db body =
        { result := RouteResult.sent 400 (errorBody "Invalid roleId"), db := db }) ∧
    (∀ n, parseInt10 text = some n → 1 ≤ n → 100 < entries.length →
      adminSetRolePermissionsRoute eng stringToNumber db body =
        { result := RouteResult.sent 400 (errorBody "Too many permissions"), db := db }) ∧
    (∀ n numbers, parseInt10 text = some n → 1 ≤ n → entries.length ≤ 100 →
      mapNumber stringToNumber entries = some numbers →
      (adminSetRolePermissionsRoute eng stringToNumber db body).calls =
        [RepoCall.setRolePermissions n (validIds numbers)] ∧
      (adminSetRolePermissionsRoute eng stringToNumber db body).db =
        (setRolePermissions eng db n (validIds numbers)).2 ∧
      ((setRolePermissions eng db n (validIds numbers)).1 = Except.ok () →
        (adminSetRolePermissionsRoute eng stringToNumber db body).result =
          RouteResult.sent 200 (JsVal.obj [("ok", JsVal.bool true)])) ∧
      (∀ e, (setRolePermissions eng db n (validIds numbers)).1 = Except.error e →
        (adminSetRolePermissionsRoute eng stringToNumber db body).result =
          RouteResult.sent 500 (errorBody "Server error"))) ∧
    (∀ n, parseInt10 text = some n → 1 ≤ n → entries.length ≤ 100 →
      mapNumber stringToNumber entries = none →
      (∃ message, (adminSetRolePermissionsRoute eng stringToNumber db body).result =
        RouteResult.raised message) ∧
      (adminSetRolePermissionsRoute eng stringToNumber db body).calls = []) := by
  refine ⟨?_, ?_, ?_, ?_⟩
  · intro h
    unfold adminSetRolePermissionsRoute
    simp only [hbody, if_true, hr, hp, htruthy, htext]
    rcases h with h | ⟨n, h, hn⟩
    · simp [h]
    · simp [h, hn]
  · intro n h hn hlen
    have h1 : ¬ (n < 1) := by omega
    unfold adminSetRolePermissionsRoute
    simp [hbody, hr, hp, htruthy, htext, h, h1, hlen]
  · intro n numbers h hn hlen hmap
    have h1 : ¬ (n < 1) := by omega
    have h2 : ¬ (100 < entries.length) := by omega
    unfold adminSetRolePermissionsRoute
    simp only [hbody, if_true, hr, hp, htruthy, htext, h, h1, h2, hmap, Bool.not_true,
      Bool.false_eq_true, if_false, gt_iff_lt]
    cases hset : setRolePermissions eng db n (validIds numbers) with
    | mk outcome db2 =>
      cases outcome with
      | ok u =>
        refine ⟨rfl, rfl, fun _ => rfl, ?_⟩
        intro e he
        cases he
      | error e =>
        refine ⟨rfl, rfl, ?_, fun _ _ => rfl⟩
        intro he
        cases he
  · intro n h hn hlen hmap
    have h1 : ¬ (n < 1) := by omega
    have h2 : ¬ (100 < entries.length) := by omega
    unfold adminSetRolePermissionsRoute
    simp only [hbody, if_true, hr, hp, htruthy, htext, h, h1, h2, hmap, Bool.not_true,
      Bool.false_eq_true, if_false, gt_iff_lt]
    exact ⟨⟨_, rfl⟩, trivial⟩

/-- C29, at a body the claim sends to a call of `repo.setRolePermissions`:
`roleId` is `3` and `permissionIds` holds `1` and an object whose only property
is `toString`. The claim drops the second entry silently and has the role's permissions replaced by
`[1]`; `Number` throws on that entry outside the `try` block, so the handler
ends with an exception, calls no repository function and leaves the store as
it is. -/
theorem role_permissions_unconvertible_entry_throws :
    (adminSetRolePermissionsRoute sampleEngine sampleStringToNumber sampleStore
        rolePermissionsBodyWithObjectEntry).result =
      RouteResult.raised "TypeError: Cannot convert object to primitive value" ∧
    (adminSetRolePermissionsRoute sampleEngine sampleStringToNumber sampleStore
        rolePermissionsBodyWithObjectEntry).calls = [] ∧
    (adminSetRolePermissionsRoute sampleEngine sampleStringToNumber sampleStore
        rolePermissionsBodyWithObjectEntry).db = sampleStore := by
  refine ⟨rfl, rfl, rfl⟩

/-! ### Users with their roles -/

theorem eval_getUsersWithRoles_sample :
    getUsersWithRoles sampleRows =
      [⟨1, "admin", ["Admin", "Manager"]⟩, ⟨2, "guest", []⟩, ⟨3, "staff", ["Staff"]⟩] := by
  decide

/-- C30 as stated fails on a row whose role name is the empty string: the name
is not null, yet the test `if (row.name_role)` drops it, so the user's roles
list is empty and the result holds no role name for one row with a non-null
name. -/
theorem getUsersWithRoles_drops_empty_name :
    getUsersWithRoles [⟨1, "admin", some ""⟩] = [⟨1, "admin", []⟩] ∧
    totalRoles (getUsersWithRoles [⟨1, "admin", some ""⟩]) = 0 ∧
    (([⟨1, "admin", some ""⟩] : List UserRoleRow).filter
      (fun row => row.name_role.isSome)).length = 1 := by
  decide

theorem any_id_iff (map : List UserWithRoles) (i : Int) :
    map.any (fun e => e.id == i) = true ↔ i ∈ map.map (fun e => e.id) := by
  simp only [List.any_eq_true, beq_iff_eq, List.mem_map]

theorem pushRole_ids (map : List UserWithRoles) (i : Int) (name : String) :
    (map.map (fun e => if e.id == i then { e with roles := e.roles ++ [name] } else e)).map
      (fun e => e.id) = map.map (fun e => e.id) := by
  rw [List.map_map]
  apply List.map_congr_left
  intro e _
  simp only [Function.comp]
  by_cases h : (e.id == i) = true
  · rw [if_pos h]
  · rw [if_neg h]

theorem groupRow_ids (map : List UserWithRoles) (row : UserRoleRow) :
    (groupRow map row).map (fun e => e.id) =
      if row.id ∈ map.map (fun e => e.id) then map.map (fun e => e.id)
      else map.map (fun e => e.id) ++ [row.id] := by
  unfold groupRow
  by_cases h : row.id ∈ map.map (fun e => e.id)
  · have ha := (any_id_iff map row.id).mpr h
    rw [if_pos h]
    simp only [ha, if_true]
    cases keptRole row with
    | none => rfl
    | some name => exact pushRole_ids map row.id name
  · have ha : ¬ (map.any (fun e => e.id == row.id) = true) := fun hc =>
      h ((any_id_iff map row.id).mp hc)
    rw [if_neg h]
    simp only [ha, if_false]
    cases keptRole row with
    | none => simp
    | some name =>
      simp only
      rw [pushRole_ids]
      simp

theorem foldl_groupRow_ids (rows : List UserRoleRow) (map : List UserWithRoles) :
    (rows.foldl groupRow map).map (fun e => e.id) =
      map.map (fun e => e.id) ++
        (firstAppearances (rows.map (fun r => r.id))).filter
          (fun i => decide (i ∉ map.map (fun e => e.id))) := by
  induction rows generalizing map with
  | nil => simp [firstAppearances]
  | cons row rest ih =>
    rw [List.foldl_cons, ih, groupRow_ids]
    simp only [List.map_cons, firstAppearances]
    by_cases h : row.id ∈ map.map (fun e => e.id)
    · rw [if_pos h]
      congr 1
      rw [List.filter_cons_of_neg (by simpa using h), List.filter_filter]
      apply List.filter_congr
      intro y _
      by_cases hy : y ∈ map.map (fun e => e.id)
      · simp [hy]
      · have hne : y ≠ row.id := fun hc => hy (hc ▸ h)
        simp [hy, hne]
    · rw [if_neg h, List.filter_cons_of_pos (by simpa using h), List.append_assoc,
        List.singleton_append, List.filter_filter]
      congr 2
      apply List.filter_congr
      intro y _
      by_cases hy : y ∈ map.map (fun e => e.id)
      · simp [hy]
      · by_cases hne : y = row.id
        · simp [hy, hne]
        · simp [hy, hne]

theorem groupRow_nodup (map : List UserWithRoles) (row : UserRoleRow)
    (h : (map.map (fun e => e.id)).Nodup) : ((groupRow map row).map (fun e => e.id)).Nodup := by
  rw [groupRow_ids]
  by_cases hm : row.id ∈ map.map (fun e => e.id)
  · rw [if_pos hm]
    exact h
  · rw [if_neg hm]
    rw [List.nodup_append]
    refine ⟨h, List.nodup_singleton _, ?_⟩
    intro a ha hb
    rw [List.mem_singleton] at hb
    exact hm (hb ▸ ha)

theorem foldl_groupRow_nodup (rows : List UserRoleRow) (map : List UserWithRoles)
    (h : (map.map (fun e => e.id)).Nodup) :
    ((rows.foldl groupRow map).map (fun e => e.id)).Nodup := by
  induction rows generalizing map with
  | nil => exact h
  | cons row rest ih => exact ih _ (groupRow_nodup map row h)

theorem rolesAt_cons (x : UserWithRoles) (l : List UserWithRoles) (j : Int) :
    rolesAt (x :: l) j = if x.id = j then x.roles else rolesAt l j := by
  by_cases h : x.id = j
  · simp [rolesAt, List.find?_cons, h]
  · simp [rolesAt, List.find?_cons, h]

theorem rolesAt_pushRole (map : List UserWithRoles) (i : Int) (name : String) (j : Int) :
    rolesAt
      (map.map (fun e => if e.id == i then { e with roles := e.roles ++ [name] } else e)) j =
      if i = j ∧ j ∈ map.map (fun e => e.id) then rolesAt map j ++ [name] else rolesAt map j := by
  induction map with
  | nil => simp [rolesAt]
  | cons e rest ih =>
    rw [List.map_cons, rolesAt_cons, rolesAt_cons, ih]
    by_cases hi : e.id = i
    · have hb : (e.id == i) = true := by simp [hi]
      simp only [hb, if_true]
      by_cases hj : e.id = j
      · have hij : i = j := hi ▸ hj
        rw [if_pos hj, if_pos hj, if_pos ⟨hij, by simp [hj.symm]⟩]
      · have hij : ¬ (i = j) := fun hc => hj (hi.trans hc)
        rw [if_neg hj, if_neg hj, if_neg (fun hc => hij hc.1), if_neg (fun hc => hij hc.1)]
    · have hb : ¬ ((e.id == i) = true) := by simpa using hi
      simp only [hb, Bool.false_eq_true, if_false]
      by_cases hj : e.id = j
      · have hij : ¬ (i = j) := fun hc => hi (hj.trans hc.symm)
        rw [if_pos hj, if_pos hj, if_neg (fun hc => hij hc.1)]
      · have hj2 : ¬ (j = e.id) := fun hc => hj hc.symm
        rw [if_neg hj, if_neg hj]
        simp only [List.map_cons, List.mem_cons, hj2, false_or]

theorem rolesAt_append_fresh (map : List UserWithRoles) (i : Int) (username : String)
    (j : Int) : rolesAt (map ++ [{ id := i, username := username, roles := [] }]) j =
      rolesAt map j := by
  induction map with
  | nil =>
    by_cases h : i = j
    · simp [rolesAt, List.find?_cons, h]
    · simp [rolesAt, List.find?_cons, h]
  | cons e rest ih =>
    by_cases h : e.id = j
    · simp [rolesAt, List.find?_cons, h]
    · have hfind : ∀ (l : List UserWithRoles), rolesAt (e :: l) j = rolesAt l j := by
        intro l
        simp [rolesAt, List.find?_cons, h]
      rw [List.cons_append, hfind, hfind, ih]

theorem rolesAt_groupRow (map : List UserWithRoles) (row : UserRoleRow) (j : Int) :
    rolesAt (groupRow map row) j =
      rolesAt map j ++ (if row.id = j then (keptRole row).toList else []) := by
  unfold groupRow
  by_cases h : row.id ∈ map.map (fun e => e.id)
  · have ha := (any_id_iff map row.id).mpr h
    simp only [ha, if_true]
    cases keptRole row with
    | none => simp
    | some name =>
      simp only
      rw [rolesAt_pushRole]
      by_cases hj : row.id = j
      · rw [if_pos ⟨hj, hj ▸ h⟩, if_pos hj]
        rfl
      · rw [if_neg (fun hc => hj hc.1), if_neg hj, List.append_nil]
  · have ha : ¬ (map.any (fun e => e.id == row.id) = true) := fun hc =>
      h ((any_id_iff map row.id).mp hc)
    simp only [ha, Bool.false_eq_true, if_false]
    cases keptRole row with
    | none => simp [rolesAt_append_fresh]
    | some name =>
      simp only
      rw [rolesAt_pushRole, rolesAt_append_fresh]
      by_cases hj : row.id = j
      · rw [if_pos ⟨hj, by simp [hj.symm]⟩, if_pos hj]
        rfl
      · rw [if_neg (fun hc => hj hc.1), if_neg hj, List.append_nil]

theorem rolesAt_foldl (rows : List UserRoleRow) (map : List UserWithRoles) (j : Int) :
    rolesAt (rows.foldl groupRow map) j =
      rolesAt map j ++ (rows.filter (fun r => r.id == j)).filterMap keptRole := by
  induction rows generalizing map with
  | nil => simp
  | cons row rest ih =>
    rw [List.foldl_cons, ih, rolesAt_groupRow, List.append_assoc]
    congr 1
    by_cases hj : row.id = j
    · rw [if_pos hj, List.filter_cons_of_pos (by simpa using hj)]
      cases hk : keptRole row with
      | none => simp [List.filterMap_cons, hk]
      | some name => simp [List.filterMap_cons, hk]
    · rw [if_neg hj, List.filter_cons_of_neg (by simpa using hj)]
      rfl

theorem rolesAt_of_mem (map : List UserWithRoles) (h : (map.map (fun e => e.id)).Nodup)
    (e : UserWithRoles) (he : e ∈ map) : rolesAt map e.id = e.roles := by
  induction map with
  | nil => cases he
  | cons x rest ih =>
    rw [List.map_cons, List.nodup_cons] at h
    rcases List.mem_cons.mp he with hx | hx
    · subst hx
      simp [rolesAt, List.find?_cons]
    · have hne : ¬ (x.id = e.id) := fun hc =>
        h.1 (hc ▸ List.mem_map_of_mem (fun e => e.id) hx)
      have hstep : rolesAt (x :: rest) e.id = rolesAt rest e.id := by
        simp [rolesAt, List.find?_cons, hne]
      rw [hstep]
      exact ih h.2 hx

theorem totalRoles_pushRole (map : List UserWithRoles) (i : Int) (name : String)
    (h : (map.map (fun e => e.id)).Nodup) :
    totalRoles
      (map.map (fun e => if e.id == i then { e with roles := e.roles ++ [name] } else e)) =
      totalRoles map + (if i ∈ map.map (fun e => e.id) then 1 else 0) := by
  induction map with
  | nil => simp [totalRoles]
  | cons e rest ih =>
    rw [List.map_cons, List.nodup_cons] at h
    have ih2 := ih h.2
    unfold totalRoles at ih2 ⊢
    simp only [List.map_cons, List.sum_cons]
    rw [ih2]
    by_cases hi : e.id = i
    · have hnot : i ∉ rest.map (fun e => e.id) := hi ▸ h.1
      simp [hi, hnot]
      omega
    · have hi2 : ¬ (i = e.id) := fun hc => hi hc.symm
      simp [hi, hi2]
      omega

theorem totalRoles_groupRow (map : List UserWithRoles) (row : UserRoleRow)
    (h : (map.map (fun e => e.id)).Nodup) :
    totalRoles (groupRow map row) = totalRoles map + (keptRole row).toList.length := by
  have hnd := groupRow_nodup map row h
  unfold groupRow at hnd ⊢
  by_cases hm : row.id ∈ map.map (fun e => e.id)
  · have ha := (any_id_iff map row.id).mpr hm
    simp only [ha, if_true]
    cases keptRole row with
    | none => simp
    | some name =>
      simp only
      rw [totalRoles_pushRole map row.id name h, if_pos hm]
      rfl
  · have ha : ¬ (map.any (fun e => e.id == row.id) = true) := fun hc =>
      hm ((any_id_iff map row.id).mp hc)
    have hfresh : (((map ++ [({ id := row.id, username := row.username, roles := [] } :
        UserWithRoles)]).map (fun e => e.id))).Nodup := by
      rw [List.map_append, List.nodup_append]
      refine ⟨h, List.nodup_singleton _, ?_⟩
      intro a h1 h2
      simp only [List.map_cons, List.map_nil, List.mem_singleton] at h2
      exact hm (h2 ▸ h1)
    have htotal : totalRoles (map ++ [({ id := row.id, username := row.username, roles := [] } :
        UserWithRoles)]) = totalRoles map := by
      simp [totalRoles]
    simp only [ha, Bool.false_eq_true, if_false]
    cases keptRole row with
    | none => simpa using htotal
    | some name =>
      simp only
      rw [totalRoles_pushRole _ row.id name hfresh, htotal, if_pos (by simp)]
      rfl

theorem totalRoles_foldl (rows : List UserRoleRow) (map : List UserWithRoles)
    (h : (map.map (fun e => e.id)).Nodup) :
    totalRoles (rows.foldl groupRow map) = totalRoles map + (rows.filterMap keptRole).length := by
  induction rows generalizing map with
  | nil => simp
  | cons row rest ih =>
    rw [List.foldl_cons, ih _ (groupRow_nodup map row h), totalRoles_groupRow map row h]
    cases hk : keptRole row with
    | none => simp [List.filterMap_cons, hk]
    | some name =>
      simp [List.filterMap_cons, hk]
      omega

theorem keptRole_eq (row : UserRoleRow) :
    keptRole row = row.name_role.filter (fun name => name != "") := by
  unfold keptRole
  cases row.name_role with
  | none => rfl
  | some name =>
    by_cases h : (name != "") = true
    · simp [Option.filter, h]
    · simp [Option.filter, h]

theorem mem_firstAppearances (l : List Int) (i : Int) : i ∈ firstAppearances l ↔ i ∈ l := by
  induction l with
  | nil => simp [firstAppearances]
  | cons x xs ih =>
    simp only [firstAppearances, List.mem_cons, List.mem_filter, ih, bne_iff_ne, ne_eq]
    constructor
    · rintro (h | h)
      · exact Or.inl h
      · exact Or.inr h.1
    · rintro (h | h)
      · exact Or.inl h
      · by_cases hx : i = x
        · exact Or.inl hx
        · exact Or.inr ⟨h, hx⟩

theorem length_filterMap_eq (rows : List UserRoleRow) (f : UserRoleRow → Option String) :
    (rows.filterMap f).length = (rows.filter (fun r => (f r).isSome)).length := by
  induction rows with
  | nil => rfl
  | cons r rest ih =>
    cases h : f r with
    | none => simp [List.filterMap_cons, List.filter_cons, h, ih]
    | some v => simp [List.filterMap_cons, List.filter_cons, h, ih]

/-- C30, amended. For every list of rows of the users-with-roles query,
`getUsersWithRoles` returns exactly one entry per distinct user id, in order of
first appearance; the roles list of an entry is the role names of that user's
rows that are neither null nor empty, in row order; a user all of whose rows
have a null role name has an empty roles list; and the number of role names in
the result is the number of rows whose role name is neither null nor empty. -/
theorem getUsersWithRoles_groups (rows : List UserRoleRow) :
    (getUsersWithRoles rows).map (fun e => e.id) =
      firstAppearances (rows.map (fun r => r.id)) ∧
    ((getUsersWithRoles rows).map (fun e => e.id)).Nodup ∧
    (∀ i, i ∈ (getUsersWithRoles rows).map (fun e => e.id) ↔ ∃ r ∈ rows, r.id = i) ∧
    (∀ e ∈ getUsersWithRoles rows,
      e.roles = (rows.filter (fun r => r.id == e.id)).filterMap
        (fun r => r.name_role.filter (fun name => name != ""))) ∧
    (∀ e ∈ getUsersWithRoles rows,
      (∀ r ∈ rows, r.id = e.id → r.name_role = none) → e.roles = []) ∧
    totalRoles (getUsersWithRoles rows) =
      (rows.filter
        (fun r => (r.name_role.filter (fun name => name != "")).isSome)).length := by
  have hkept : keptRole = fun r => r.name_role.filter (fun name => name != "") :=
    funext keptRole_eq
  have hids : (getUsersWithRoles rows).map (fun e => e.id) =
      firstAppearances (rows.map (fun r => r.id)) := by
    unfold getUsersWithRoles
    rw [foldl_groupRow_ids]
    simp
  have hnd : ((getUsersWithRoles rows).map (fun e => e.id)).Nodup :=
    foldl_groupRow_nodup rows [] List.nodup_nil
  have hroles : ∀ e ∈ getUsersWithRoles rows,
      e.roles = (rows.filter (fun r => r.id == e.id)).filterMap
        (fun r => r.name_role.filter (fun name => name != "")) := by
    intro e he
    rw [← rolesAt_of_mem _ hnd e he]
    unfold getUsersWithRoles
    rw [rolesAt_foldl, hkept]
    rfl
  refine ⟨hids, hnd, ?_, hroles, ?_, ?_⟩
  · intro i
    rw [hids, mem_firstAppearances, List.mem_map]
  · intro e he hnone
    rw [hroles e he, List.filterMap_eq_nil_iff]
    intro r hr
    rw [List.mem_filter] at hr
    have hid : r.id = e.id := by simpa using hr.2
    rw [hnone r hr.1 hid]
    rfl
  · unfold getUsersWithRoles
    rw [totalRoles_foldl rows [] List.nodup_nil, hkept, length_filterMap_eq]
    simp [totalRoles]


/-- Witness for C30: the user without a role in the sample recordset. -/
theorem getUsersWithRoles_groups_witness :
    (⟨2, "guest", []⟩ : UserWithRoles) ∈ getUsersWithRoles sampleRows ∧
    (⟨2, "guest", []⟩ : UserWithRoles).roles = [] :=
  ⟨by decide, (getUsersWithRoles_groups sampleRows).2.2.2.2.1 ⟨2, "guest", []⟩ (by decide)
    (by decide)⟩

end Rbac
